import Mathlib

/-!
# The AST subsystem of the JavaScript front end (`js-parser/src/ast.c`, `ast.h`)
and its driver (`js-parser/src/main.c`)

A shallow embedding of the node model, the builder functions, the growable
statement list, the tree printer `print_ast` and the teardown `free_ast`.

Conventions of the embedding

* A pointer to a node (`ASTNode *`) is an `Option ASTNode`; `none` is `NULL`.
* Every storage block has an identity, an `Addr`.  Blocks handed out by
  `malloc`, `strdup` and `realloc` are `Addr.heap n`; a string literal of the
  program text lives at `Addr.static`.
* `malloc`, `strdup` and `realloc` are taken to succeed, so the branches that
  print "Out of memory" and call `exit(1)` are not part of the embedding.
* `int` fields are `Int`; `int` is 32 bits wide (`INT_MIN`, `INT_MAX`).  `count`
  of a statement list is the length of the initialised prefix
  `statements[0 .. count-1]` of its item array.
* Functions that switch on `node->type` and then read a member of the union
  `node->data` return `none` where the C program has no defined behaviour:
  the union holds another member than the one read, a `NULL` record is
  dereferenced, `capacity * 2` leaves the range of `int`, or a store falls
  outside the item array.
* The driver `main` runs in surroundings (`Env`) that say which files can be
  opened and what the lexer and the parser, which lie outside the subsystem,
  make of an input.  `argv[0]` is the program name and the remaining
  arguments are a list; a run yields its exit status and the sequence of what
  it does (text written to the streams, calls of the other functions).
-/

namespace JsAst

/-- The enumeration `NodeType` of `ast.h`, in declaration order. -/
inductive NodeType where
  | NODE_PROGRAM
  | NODE_STATEMENT_LIST
  | NODE_EXPRESSION_STMT
  | NODE_VAR_DECLARATION
  | NODE_LET_DECLARATION
  | NODE_CONST_DECLARATION
  | NODE_FUNCTION_DECLARATION
  | NODE_IF_STATEMENT
  | NODE_WHILE_STATEMENT
  | NODE_FOR_STATEMENT
  | NODE_RETURN_STATEMENT
  | NODE_BREAK_STATEMENT
  | NODE_CONTINUE_STATEMENT
  | NODE_THROW_STATEMENT
  | NODE_BLOCK_STATEMENT
  | NODE_EMPTY_STATEMENT
  | NODE_BINARY_EXPR
  | NODE_UNARY_EXPR
  | NODE_UPDATE_EXPR
  | NODE_ASSIGNMENT_EXPR
  | NODE_CONDITIONAL_EXPR
  | NODE_CALL_EXPR
  | NODE_MEMBER_EXPR
  | NODE_NEW_EXPR
  | NODE_COMMA_EXPR
  | NODE_IDENTIFIER
  | NODE_LITERAL
  | NODE_THIS
  | NODE_ARRAY_EXPR
  | NODE_OBJECT_EXPR
  deriving DecidableEq, Repr

/-- Identity of a storage block: a heap block, or the static storage of a
string literal of the program text. -/
inductive Addr where
  | heap (n : Nat)
  | static (text : String)
  deriving DecidableEq, Repr

/-- A `char *` to a NUL-terminated string: the block it points to and the
characters stored there. -/
structure CStr where
  addr : Addr
  text : String
  deriving DecidableEq, Repr

/-- The anonymous enumeration of `struct Literal`. -/
inductive LitKind where
  | LIT_NULL
  | LIT_BOOLEAN
  | LIT_NUMBER
  | LIT_STRING
  | LIT_BIGINT
  deriving DecidableEq, Repr

/-- The union `value` of `struct Literal`: all bytes zero (after `memset`),
the member `boolean`, or the member `string`. -/
inductive LitValue where
  | zero
  | boolean (v : Int)
  | string (s : CStr)
  deriving DecidableEq, Repr

mutual
/-- The record `struct ASTNode`: discriminant, position, the union `data`;
`addr` is the block the record itself occupies. -/
inductive ASTNode where
  | mk (type : NodeType) (line : Int) (column : Int) (addr : Addr) (data : Data)
/-- The union `data` of `struct ASTNode`.  `null` is the all-zero union left by
`memset` (every member reads as `NULL`); each payload record carries the block
`blk` it was allocated in; `child` is a non-`NULL` `ASTNode *child`. -/
inductive Data where
  | null
  | program (blk : Addr) (body : Option ASTNode)
  | stmt_list (blk : Addr) (arr : Addr) (statements : List (Option ASTNode)) (capacity : Int)
  | var_decl (blk : Addr) (kind : CStr) (name : CStr) (init : Option ASTNode)
  | func_decl (blk : Addr) (name : CStr) (params : Option ASTNode) (body : Option ASTNode)
      (is_async : Int) (is_generator : Int)
  | if_stmt (blk : Addr) (test : Option ASTNode) (consequent : Option ASTNode)
      (alternate : Option ASTNode)
  | while_stmt (blk : Addr) (test : Option ASTNode) (body : Option ASTNode)
  | for_stmt (blk : Addr) (init : Option ASTNode) (test : Option ASTNode)
      (update : Option ASTNode) (body : Option ASTNode)
  | return_stmt (blk : Addr) (argument : Option ASTNode)
  | binary_expr (blk : Addr) (operator : CStr) (left : Option ASTNode) (right : Option ASTNode)
  | unary_expr (blk : Addr) (operator : CStr) (argument : Option ASTNode) (prefix_flag : Int)
  | assign_expr (blk : Addr) (operator : CStr) (left : Option ASTNode) (right : Option ASTNode)
  | cond_expr (blk : Addr) (test : Option ASTNode) (consequent : Option ASTNode)
      (alternate : Option ASTNode)
  | call_expr (blk : Addr) (callee : Option ASTNode) (arguments : Option ASTNode)
  | member_expr (blk : Addr) (object : Option ASTNode) (property : Option ASTNode)
      (computed : Int)
  | identifier (blk : Addr) (name : CStr)
  | literal (blk : Addr) (kind : LitKind) (value : LitValue)
  | child (n : ASTNode)
end

/-- An `ASTNode *`. -/
abbrev Ptr := Option ASTNode

/-- Reads `node->type`. -/
def ASTNode.type : ASTNode → NodeType
  | .mk t _ _ _ _ => t

/-- Reads `node->line`. -/
def ASTNode.line : ASTNode → Int
  | .mk _ l _ _ _ => l

/-- Reads `node->column`. -/
def ASTNode.column : ASTNode → Int
  | .mk _ _ c _ _ => c

/-- The block the node record occupies (the pointer value itself). -/
def ASTNode.addr : ASTNode → Addr
  | .mk _ _ _ a _ => a

/-- Reads the union `node->data`. -/
def ASTNode.data : ASTNode → Data
  | .mk _ _ _ _ d => d

/-- The assignment `node->data.<member> = d`. -/
def ASTNode.setData : ASTNode → Data → ASTNode
  | .mk t l c a _, d => .mk t l c a d

/-- The assignment `node->data.child = p`: a `NULL` child leaves the union
all zero. -/
def Data.ofChild : Ptr → Data
  | none => .null
  | some n => .child n

/-- The state outside the tree that the subsystem reads and writes: the
allocator (next fresh block, outstanding blocks), the scan cursor of the lexer
(`yylineno`, `yycolno`) and the text written to standard error. -/
structure World where
  next : Nat
  live : List Addr
  yylineno : Int
  yycolno : Int
  stderr : String
  deriving DecidableEq, Repr

/-- A successful `malloc`: a fresh block, recorded as outstanding. -/
def malloc (w : World) : Addr × World :=
  (Addr.heap w.next, { w with next := w.next + 1, live := Addr.heap w.next :: w.live })

/-- A successful `strdup`: a fresh block holding a copy of the text. -/
def strdup (s : String) (w : World) : CStr × World :=
  ({ addr := Addr.heap w.next, text := s },
   { w with next := w.next + 1, live := Addr.heap w.next :: w.live })

/-- A successful `realloc`: the old block is given back and a fresh block
holding the old contents is handed out. -/
def realloc (old : Addr) (w : World) : Addr × World :=
  (Addr.heap w.next, { w with next := w.next + 1, live := Addr.heap w.next :: w.live.erase old })

/-- The call `free(a)`: the block stops being outstanding; `none` when it is not
outstanding (a double free, or a block the allocator never handed out). -/
def free (a : Addr) (w : World) : Option World :=
  if a ∈ w.live then some { w with live := w.live.erase a } else none

/-- A sequence of `free` calls, in order. -/
def releaseAll : List Addr → World → Option World
  | [], w => some w
  | a :: rest, w => (free a w).bind (releaseAll rest)

/-- A string literal of the program text used as a `char *`. -/
def CStr.literal (s : String) : CStr := { addr := Addr.static s, text := s }

/-- Largest value of `int`. -/
def INT_MAX : Int := 2147483647

/-- Smallest value of `int`. -/
def INT_MIN : Int := -2147483648

/-- The C function `create_node`: a fresh node record of the given type at the current scan
cursor, its union zeroed. -/
def create_node (type : NodeType) (w : World) : ASTNode × World :=
  let (a, w1) := malloc w
  (ASTNode.mk type w.yylineno w.yycolno a Data.null, w1)

/-- The C function `create_program`. -/
def create_program (body : Ptr) (w : World) : ASTNode × World :=
  let (node, w1) := create_node .NODE_PROGRAM w
  let (prog, w2) := malloc w1
  (node.setData (.program prog body), w2)

/-- The C function `create_statement_list`: capacity 16, count 0, a fresh item array. -/
def create_statement_list (w : World) : ASTNode × World :=
  let (node, w1) := create_node .NODE_STATEMENT_LIST w
  let (list, w2) := malloc w1
  let (arr, w3) := malloc w2
  (node.setData (.stmt_list list arr [] 16), w3)

/-- The C function `append_statement`.  Returns the pointer the C function returns and the
world after the call; `none` where the C function has no defined result. -/
def append_statement (list : Ptr) (stmt : Ptr) (w : World) : Option (Ptr × World) :=
  match list with
  | none => some (stmt, w)
  | some l =>
    match stmt with
    | none => some (list, w)
    | some _ =>
      if l.type ≠ .NODE_STATEMENT_LIST then
        some (list, { w with stderr := w.stderr ++ "Error: Trying to append to non-list node\n" })
      else
        match l.data with
        | .stmt_list blk arr statements capacity =>
          if (statements.length : Int) ≥ capacity then
            -- sl->capacity *= 2; sl->statements = realloc(...)
            if capacity * 2 > INT_MAX ∨ capacity * 2 < INT_MIN then none
            else if (statements.length : Int) ≥ capacity * 2 then none
            else
              let (arr1, w1) := realloc arr w
              some (some (l.setData (.stmt_list blk arr1 (statements ++ [stmt]) (capacity * 2))), w1)
          else
            some (some (l.setData (.stmt_list blk arr (statements ++ [stmt]) capacity)), w)
        | _ => none

/-- The C function `create_expression_statement`. -/
def create_expression_statement (expr : Ptr) (w : World) : ASTNode × World :=
  let (node, w1) := create_node .NODE_EXPRESSION_STMT w
  (node.setData (Data.ofChild expr), w1)

/-- The C function `create_var_declaration`: `kind` points to the string literal "var". -/
def create_var_declaration (name : String) (init : Ptr) (w : World) : ASTNode × World :=
  let (node, w1) := create_node .NODE_VAR_DECLARATION w
  let (decl, w2) := malloc w1
  let (nm, w3) := strdup name w2
  (node.setData (.var_decl decl (CStr.literal "var") nm init), w3)

/-- The C function `create_let_declaration`: `kind` points to the string literal "let". -/
def create_let_declaration (name : String) (init : Ptr) (w : World) : ASTNode × World :=
  let (node, w1) := create_node .NODE_LET_DECLARATION w
  let (decl, w2) := malloc w1
  let (nm, w3) := strdup name w2
  (node.setData (.var_decl decl (CStr.literal "let") nm init), w3)

/-- The C function `create_const_declaration`: `kind` points to the string literal "const". -/
def create_const_declaration (name : String) (init : Ptr) (w : World) : ASTNode × World :=
  let (node, w1) := create_node .NODE_CONST_DECLARATION w
  let (decl, w2) := malloc w1
  let (nm, w3) := strdup name w2
  (node.setData (.var_decl decl (CStr.literal "const") nm init), w3)

/-- The C function `create_function_declaration`. -/
def create_function_declaration (name : String) (params : Ptr) (body : Ptr) (w : World) :
    ASTNode × World :=
  let (node, w1) := create_node .NODE_FUNCTION_DECLARATION w
  let (func, w2) := malloc w1
  let (nm, w3) := strdup name w2
  (node.setData (.func_decl func nm params body 0 0), w3)

/-- The assignment `node->data.func_decl->is_async = v`. -/
def set_is_async (v : Int) : ASTNode → ASTNode
  | .mk t l c a (.func_decl blk nm params body _ g) => .mk t l c a (.func_decl blk nm params body v g)
  | n => n

/-- The C function `create_async_function_declaration`. -/
def create_async_function_declaration (name : String) (params : Ptr) (body : Ptr) (w : World) :
    ASTNode × World :=
  let (node, w1) := create_function_declaration name params body w
  (set_is_async 1 node, w1)

/-- The C function `create_if_statement`. -/
def create_if_statement (test : Ptr) (consequent : Ptr) (alternate : Ptr) (w : World) :
    ASTNode × World :=
  let (node, w1) := create_node .NODE_IF_STATEMENT w
  let (stmt, w2) := malloc w1
  (node.setData (.if_stmt stmt test consequent alternate), w2)

/-- The C function `create_while_statement`. -/
def create_while_statement (test : Ptr) (body : Ptr) (w : World) : ASTNode × World :=
  let (node, w1) := create_node .NODE_WHILE_STATEMENT w
  let (stmt, w2) := malloc w1
  (node.setData (.while_stmt stmt test body), w2)

/-- The C function `create_for_statement`. -/
def create_for_statement (init : Ptr) (test : Ptr) (update : Ptr) (body : Ptr) (w : World) :
    ASTNode × World :=
  let (node, w1) := create_node .NODE_FOR_STATEMENT w
  let (stmt, w2) := malloc w1
  (node.setData (.for_stmt stmt init test update body), w2)

/-- The C function `create_for_statement_with_var`. -/
def create_for_statement_with_var (var : String) (init : Ptr) (test : Ptr) (update : Ptr)
    (body : Ptr) (w : World) : ASTNode × World :=
  let (var_decl, w1) := create_var_declaration var init w
  create_for_statement (some var_decl) test update body w1

/-- The C function `create_return_statement`. -/
def create_return_statement (argument : Ptr) (w : World) : ASTNode × World :=
  let (node, w1) := create_node .NODE_RETURN_STATEMENT w
  let (stmt, w2) := malloc w1
  (node.setData (.return_stmt stmt argument), w2)

/-- The C function `create_break_statement`. -/
def create_break_statement (label : Ptr) (w : World) : ASTNode × World :=
  let (node, w1) := create_node .NODE_BREAK_STATEMENT w
  (node.setData (Data.ofChild label), w1)

/-- The C function `create_continue_statement`. -/
def create_continue_statement (label : Ptr) (w : World) : ASTNode × World :=
  let (node, w1) := create_node .NODE_CONTINUE_STATEMENT w
  (node.setData (Data.ofChild label), w1)

/-- The C function `create_throw_statement`. -/
def create_throw_statement (argument : Ptr) (w : World) : ASTNode × World :=
  let (node, w1) := create_node .NODE_THROW_STATEMENT w
  (node.setData (Data.ofChild argument), w1)

/-- The C function `create_block_statement`. -/
def create_block_statement (body : Ptr) (w : World) : ASTNode × World :=
  let (node, w1) := create_node .NODE_BLOCK_STATEMENT w
  (node.setData (Data.ofChild body), w1)

/-- The C function `create_empty_statement`. -/
def create_empty_statement (w : World) : ASTNode × World :=
  create_node .NODE_EMPTY_STATEMENT w

/-- The C function `create_binary_expression`. -/
def create_binary_expression (op : String) (left : Ptr) (right : Ptr) (w : World) :
    ASTNode × World :=
  let (node, w1) := create_node .NODE_BINARY_EXPR w
  let (expr, w2) := malloc w1
  let (o, w3) := strdup op w2
  (node.setData (.binary_expr expr o left right), w3)

/-- The C function `create_unary_expression`. -/
def create_unary_expression (op : String) (arg : Ptr) (w : World) : ASTNode × World :=
  let (node, w1) := create_node .NODE_UNARY_EXPR w
  let (expr, w2) := malloc w1
  let (o, w3) := strdup op w2
  (node.setData (.unary_expr expr o arg 1), w3)

/-- The C function `create_update_expression`. -/
def create_update_expression (op : String) (arg : Ptr) (prefix_flag : Int) (w : World) :
    ASTNode × World :=
  let (node, w1) := create_node .NODE_UPDATE_EXPR w
  let (expr, w2) := malloc w1
  let (o, w3) := strdup op w2
  (node.setData (.unary_expr expr o arg prefix_flag), w3)

/-- The C function `create_assignment_expression`. -/
def create_assignment_expression (op : String) (left : Ptr) (right : Ptr) (w : World) :
    ASTNode × World :=
  let (node, w1) := create_node .NODE_ASSIGNMENT_EXPR w
  let (expr, w2) := malloc w1
  let (o, w3) := strdup op w2
  (node.setData (.assign_expr expr o left right), w3)

/-- The C function `create_conditional_expression`. -/
def create_conditional_expression (test : Ptr) (cons : Ptr) (alt : Ptr) (w : World) :
    ASTNode × World :=
  let (node, w1) := create_node .NODE_CONDITIONAL_EXPR w
  let (expr, w2) := malloc w1
  (node.setData (.cond_expr expr test cons alt), w2)

/-- The C function `create_call_expression`. -/
def create_call_expression (callee : Ptr) (args : Ptr) (w : World) : ASTNode × World :=
  let (node, w1) := create_node .NODE_CALL_EXPR w
  let (expr, w2) := malloc w1
  (node.setData (.call_expr expr callee args), w2)

/-- The C function `create_member_expression`. -/
def create_member_expression (obj : Ptr) (prop : Ptr) (computed : Int) (w : World) :
    ASTNode × World :=
  let (node, w1) := create_node .NODE_MEMBER_EXPR w
  let (expr, w2) := malloc w1
  (node.setData (.member_expr expr obj prop computed), w2)

/-- The C function `create_new_expression`. -/
def create_new_expression (callee : Ptr) (w : World) : ASTNode × World :=
  let (node, w1) := create_node .NODE_NEW_EXPR w
  (node.setData (Data.ofChild callee), w1)

/-- The C function `create_comma_expression`. -/
def create_comma_expression (left : Ptr) (right : Ptr) (w : World) : ASTNode × World :=
  let (node, w1) := create_node .NODE_COMMA_EXPR w
  let (expr, w2) := malloc w1
  let (o, w3) := strdup "," w2
  (node.setData (.binary_expr expr o left right), w3)

/-- The C function `create_identifier`. -/
def create_identifier (name : String) (w : World) : ASTNode × World :=
  let (node, w1) := create_node .NODE_IDENTIFIER w
  let (id, w2) := malloc w1
  let (nm, w3) := strdup name w2
  (node.setData (.identifier id nm), w3)

/-- The C function `create_null_literal`. -/
def create_null_literal (w : World) : ASTNode × World :=
  let (node, w1) := create_node .NODE_LITERAL w
  let (lit, w2) := malloc w1
  (node.setData (.literal lit .LIT_NULL .zero), w2)

/-- The C function `create_boolean_literal`. -/
def create_boolean_literal (value : Int) (w : World) : ASTNode × World :=
  let (node, w1) := create_node .NODE_LITERAL w
  let (lit, w2) := malloc w1
  (node.setData (.literal lit .LIT_BOOLEAN (.boolean value)), w2)

/-- The C function `create_number_literal`. -/
def create_number_literal (value : String) (w : World) : ASTNode × World :=
  let (node, w1) := create_node .NODE_LITERAL w
  let (lit, w2) := malloc w1
  let (v, w3) := strdup value w2
  (node.setData (.literal lit .LIT_NUMBER (.string v)), w3)

/-- The C function `create_string_literal`. -/
def create_string_literal (value : String) (w : World) : ASTNode × World :=
  let (node, w1) := create_node .NODE_LITERAL w
  let (lit, w2) := malloc w1
  let (v, w3) := strdup value w2
  (node.setData (.literal lit .LIT_STRING (.string v)), w3)

/-- The C function `create_this_expression`. -/
def create_this_expression (w : World) : ASTNode × World :=
  create_node .NODE_THIS w

/-- The C function `create_array_expression`. -/
def create_array_expression (elements : Ptr) (w : World) : ASTNode × World :=
  let (node, w1) := create_node .NODE_ARRAY_EXPR w
  (node.setData (Data.ofChild elements), w1)

/-- The C function `create_object_expression`. -/
def create_object_expression (properties : Ptr) (w : World) : ASTNode × World :=
  let (node, w1) := create_node .NODE_OBJECT_EXPR w
  (node.setData (Data.ofChild properties), w1)

/-- The C function `print_indent`: two spaces for each `i` with `0 <= i < indent`. -/
def print_indent (indent : Int) : String :=
  String.mk (List.replicate (2 * indent.toNat) ' ')

/-- The C function `node_type_name`. -/
def node_type_name : NodeType → String
  | .NODE_PROGRAM => "Program"
  | .NODE_STATEMENT_LIST => "StatementList"
  | .NODE_EXPRESSION_STMT => "ExpressionStatement"
  | .NODE_VAR_DECLARATION => "VariableDeclaration(var)"
  | .NODE_LET_DECLARATION => "VariableDeclaration(let)"
  | .NODE_CONST_DECLARATION => "VariableDeclaration(const)"
  | .NODE_FUNCTION_DECLARATION => "FunctionDeclaration"
  | .NODE_IF_STATEMENT => "IfStatement"
  | .NODE_WHILE_STATEMENT => "WhileStatement"
  | .NODE_FOR_STATEMENT => "ForStatement"
  | .NODE_RETURN_STATEMENT => "ReturnStatement"
  | .NODE_BREAK_STATEMENT => "BreakStatement"
  | .NODE_CONTINUE_STATEMENT => "ContinueStatement"
  | .NODE_THROW_STATEMENT => "ThrowStatement"
  | .NODE_BLOCK_STATEMENT => "BlockStatement"
  | .NODE_EMPTY_STATEMENT => "EmptyStatement"
  | .NODE_BINARY_EXPR => "BinaryExpression"
  | .NODE_UNARY_EXPR => "UnaryExpression"
  | .NODE_UPDATE_EXPR => "UpdateExpression"
  | .NODE_ASSIGNMENT_EXPR => "AssignmentExpression"
  | .NODE_CONDITIONAL_EXPR => "ConditionalExpression"
  | .NODE_CALL_EXPR => "CallExpression"
  | .NODE_MEMBER_EXPR => "MemberExpression"
  | .NODE_NEW_EXPR => "NewExpression"
  | .NODE_COMMA_EXPR => "CommaExpression"
  | .NODE_IDENTIFIER => "Identifier"
  | .NODE_LITERAL => "Literal"
  | .NODE_THIS => "ThisExpression"
  | .NODE_ARRAY_EXPR => "ArrayExpression"
  | .NODE_OBJECT_EXPR => "ObjectExpression"

/-- Text written by a sequence of steps, in order; `none` as soon as one step
has no defined behaviour. -/
def emitAll : List (Option String) → Option String
  | [] => some ""
  | none :: _ => none
  | some a :: rest =>
    match emitAll rest with
    | some b => some (a ++ b)
    | none => none

/-- The two steps `print_indent(indent + 1); printf(label);` followed by a
recursive call whose text is `child`. -/
def labelled (indent : Int) (label : String) (child : Option String) : Option String :=
  match child with
  | some s => some (print_indent (indent + 1) ++ label ++ s)
  | none => none

/-- The text `printf("%d", n)` writes for a count. -/
def fmt_d (n : Nat) : String := toString n

/-- The branch `if (!node)` of `print_ast`: the text of `print_ast(NULL, indent)`. -/
def print_null (indent : Int) : String := print_indent indent ++ "(null)\n"

mutual
/-- The part of `print_ast` after the test `if (!node)`: the text written for a
node that is not `NULL`. -/
def print_node : ASTNode → Int → Option String
  | .mk type _ _ _ data, indent =>
    let head := print_indent indent ++ node_type_name type
    match type with
    | .NODE_PROGRAM =>
      match data with
      | .program _ body => emitAll [some (head ++ "\n"), print_ast body (indent + 1)]
      | _ => none
    | .NODE_STATEMENT_LIST =>
      match data with
      | .stmt_list _ _ statements _ =>
        emitAll [some (head ++ " (" ++ fmt_d statements.length ++ " statements)\n"),
                 print_statements statements (indent + 1)]
      | _ => none
    | .NODE_VAR_DECLARATION | .NODE_LET_DECLARATION | .NODE_CONST_DECLARATION =>
      match data with
      | .var_decl _ _ name init =>
        emitAll [some (head ++ " name=" ++ name.text ++ "\n"),
                 if init.isSome then labelled indent "Initializer:\n" (print_ast init (indent + 2))
                 else some ""]
      | _ => none
    | .NODE_FUNCTION_DECLARATION =>
      match data with
      | .func_decl _ name params body is_async is_generator =>
        emitAll [some (head ++ " name=" ++ name.text
                        ++ (if is_async ≠ 0 then " (async)" else "")
                        ++ (if is_generator ≠ 0 then " (generator)" else "") ++ "\n"),
                 if params.isSome then labelled indent "Parameters:\n" (print_ast params (indent + 2))
                 else some "",
                 labelled indent "Body:\n" (print_ast body (indent + 2))]
      | _ => none
    | .NODE_IF_STATEMENT =>
      match data with
      | .if_stmt _ test consequent alternate =>
        emitAll [some (head ++ "\n"),
                 labelled indent "Test:\n" (print_ast test (indent + 2)),
                 labelled indent "Consequent:\n" (print_ast consequent (indent + 2)),
                 if alternate.isSome then
                   labelled indent "Alternate:\n" (print_ast alternate (indent + 2))
                 else some ""]
      | _ => none
    | .NODE_WHILE_STATEMENT =>
      match data with
      | .while_stmt _ test body =>
        emitAll [some (head ++ "\n"),
                 labelled indent "Test:\n" (print_ast test (indent + 2)),
                 labelled indent "Body:\n" (print_ast body (indent + 2))]
      | _ => none
    | .NODE_FOR_STATEMENT =>
      match data with
      | .for_stmt _ init test update body =>
        emitAll [some (head ++ "\n"),
                 if init.isSome then labelled indent "Init:\n" (print_ast init (indent + 2))
                 else some "",
                 if test.isSome then labelled indent "Test:\n" (print_ast test (indent + 2))
                 else some "",
                 if update.isSome then labelled indent "Update:\n" (print_ast update (indent + 2))
                 else some "",
                 labelled indent "Body:\n" (print_ast body (indent + 2))]
      | _ => none
    | .NODE_RETURN_STATEMENT =>
      match data with
      | .return_stmt _ argument =>
        emitAll [some (head ++ "\n"),
                 if argument.isSome then
                   labelled indent "Argument:\n" (print_ast argument (indent + 2))
                 else some (print_indent (indent + 1) ++ "(no argument)\n")]
      | _ => none
    | .NODE_BREAK_STATEMENT | .NODE_CONTINUE_STATEMENT =>
      match data with
      | .null => some (head ++ "\n")
      | .child n =>
        emitAll [some (head ++ "\n"), labelled indent "Label:\n" (print_node n (indent + 2))]
      | _ => none
    | .NODE_THROW_STATEMENT | .NODE_EXPRESSION_STMT =>
      match data with
      | .null => emitAll [some (head ++ "\n"), some (print_null (indent + 1))]
      | .child n => emitAll [some (head ++ "\n"), print_node n (indent + 1)]
      | _ => none
    | .NODE_BLOCK_STATEMENT =>
      match data with
      | .null => emitAll [some (head ++ "\n"), some (print_null (indent + 1))]
      | .child n => emitAll [some (head ++ "\n"), print_node n (indent + 1)]
      | _ => none
    | .NODE_BINARY_EXPR | .NODE_COMMA_EXPR =>
      match data with
      | .binary_expr _ operator left right =>
        emitAll [some (head ++ " op='" ++ operator.text ++ "'\n"),
                 labelled indent "Left:\n" (print_ast left (indent + 2)),
                 labelled indent "Right:\n" (print_ast right (indent + 2))]
      | _ => none
    | .NODE_ASSIGNMENT_EXPR =>
      match data with
      | .assign_expr _ operator left right =>
        emitAll [some (head ++ " op='" ++ operator.text ++ "'\n"),
                 labelled indent "Left:\n" (print_ast left (indent + 2)),
                 labelled indent "Right:\n" (print_ast right (indent + 2))]
      | _ => none
    | .NODE_UNARY_EXPR | .NODE_UPDATE_EXPR =>
      match data with
      | .unary_expr _ operator argument prefix_flag =>
        emitAll [some (head ++ " op='" ++ operator.text ++ "' "
                        ++ (if prefix_flag ≠ 0 then "(prefix)" else "(postfix)") ++ "\n"),
                 labelled indent "Argument:\n" (print_ast argument (indent + 2))]
      | _ => none
    | .NODE_CONDITIONAL_EXPR =>
      match data with
      | .cond_expr _ test consequent alternate =>
        emitAll [some (head ++ "\n"),
                 labelled indent "Test:\n" (print_ast test (indent + 2)),
                 labelled indent "Consequent:\n" (print_ast consequent (indent + 2)),
                 labelled indent "Alternate:\n" (print_ast alternate (indent + 2))]
      | _ => none
    | .NODE_CALL_EXPR =>
      match data with
      | .call_expr _ callee arguments =>
        emitAll [some (head ++ "\n"),
                 labelled indent "Callee:\n" (print_ast callee (indent + 2)),
                 labelled indent "Arguments:\n" (print_ast arguments (indent + 2))]
      | _ => none
    | .NODE_MEMBER_EXPR =>
      match data with
      | .member_expr _ object property computed =>
        emitAll [some (head ++ " " ++ (if computed ≠ 0 then "(computed)" else "(dot)") ++ "\n"),
                 labelled indent "Object:\n" (print_ast object (indent + 2)),
                 labelled indent "Property:\n" (print_ast property (indent + 2))]
      | _ => none
    | .NODE_NEW_EXPR =>
      match data with
      | .null =>
        emitAll [some (head ++ "\n"), labelled indent "Callee:\n" (some (print_null (indent + 2)))]
      | .child n =>
        emitAll [some (head ++ "\n"), labelled indent "Callee:\n" (print_node n (indent + 2))]
      | _ => none
    | .NODE_IDENTIFIER =>
      match data with
      | .identifier _ name => some (head ++ " '" ++ name.text ++ "'\n")
      | _ => none
    | .NODE_LITERAL =>
      match data with
      | .literal _ kind value =>
        match kind with
        | .LIT_NULL => some (head ++ " null\n")
        | .LIT_BOOLEAN =>
          match value with
          | .zero => some (head ++ " false\n")
          | .boolean v => some (head ++ " " ++ (if v ≠ 0 then "true" else "false") ++ "\n")
          | .string _ => none
        | .LIT_NUMBER =>
          match value with
          | .string s => some (head ++ " (number) " ++ s.text ++ "\n")
          | _ => none
        | .LIT_STRING =>
          match value with
          | .string s => some (head ++ " (string) " ++ s.text ++ "\n")
          | _ => none
        | .LIT_BIGINT =>
          match value with
          | .string s => some (head ++ " (bigint) " ++ s.text ++ "\n")
          | _ => none
      | _ => none
    | .NODE_THIS => some (head ++ "\n")
    | .NODE_ARRAY_EXPR =>
      match data with
      | .null => emitAll [some (head ++ "\n"), some (print_indent (indent + 1) ++ "(empty array)\n")]
      | .child n =>
        emitAll [some (head ++ "\n"), labelled indent "Elements:\n" (print_node n (indent + 2))]
      | _ => none
    | .NODE_OBJECT_EXPR =>
      match data with
      | .null => emitAll [some (head ++ "\n"), some (print_indent (indent + 1) ++ "(empty object)\n")]
      | .child n =>
        emitAll [some (head ++ "\n"),
                 labelled indent "Properties:\n" (print_node n (indent + 2))]
      | _ => none
    | .NODE_EMPTY_STATEMENT => some (head ++ "\n")
/-- The C function `print_ast`: the text written to standard output by `print_ast(node, indent)`. -/
def print_ast : Ptr → Int → Option String
  | none, indent => some (print_null indent)
  | some n, indent => print_node n indent
/-- The loop `for (i = 0; i < list->count; i++) print_ast(list->statements[i], indent)`. -/
def print_statements : List Ptr → Int → Option String
  | [], _ => some ""
  | p :: rest, indent => emitAll [print_ast p indent, print_statements rest indent]
end

/-- The blocks released by a sequence of steps, in order; `none` as soon as one
step has no defined behaviour. -/
def freeAll : List (Option (List Addr)) → Option (List Addr)
  | [] => some []
  | none :: _ => none
  | some a :: rest =>
    match freeAll rest with
    | some b => some (a ++ b)
    | none => none

mutual
/-- The part of `free_ast` after the test `if (!node) return`: the releases made
for a node that is not `NULL`. -/
def free_node : ASTNode → Option (List Addr)
  | .mk type _ _ addr data =>
    match type with
    | .NODE_PROGRAM =>
      match data with
      | .null => some [addr]
      | .program blk body => freeAll [free_ast body, some [blk], some [addr]]
      | _ => none
    | .NODE_STATEMENT_LIST =>
      match data with
      | .null => some [addr]
      | .stmt_list blk arr statements _ =>
        freeAll [free_statements statements, some [arr], some [blk], some [addr]]
      | _ => none
    | .NODE_VAR_DECLARATION | .NODE_LET_DECLARATION | .NODE_CONST_DECLARATION =>
      match data with
      | .null => some [addr]
      | .var_decl blk _ name init =>
        freeAll [some [name.addr], free_ast init, some [blk], some [addr]]
      | _ => none
    | .NODE_FUNCTION_DECLARATION =>
      match data with
      | .null => some [addr]
      | .func_decl blk name params body _ _ =>
        freeAll [some [name.addr], free_ast params, free_ast body, some [blk], some [addr]]
      | _ => none
    | .NODE_IF_STATEMENT =>
      match data with
      | .null => some [addr]
      | .if_stmt blk test consequent alternate =>
        freeAll [free_ast test, free_ast consequent, free_ast alternate, some [blk], some [addr]]
      | _ => none
    | .NODE_WHILE_STATEMENT =>
      match data with
      | .null => some [addr]
      | .while_stmt blk test body =>
        freeAll [free_ast test, free_ast body, some [blk], some [addr]]
      | _ => none
    | .NODE_FOR_STATEMENT =>
      match data with
      | .null => some [addr]
      | .for_stmt blk init test update body =>
        freeAll [free_ast init, free_ast test, free_ast update, free_ast body,
                 some [blk], some [addr]]
      | _ => none
    | .NODE_RETURN_STATEMENT =>
      match data with
      | .null => some [addr]
      | .return_stmt blk argument => freeAll [free_ast argument, some [blk], some [addr]]
      | _ => none
    | .NODE_BREAK_STATEMENT | .NODE_CONTINUE_STATEMENT | .NODE_THROW_STATEMENT
    | .NODE_EXPRESSION_STMT | .NODE_NEW_EXPR | .NODE_ARRAY_EXPR | .NODE_OBJECT_EXPR
    | .NODE_BLOCK_STATEMENT =>
      match data with
      | .null => some [addr]
      | .child n => freeAll [free_node n, some [addr]]
      | _ => none
    | .NODE_BINARY_EXPR | .NODE_COMMA_EXPR =>
      match data with
      | .null => some [addr]
      | .binary_expr blk operator left right =>
        freeAll [some [operator.addr], free_ast left, free_ast right, some [blk], some [addr]]
      | _ => none
    | .NODE_ASSIGNMENT_EXPR =>
      match data with
      | .null => some [addr]
      | .assign_expr blk operator left right =>
        freeAll [some [operator.addr], free_ast left, free_ast right, some [blk], some [addr]]
      | _ => none
    | .NODE_UNARY_EXPR | .NODE_UPDATE_EXPR =>
      match data with
      | .null => some [addr]
      | .unary_expr blk operator argument _ =>
        freeAll [some [operator.addr], free_ast argument, some [blk], some [addr]]
      | _ => none
    | .NODE_CONDITIONAL_EXPR =>
      match data with
      | .null => some [addr]
      | .cond_expr blk test consequent alternate =>
        freeAll [free_ast test, free_ast consequent, free_ast alternate, some [blk], some [addr]]
      | _ => none
    | .NODE_CALL_EXPR =>
      match data with
      | .null => some [addr]
      | .call_expr blk callee arguments =>
        freeAll [free_ast callee, free_ast arguments, some [blk], some [addr]]
      | _ => none
    | .NODE_MEMBER_EXPR =>
      match data with
      | .null => some [addr]
      | .member_expr blk object property _ =>
        freeAll [free_ast object, free_ast property, some [blk], some [addr]]
      | _ => none
    | .NODE_IDENTIFIER =>
      match data with
      | .null => some [addr]
      | .identifier blk name => some [name.addr, blk, addr]
      | _ => none
    | .NODE_LITERAL =>
      match data with
      | .null => some [addr]
      | .literal blk kind value =>
        if kind = .LIT_STRING ∨ kind = .LIT_NUMBER ∨ kind = .LIT_BIGINT then
          match value with
          | .string s => some [s.addr, blk, addr]
          | .zero => some [blk, addr]
          | .boolean _ => none
        else some [blk, addr]
      | _ => none
    | .NODE_EMPTY_STATEMENT | .NODE_THIS => some [addr]
/-- The C function `free_ast`: the arguments of the calls of `free` that `free_ast(node)` makes,
in the order it makes them. -/
def free_ast : Ptr → Option (List Addr)
  | none => some []
  | some n => free_node n
/-- The loop `for (i = 0; i < list->count; i++) free_ast(list->statements[i])`. -/
def free_statements : List Ptr → Option (List Addr)
  | [] => some []
  | p :: rest => freeAll [free_ast p, free_statements rest]
end

/-! ## Observations on lists, sample values, and the notions the theorems use -/

/-- A world in which nothing has been allocated or written yet. -/
def World.init : World := { next := 0, live := [], yylineno := 1, yycolno := 1, stderr := "" }

/-- Reads `list->data.stmt_list->count`. -/
def list_count (n : ASTNode) : Option Nat :=
  match n.data with
  | .stmt_list _ _ statements _ => some statements.length
  | _ => none

/-- Reads `list->data.stmt_list->capacity`. -/
def list_capacity (n : ASTNode) : Option Int :=
  match n.data with
  | .stmt_list _ _ _ capacity => some capacity
  | _ => none

/-- Reads `list->data.stmt_list->statements[i]` for `i < count`. -/
def list_item (n : ASTNode) (i : Nat) : Option Ptr :=
  match n.data with
  | .stmt_list _ _ statements _ => statements[i]?
  | _ => none

/-- The calls `list = append_statement(list, x)` for the items `x` of a
sequence, in order. -/
def append_all : Ptr → List Ptr → World → Option (Ptr × World)
  | list, [], w => some (list, w)
  | list, x :: rest, w =>
    match append_statement list x w with
    | some (list1, w1) => append_all list1 rest w1
    | none => none

/-- A list node in the state the builders keep it in: the discriminant is
`NODE_STATEMENT_LIST`, the union holds a `StatementList` record, and
`0 <= count <= capacity` with `capacity >= 16`. -/
def ListInv (n : ASTNode) : Prop :=
  n.type = .NODE_STATEMENT_LIST ∧
  ∃ blk arr statements capacity, n.data = .stmt_list blk arr statements capacity ∧
    (0 : Int) ≤ (statements.length : Int) ∧ (statements.length : Int) ≤ capacity ∧ 16 ≤ capacity

/-- An `EmptyStatement` node at line 1, column 1, used as a sample item. -/
def sample_item : ASTNode := .mk .NODE_EMPTY_STATEMENT 1 1 (.heap 0) .null

/-- An `Identifier` node for the name `x`, used as a sample non-list node. -/
def sample_identifier : ASTNode :=
  .mk .NODE_IDENTIFIER 1 1 (.heap 0) (.identifier (.heap 1) { addr := .heap 2, text := "x" })

/-- A list node with capacity 16 holding the sample item once. -/
def sample_list : ASTNode :=
  .mk .NODE_STATEMENT_LIST 1 1 (.heap 3) (.stmt_list (.heap 4) (.heap 5) [some sample_item] 16)

/-- A full list node whose count and capacity are both `2 ^ 30`. -/
def full_list : ASTNode :=
  .mk .NODE_STATEMENT_LIST 1 1 (.heap 1) (.stmt_list (.heap 2) (.heap 3)
    (List.replicate 1073741824 (some sample_item)) 1073741824)

/-- A `char *` with the identity of its block forgotten. -/
def forget_cstr (s : CStr) : CStr := { addr := .heap 0, text := s.text }

/-- The union `value` of a literal with the identity of its block forgotten. -/
def forget_value : LitValue → LitValue
  | .string s => .string (forget_cstr s)
  | v => v

mutual
/-- A tree with everything but its structure and field values forgotten: the
line and column of every node are set to 0 and every block identity to
`Addr.heap 0`.  Two trees that are equal except for the positions stored in
their nodes (and the places they occupy in memory) have the same image. -/
def forget_node : ASTNode → ASTNode
  | .mk t _ _ _ d => .mk t 0 0 (.heap 0) (forget_data d)
/-- The union `data` with positions and block identities forgotten. -/
def forget_data : Data → Data
  | .null => .null
  | .program _ body => .program (.heap 0) (forget_ptr body)
  | .stmt_list _ _ statements capacity => .stmt_list (.heap 0) (.heap 0) (forget_list statements) capacity
  | .var_decl _ kind name init => .var_decl (.heap 0) (forget_cstr kind) (forget_cstr name) (forget_ptr init)
  | .func_decl _ name params body is_async is_generator =>
    .func_decl (.heap 0) (forget_cstr name) (forget_ptr params) (forget_ptr body) is_async is_generator
  | .if_stmt _ test consequent alternate =>
    .if_stmt (.heap 0) (forget_ptr test) (forget_ptr consequent) (forget_ptr alternate)
  | .while_stmt _ test body => .while_stmt (.heap 0) (forget_ptr test) (forget_ptr body)
  | .for_stmt _ init test update body =>
    .for_stmt (.heap 0) (forget_ptr init) (forget_ptr test) (forget_ptr update) (forget_ptr body)
  | .return_stmt _ argument => .return_stmt (.heap 0) (forget_ptr argument)
  | .binary_expr _ operator left right =>
    .binary_expr (.heap 0) (forget_cstr operator) (forget_ptr left) (forget_ptr right)
  | .unary_expr _ operator argument prefix_flag =>
    .unary_expr (.heap 0) (forget_cstr operator) (forget_ptr argument) prefix_flag
  | .assign_expr _ operator left right =>
    .assign_expr (.heap 0) (forget_cstr operator) (forget_ptr left) (forget_ptr right)
  | .cond_expr _ test consequent alternate =>
    .cond_expr (.heap 0) (forget_ptr test) (forget_ptr consequent) (forget_ptr alternate)
  | .call_expr _ callee arguments => .call_expr (.heap 0) (forget_ptr callee) (forget_ptr arguments)
  | .member_expr _ object property computed =>
    .member_expr (.heap 0) (forget_ptr object) (forget_ptr property) computed
  | .identifier _ name => .identifier (.heap 0) (forget_cstr name)
  | .literal _ kind value => .literal (.heap 0) kind (forget_value value)
  | .child n => .child (forget_node n)
/-- A pointer to a tree with positions and block identities forgotten. -/
def forget_ptr : Ptr → Ptr
  | none => none
  | some n => some (forget_node n)
/-- The items of a list with positions and block identities forgotten. -/
def forget_list : List Ptr → List Ptr
  | [] => []
  | p :: rest => forget_ptr p :: forget_list rest
end

/-- A text contains no newline. -/
def nonl (s : String) : Prop := '\n' ∉ s.data

instance (s : String) : Decidable (nonl s) := by unfold nonl; infer_instance

mutual
/-- Every string printed from the tree (names, operators, literal text) is free
of newlines. -/
def no_newline_node : ASTNode → Prop
  | .mk _ _ _ _ d => no_newline_data d
/-- The strings printed from a union `data` are free of newlines. -/
def no_newline_data : Data → Prop
  | .null => True
  | .program _ body => no_newline_ptr body
  | .stmt_list _ _ statements _ => no_newline_list statements
  | .var_decl _ _ name init => nonl name.text ∧ no_newline_ptr init
  | .func_decl _ name params body _ _ =>
    nonl name.text ∧ no_newline_ptr params ∧ no_newline_ptr body
  | .if_stmt _ test consequent alternate =>
    no_newline_ptr test ∧ no_newline_ptr consequent ∧ no_newline_ptr alternate
  | .while_stmt _ test body => no_newline_ptr test ∧ no_newline_ptr body
  | .for_stmt _ init test update body =>
    no_newline_ptr init ∧ no_newline_ptr test ∧ no_newline_ptr update ∧ no_newline_ptr body
  | .return_stmt _ argument => no_newline_ptr argument
  | .binary_expr _ operator left right =>
    nonl operator.text ∧ no_newline_ptr left ∧ no_newline_ptr right
  | .unary_expr _ operator argument _ => nonl operator.text ∧ no_newline_ptr argument
  | .assign_expr _ operator left right =>
    nonl operator.text ∧ no_newline_ptr left ∧ no_newline_ptr right
  | .cond_expr _ test consequent alternate =>
    no_newline_ptr test ∧ no_newline_ptr consequent ∧ no_newline_ptr alternate
  | .call_expr _ callee arguments => no_newline_ptr callee ∧ no_newline_ptr arguments
  | .member_expr _ object property _ => no_newline_ptr object ∧ no_newline_ptr property
  | .identifier _ name => nonl name.text
  | .literal _ _ value =>
    match value with
    | .string s => nonl s.text
    | _ => True
  | .child n => no_newline_node n
/-- The strings printed from the tree a pointer leads to are free of newlines. -/
def no_newline_ptr : Ptr → Prop
  | none => True
  | some n => no_newline_node n
/-- The strings printed from the items of a list are free of newlines. -/
def no_newline_list : List Ptr → Prop
  | [] => True
  | p :: rest => no_newline_ptr p ∧ no_newline_list rest
end

/-- Prefixes every line of a text with `k` spaces; the flag tells whether the
next character starts a line. -/
def indent_chars (k : Nat) : Bool → List Char → List Char
  | _, [] => []
  | true, c :: cs => List.replicate k ' ' ++ c :: indent_chars k (c == '\n') cs
  | false, c :: cs => c :: indent_chars k (c == '\n') cs

/-- The text with every line prefixed by `k` additional spaces. -/
def indent_lines (k : Nat) (s : String) : String := String.mk (indent_chars k true s.data)

/-- Whether the character after a text starts a line, given whether the text
itself started at the beginning of a line. -/
def end_state : Bool → List Char → Bool
  | st, [] => st
  | _, c :: cs => end_state (c == '\n') cs

/-- A text that is a sequence of whole lines: empty, or ending in a newline. -/
def Complete (s : String) : Prop := end_state true s.data = true

/-- A text that is one whole line: its only newline is its last character. -/
def is_line : List Char → Bool
  | [] => false
  | [c] => c == '\n'
  | c :: cs => c != '\n' && is_line cs

/-- A string that is one whole line. -/
def IsLine (s : String) : Prop := is_line s.data = true

instance (s : String) : Decidable (IsLine s) := by unfold IsLine; infer_instance

/-- The text at the deeper level is the text at the base level with every line
prefixed by `2 * d` spaces, and the text at the base level consists of whole
lines. -/
def Shift (d : Nat) (deep base : Option String) : Prop :=
  deep = base.map (indent_lines (2 * d)) ∧ ∀ s, base = some s → Complete s


mutual
/-- The storage blocks allocated for a node and for every node reachable from
it: the node record, the payload record, each duplicated string and each
list's item array.  The declaration kind text is a string literal and is not
among them. -/
def owned_node : ASTNode → List Addr
  | .mk _ _ _ addr d => addr :: owned_data d
/-- The storage blocks reachable through a union `data`. -/
def owned_data : Data → List Addr
  | .null => []
  | .program blk body => blk :: owned_ptr body
  | .stmt_list blk arr statements _ => blk :: arr :: owned_list statements
  | .var_decl blk _ name init => blk :: name.addr :: owned_ptr init
  | .func_decl blk name params body _ _ =>
    blk :: name.addr :: (owned_ptr params ++ owned_ptr body)
  | .if_stmt blk test consequent alternate =>
    blk :: (owned_ptr test ++ (owned_ptr consequent ++ owned_ptr alternate))
  | .while_stmt blk test body => blk :: (owned_ptr test ++ owned_ptr body)
  | .for_stmt blk init test update body =>
    blk :: (owned_ptr init ++ (owned_ptr test ++ (owned_ptr update ++ owned_ptr body)))
  | .return_stmt blk argument => blk :: owned_ptr argument
  | .binary_expr blk operator left right =>
    blk :: operator.addr :: (owned_ptr left ++ owned_ptr right)
  | .unary_expr blk operator argument _ => blk :: operator.addr :: owned_ptr argument
  | .assign_expr blk operator left right =>
    blk :: operator.addr :: (owned_ptr left ++ owned_ptr right)
  | .cond_expr blk test consequent alternate =>
    blk :: (owned_ptr test ++ (owned_ptr consequent ++ owned_ptr alternate))
  | .call_expr blk callee arguments => blk :: (owned_ptr callee ++ owned_ptr arguments)
  | .member_expr blk object property _ => blk :: (owned_ptr object ++ owned_ptr property)
  | .identifier blk name => [blk, name.addr]
  | .literal blk _ value =>
    match value with
    | .string s => [blk, s.addr]
    | _ => [blk]
  | .child n => owned_node n
/-- The storage blocks reachable through a pointer. -/
def owned_ptr : Ptr → List Addr
  | none => []
  | some n => owned_node n
/-- The storage blocks reachable through the items of a list. -/
def owned_list : List Ptr → List Addr
  | [] => []
  | p :: rest => owned_ptr p ++ owned_list rest
end

mutual
/-- The releases `free_ast` makes on a tree whose unions hold the members their
nodes' types select, in the order it makes them. -/
def freed_node : ASTNode → List Addr
  | .mk _ _ _ addr d => freed_data d ++ [addr]
/-- The releases made for the payload of a node. -/
def freed_data : Data → List Addr
  | .null => []
  | .program blk body => freed_ptr body ++ [blk]
  | .stmt_list blk arr statements _ => freed_list statements ++ [arr, blk]
  | .var_decl blk _ name init => name.addr :: (freed_ptr init ++ [blk])
  | .func_decl blk name params body _ _ =>
    name.addr :: (freed_ptr params ++ (freed_ptr body ++ [blk]))
  | .if_stmt blk test consequent alternate =>
    freed_ptr test ++ (freed_ptr consequent ++ (freed_ptr alternate ++ [blk]))
  | .while_stmt blk test body => freed_ptr test ++ (freed_ptr body ++ [blk])
  | .for_stmt blk init test update body =>
    freed_ptr init ++ (freed_ptr test ++ (freed_ptr update ++ (freed_ptr body ++ [blk])))
  | .return_stmt blk argument => freed_ptr argument ++ [blk]
  | .binary_expr blk operator left right =>
    operator.addr :: (freed_ptr left ++ (freed_ptr right ++ [blk]))
  | .unary_expr blk operator argument _ => operator.addr :: (freed_ptr argument ++ [blk])
  | .assign_expr blk operator left right =>
    operator.addr :: (freed_ptr left ++ (freed_ptr right ++ [blk]))
  | .cond_expr blk test consequent alternate =>
    freed_ptr test ++ (freed_ptr consequent ++ (freed_ptr alternate ++ [blk]))
  | .call_expr blk callee arguments => freed_ptr callee ++ (freed_ptr arguments ++ [blk])
  | .member_expr blk object property _ => freed_ptr object ++ (freed_ptr property ++ [blk])
  | .identifier blk name => [name.addr, blk]
  | .literal blk _ value =>
    match value with
    | .string s => [s.addr, blk]
    | _ => [blk]
  | .child n => freed_node n
/-- The releases made through a pointer. -/
def freed_ptr : Ptr → List Addr
  | none => []
  | some n => freed_node n
/-- The releases made for the items of a list. -/
def freed_list : List Ptr → List Addr
  | [] => []
  | p :: rest => freed_ptr p ++ freed_list rest
end

/-- The allocator state is sound: no block is outstanding twice, and every
outstanding block is a heap block handed out before `next`. -/
def WorldOK (w : World) : Prop :=
  w.live.Nodup ∧ ∀ a ∈ w.live, ∃ n, a = Addr.heap n ∧ n < w.next

/-- What a sequence of builder calls yields: the pointer returned by the last
call, the world after it, and the non-nil items that `append_statement` was
given together with a non-list node and therefore did not link. -/
abbrev Built := Ptr × World × List Ptr

/-- A tree under construction: an expression made of builder calls only, in
which the node returned by one call is passed on to at most one later call.
`nil` is a `NULL` argument; `advance` lets the lexer move the scan cursor
before the calls that follow. -/
inductive Build where
  | nil
  | advance (line column : Int) (b : Build)
  | create_program (body : Build)
  | create_statement_list
  | append_statement (list stmt : Build)
  | create_expression_statement (expr : Build)
  | create_var_declaration (name : String) (init : Build)
  | create_let_declaration (name : String) (init : Build)
  | create_const_declaration (name : String) (init : Build)
  | create_function_declaration (name : String) (params body : Build)
  | create_async_function_declaration (name : String) (params body : Build)
  | create_if_statement (test consequent alternate : Build)
  | create_while_statement (test body : Build)
  | create_for_statement (init test update body : Build)
  | create_for_statement_with_var (var : String) (init test update body : Build)
  | create_return_statement (argument : Build)
  | create_break_statement (label : Build)
  | create_continue_statement (label : Build)
  | create_throw_statement (argument : Build)
  | create_block_statement (body : Build)
  | create_empty_statement
  | create_binary_expression (op : String) (left right : Build)
  | create_unary_expression (op : String) (arg : Build)
  | create_update_expression (op : String) (arg : Build) (prefix_flag : Int)
  | create_assignment_expression (op : String) (left right : Build)
  | create_conditional_expression (test cons alt : Build)
  | create_call_expression (callee args : Build)
  | create_member_expression (obj prop : Build) (computed : Int)
  | create_new_expression (callee : Build)
  | create_comma_expression (left right : Build)
  | create_identifier (name : String)
  | create_null_literal
  | create_boolean_literal (value : Int)
  | create_number_literal (value : String)
  | create_string_literal (value : String)
  | create_this_expression
  | create_array_expression (elements : Build)
  | create_object_expression (properties : Build)

/-- The result of a builder that takes no node argument. -/
def leaf (r : ASTNode × World) : Option Built := some (some r.1, r.2, [])

/-- Evaluates one argument and hands the pointer, the world and the items
dropped so far to the rest of the call. -/
def with_arg (r : Option Built) (dropped : List Ptr)
    (k : Ptr → World → List Ptr → Option Built) : Option Built :=
  match r with
  | none => none
  | some (p, w, d) => k p w (dropped ++ d)

/-- The result of a builder call made after its arguments were evaluated. -/
def after_call (r : ASTNode × World) (dropped : List Ptr) : Option Built :=
  some (some r.1, r.2, dropped)

/-- The items an `append_statement` call leaves unlinked: the item itself when
it is not nil and the first argument is a node that is not a list. -/
def dropped_by_append (list stmt : Ptr) : List Ptr :=
  match list, stmt with
  | some l, some _ => if l.type ≠ .NODE_STATEMENT_LIST then [stmt] else []
  | _, _ => []

/-- Runs the builder calls of an expression, arguments first and from left to
right. -/
def Build.run : Build → World → Option Built
  | .nil, w => some (none, w, [])
  | .advance line column b, w => b.run { w with yylineno := line, yycolno := column }
  | .create_program body, w =>
    with_arg (body.run w) [] fun p w d => after_call (JsAst.create_program p w) d
  | .create_statement_list, w => leaf (JsAst.create_statement_list w)
  | .append_statement list stmt, w =>
    with_arg (list.run w) [] fun pl w d =>
    with_arg (stmt.run w) d fun ps w d =>
      match JsAst.append_statement pl ps w with
      | none => none
      | some (r, w1) => some (r, w1, d ++ dropped_by_append pl ps)
  | .create_expression_statement expr, w =>
    with_arg (expr.run w) [] fun p w d => after_call (JsAst.create_expression_statement p w) d
  | .create_var_declaration name init, w =>
    with_arg (init.run w) [] fun p w d => after_call (JsAst.create_var_declaration name p w) d
  | .create_let_declaration name init, w =>
    with_arg (init.run w) [] fun p w d => after_call (JsAst.create_let_declaration name p w) d
  | .create_const_declaration name init, w =>
    with_arg (init.run w) [] fun p w d => after_call (JsAst.create_const_declaration name p w) d
  | .create_function_declaration name params body, w =>
    with_arg (params.run w) [] fun p1 w d =>
    with_arg (body.run w) d fun p2 w d =>
      after_call (JsAst.create_function_declaration name p1 p2 w) d
  | .create_async_function_declaration name params body, w =>
    with_arg (params.run w) [] fun p1 w d =>
    with_arg (body.run w) d fun p2 w d =>
      after_call (JsAst.create_async_function_declaration name p1 p2 w) d
  | .create_if_statement test consequent alternate, w =>
    with_arg (test.run w) [] fun p1 w d =>
    with_arg (consequent.run w) d fun p2 w d =>
    with_arg (alternate.run w) d fun p3 w d =>
      after_call (JsAst.create_if_statement p1 p2 p3 w) d
  | .create_while_statement test body, w =>
    with_arg (test.run w) [] fun p1 w d =>
    with_arg (body.run w) d fun p2 w d =>
      after_call (JsAst.create_while_statement p1 p2 w) d
  | .create_for_statement init test update body, w =>
    with_arg (init.run w) [] fun p1 w d =>
    with_arg (test.run w) d fun p2 w d =>
    with_arg (update.run w) d fun p3 w d =>
    with_arg (body.run w) d fun p4 w d =>
      after_call (JsAst.create_for_statement p1 p2 p3 p4 w) d
  | .create_for_statement_with_var var init test update body, w =>
    with_arg (init.run w) [] fun p1 w d =>
    with_arg (test.run w) d fun p2 w d =>
    with_arg (update.run w) d fun p3 w d =>
    with_arg (body.run w) d fun p4 w d =>
      after_call (JsAst.create_for_statement_with_var var p1 p2 p3 p4 w) d
  | .create_return_statement argument, w =>
    with_arg (argument.run w) [] fun p w d => after_call (JsAst.create_return_statement p w) d
  | .create_break_statement label, w =>
    with_arg (label.run w) [] fun p w d => after_call (JsAst.create_break_statement p w) d
  | .create_continue_statement label, w =>
    with_arg (label.run w) [] fun p w d => after_call (JsAst.create_continue_statement p w) d
  | .create_throw_statement argument, w =>
    with_arg (argument.run w) [] fun p w d => after_call (JsAst.create_throw_statement p w) d
  | .create_block_statement body, w =>
    with_arg (body.run w) [] fun p w d => after_call (JsAst.create_block_statement p w) d
  | .create_empty_statement, w => leaf (JsAst.create_empty_statement w)
  | .create_binary_expression op left right, w =>
    with_arg (left.run w) [] fun p1 w d =>
    with_arg (right.run w) d fun p2 w d =>
      after_call (JsAst.create_binary_expression op p1 p2 w) d
  | .create_unary_expression op arg, w =>
    with_arg (arg.run w) [] fun p w d => after_call (JsAst.create_unary_expression op p w) d
  | .create_update_expression op arg prefix_flag, w =>
    with_arg (arg.run w) [] fun p w d =>
      after_call (JsAst.create_update_expression op p prefix_flag w) d
  | .create_assignment_expression op left right, w =>
    with_arg (left.run w) [] fun p1 w d =>
    with_arg (right.run w) d fun p2 w d =>
      after_call (JsAst.create_assignment_expression op p1 p2 w) d
  | .create_conditional_expression test cons alt, w =>
    with_arg (test.run w) [] fun p1 w d =>
    with_arg (cons.run w) d fun p2 w d =>
    with_arg (alt.run w) d fun p3 w d =>
      after_call (JsAst.create_conditional_expression p1 p2 p3 w) d
  | .create_call_expression callee args, w =>
    with_arg (callee.run w) [] fun p1 w d =>
    with_arg (args.run w) d fun p2 w d =>
      after_call (JsAst.create_call_expression p1 p2 w) d
  | .create_member_expression obj prop computed, w =>
    with_arg (obj.run w) [] fun p1 w d =>
    with_arg (prop.run w) d fun p2 w d =>
      after_call (JsAst.create_member_expression p1 p2 computed w) d
  | .create_new_expression callee, w =>
    with_arg (callee.run w) [] fun p w d => after_call (JsAst.create_new_expression p w) d
  | .create_comma_expression left right, w =>
    with_arg (left.run w) [] fun p1 w d =>
    with_arg (right.run w) d fun p2 w d =>
      after_call (JsAst.create_comma_expression p1 p2 w) d
  | .create_identifier name, w => leaf (JsAst.create_identifier name w)
  | .create_null_literal, w => leaf (JsAst.create_null_literal w)
  | .create_boolean_literal value, w => leaf (JsAst.create_boolean_literal value w)
  | .create_number_literal value, w => leaf (JsAst.create_number_literal value w)
  | .create_string_literal value, w => leaf (JsAst.create_string_literal value w)
  | .create_this_expression, w => leaf (JsAst.create_this_expression w)
  | .create_array_expression elements, w =>
    with_arg (elements.run w) [] fun p w d => after_call (JsAst.create_array_expression p w) d
  | .create_object_expression properties, w =>
    with_arg (properties.run w) [] fun p w d => after_call (JsAst.create_object_expression p w) d

/-- The allocator and the trees after a run from world `w`: the allocator
state is sound, every tree `p` of `ps` is released by `free_ast` through the
releases `freed_ptr p`, and the outstanding blocks are those outstanding in
`w` together with the blocks of `ps` and of the dropped items `dr`, all of
which were handed out during the run. -/
def Good (w : World) (ps : List Ptr) (w1 : World) (dr : List Ptr) : Prop :=
  WorldOK w1 ∧ w.next ≤ w1.next
  ∧ (∀ p ∈ ps, free_ast p = some (freed_ptr p))
  ∧ w1.live.Perm (owned_list ps ++ (owned_list dr ++ w.live))
  ∧ ∀ a ∈ owned_list ps ++ owned_list dr, ∃ n, a = Addr.heap n ∧ w.next ≤ n ∧ n < w1.next


/-- The blocks `malloc` hands out in `j` successive calls starting at block `s`. -/
def fresh_blocks (s j : Nat) : List Addr := (List.range' s j).map Addr.heap

/-- The tree `VarDeclaration(var, "x", Literal(number, "5"))` as built from the
world `w` by `create_number_literal` and `create_var_declaration`. -/
def sample_decl (w : World) : ASTNode :=
  (create_var_declaration "x" (some (create_number_literal "5" w).1) (create_number_literal "5" w).2).1

/-- A world later in a parse: other blocks handed out, the cursor further on. -/
def World.later : World :=
  { next := 100, live := [], yylineno := 7, yycolno := 3, stderr := "" }

/-- A program of two statements, `var x = 5;` and `y;`, as builder calls. -/
def sample_build : Build :=
  .create_program
    (.append_statement
      (.append_statement .create_statement_list
        (.create_var_declaration "x" (.create_number_literal "5")))
      (.advance 2 1 (.create_expression_statement (.create_identifier "y"))))

/-- A build in which `append_statement` is given a node that is not a list: the
identifier `a` as first argument and the identifier `b` as item. -/
def dropping_build : Build :=
  .append_statement (.create_identifier "a") (.create_identifier "b")

/-- The result of running the sample build in the initial world. -/
def sample_built : Built :=
  match sample_build.run World.init with
  | some r => r
  | none => (none, World.init, [])


/-- The union member (and, for a literal, the member of its value) that the
`switch` of `print_ast` reads for a node of the given type is the one the
union holds. -/
def fits : NodeType → Data → Prop
  | .NODE_PROGRAM, .program _ _ => True
  | .NODE_STATEMENT_LIST, .stmt_list _ _ _ _ => True
  | .NODE_VAR_DECLARATION, .var_decl _ _ _ _ => True
  | .NODE_LET_DECLARATION, .var_decl _ _ _ _ => True
  | .NODE_CONST_DECLARATION, .var_decl _ _ _ _ => True
  | .NODE_FUNCTION_DECLARATION, .func_decl _ _ _ _ _ _ => True
  | .NODE_IF_STATEMENT, .if_stmt _ _ _ _ => True
  | .NODE_WHILE_STATEMENT, .while_stmt _ _ _ => True
  | .NODE_FOR_STATEMENT, .for_stmt _ _ _ _ _ => True
  | .NODE_RETURN_STATEMENT, .return_stmt _ _ => True
  | .NODE_BREAK_STATEMENT, .null => True
  | .NODE_BREAK_STATEMENT, .child _ => True
  | .NODE_CONTINUE_STATEMENT, .null => True
  | .NODE_CONTINUE_STATEMENT, .child _ => True
  | .NODE_THROW_STATEMENT, .null => True
  | .NODE_THROW_STATEMENT, .child _ => True
  | .NODE_EXPRESSION_STMT, .null => True
  | .NODE_EXPRESSION_STMT, .child _ => True
  | .NODE_BLOCK_STATEMENT, .null => True
  | .NODE_BLOCK_STATEMENT, .child _ => True
  | .NODE_NEW_EXPR, .null => True
  | .NODE_NEW_EXPR, .child _ => True
  | .NODE_ARRAY_EXPR, .null => True
  | .NODE_ARRAY_EXPR, .child _ => True
  | .NODE_OBJECT_EXPR, .null => True
  | .NODE_OBJECT_EXPR, .child _ => True
  | .NODE_BINARY_EXPR, .binary_expr _ _ _ _ => True
  | .NODE_COMMA_EXPR, .binary_expr _ _ _ _ => True
  | .NODE_ASSIGNMENT_EXPR, .assign_expr _ _ _ _ => True
  | .NODE_UNARY_EXPR, .unary_expr _ _ _ _ => True
  | .NODE_UPDATE_EXPR, .unary_expr _ _ _ _ => True
  | .NODE_CONDITIONAL_EXPR, .cond_expr _ _ _ _ => True
  | .NODE_CALL_EXPR, .call_expr _ _ _ => True
  | .NODE_MEMBER_EXPR, .member_expr _ _ _ _ => True
  | .NODE_IDENTIFIER, .identifier _ _ => True
  | .NODE_LITERAL, .literal _ .LIT_NULL _ => True
  | .NODE_LITERAL, .literal _ .LIT_BOOLEAN .zero => True
  | .NODE_LITERAL, .literal _ .LIT_BOOLEAN (.boolean _) => True
  | .NODE_LITERAL, .literal _ .LIT_NUMBER (.string _) => True
  | .NODE_LITERAL, .literal _ .LIT_STRING (.string _) => True
  | .NODE_LITERAL, .literal _ .LIT_BIGINT (.string _) => True
  | .NODE_THIS, _ => True
  | .NODE_EMPTY_STATEMENT, _ => True
  | _, _ => False

mutual
/-- Every node of the tree holds the union member its type selects. -/
def well_formed_node : ASTNode → Prop
  | .mk t _ _ _ d => fits t d ∧ well_formed_data d
/-- Every node reachable through the union holds the member its type selects. -/
def well_formed_data : Data → Prop
  | .null => True
  | .program _ body => well_formed_ptr body
  | .stmt_list _ _ statements _ => well_formed_list statements
  | .var_decl _ _ _ init => well_formed_ptr init
  | .func_decl _ _ params body _ _ => well_formed_ptr params ∧ well_formed_ptr body
  | .if_stmt _ test consequent alternate =>
    well_formed_ptr test ∧ well_formed_ptr consequent ∧ well_formed_ptr alternate
  | .while_stmt _ test body => well_formed_ptr test ∧ well_formed_ptr body
  | .for_stmt _ init test update body =>
    well_formed_ptr init ∧ well_formed_ptr test ∧ well_formed_ptr update ∧ well_formed_ptr body
  | .return_stmt _ argument => well_formed_ptr argument
  | .binary_expr _ _ left right => well_formed_ptr left ∧ well_formed_ptr right
  | .unary_expr _ _ argument _ => well_formed_ptr argument
  | .assign_expr _ _ left right => well_formed_ptr left ∧ well_formed_ptr right
  | .cond_expr _ test consequent alternate =>
    well_formed_ptr test ∧ well_formed_ptr consequent ∧ well_formed_ptr alternate
  | .call_expr _ callee arguments => well_formed_ptr callee ∧ well_formed_ptr arguments
  | .member_expr _ object property _ => well_formed_ptr object ∧ well_formed_ptr property
  | .identifier _ _ => True
  | .literal _ _ _ => True
  | .child n => well_formed_node n
/-- The tree a pointer leads to is well formed; `NULL` is. -/
def well_formed_ptr : Ptr → Prop
  | none => True
  | some n => well_formed_node n
/-- The items of a list, nil or not, are well formed. -/
def well_formed_list : List Ptr → Prop
  | [] => True
  | p :: rest => well_formed_ptr p ∧ well_formed_list rest
end

/-- The text is defined. -/
def Defined (o : Option String) : Prop := ∃ s, o = some s

/-- A run of `n` spaces. -/
def spaces (n : Nat) : String := String.mk (List.replicate n ' ')

/-- The statement `if (x) { ; }`: an `IfStatement` with test `Identifier("x")`,
consequent `BlockStatement(EmptyStatement)` and no alternate, as built from the
world `w`. -/
def sample_if (w : World) : ASTNode :=
  let x := create_identifier "x" w
  let e := create_empty_statement x.2
  let b := create_block_statement (some e.1) e.2
  (create_if_statement (some x.1) (some b.1) none b.2).1

/-- The result of a builder call made in the world `w` carries the position of
the scan cursor of `w`, and the call leaves the cursor where it was. -/
def at_cursor (r : ASTNode × World) (w : World) : Prop :=
  r.1.line = w.yylineno ∧ r.1.column = w.yycolno
  ∧ r.2.yylineno = w.yylineno ∧ r.2.yycolno = w.yycolno

mutual
/-- The positions (line, column) recorded in a node and in every node
reachable from it, the node first, its children in the order of the fields. -/
def positions_node : ASTNode → List (Int × Int)
  | .mk _ line column _ d => (line, column) :: positions_data d
/-- The positions recorded in the nodes reachable through a union `data`. -/
def positions_data : Data → List (Int × Int)
  | .null => []
  | .program _ body => positions_ptr body
  | .stmt_list _ _ statements _ => positions_list statements
  | .var_decl _ _ _ init => positions_ptr init
  | .func_decl _ _ params body _ _ => positions_ptr params ++ positions_ptr body
  | .if_stmt _ test consequent alternate =>
    positions_ptr test ++ (positions_ptr consequent ++ positions_ptr alternate)
  | .while_stmt _ test body => positions_ptr test ++ positions_ptr body
  | .for_stmt _ init test update body =>
    positions_ptr init ++ (positions_ptr test ++ (positions_ptr update ++ positions_ptr body))
  | .return_stmt _ argument => positions_ptr argument
  | .binary_expr _ _ left right => positions_ptr left ++ positions_ptr right
  | .unary_expr _ _ argument _ => positions_ptr argument
  | .assign_expr _ _ left right => positions_ptr left ++ positions_ptr right
  | .cond_expr _ test consequent alternate =>
    positions_ptr test ++ (positions_ptr consequent ++ positions_ptr alternate)
  | .call_expr _ callee arguments => positions_ptr callee ++ positions_ptr arguments
  | .member_expr _ object property _ => positions_ptr object ++ positions_ptr property
  | .identifier _ _ => []
  | .literal _ _ _ => []
  | .child n => positions_node n
/-- The positions recorded in the tree a pointer leads to. -/
def positions_ptr : Ptr → List (Int × Int)
  | none => []
  | some n => positions_node n
/-- The positions recorded in the items of a list, in order. -/
def positions_list : List Ptr → List (Int × Int)
  | [] => []
  | p :: rest => positions_ptr p ++ positions_list rest
end

/-- What the builders and `append_statement` leave in the union of a node of
each kind: the member of that kind; in a list no nil item, a count within the
capacity and a capacity of 16 doubled some number of times; in a declaration
the kind text of its builder; in a function declaration `is_async` 0 or 1 and
`is_generator` 0; in a unary expression the prefix flag 1; in a comma
expression the operator ","; in a literal one of the kinds null, boolean,
number and string with the matching member of `value`. -/
def built_shape : NodeType → Data → Prop
  | .NODE_PROGRAM, .program _ _ => True
  | .NODE_STATEMENT_LIST, .stmt_list _ _ statements capacity =>
    (∀ p ∈ statements, p ≠ none) ∧ (statements.length : Int) ≤ capacity
    ∧ ∃ k : Nat, capacity = 16 * 2 ^ k
  | .NODE_VAR_DECLARATION, .var_decl _ kind _ _ => kind = CStr.literal "var"
  | .NODE_LET_DECLARATION, .var_decl _ kind _ _ => kind = CStr.literal "let"
  | .NODE_CONST_DECLARATION, .var_decl _ kind _ _ => kind = CStr.literal "const"
  | .NODE_FUNCTION_DECLARATION, .func_decl _ _ _ _ is_async is_generator =>
    (is_async = 0 ∨ is_async = 1) ∧ is_generator = 0
  | .NODE_IF_STATEMENT, .if_stmt _ _ _ _ => True
  | .NODE_WHILE_STATEMENT, .while_stmt _ _ _ => True
  | .NODE_FOR_STATEMENT, .for_stmt _ _ _ _ _ => True
  | .NODE_RETURN_STATEMENT, .return_stmt _ _ => True
  | .NODE_BREAK_STATEMENT, .null => True
  | .NODE_BREAK_STATEMENT, .child _ => True
  | .NODE_CONTINUE_STATEMENT, .null => True
  | .NODE_CONTINUE_STATEMENT, .child _ => True
  | .NODE_THROW_STATEMENT, .null => True
  | .NODE_THROW_STATEMENT, .child _ => True
  | .NODE_EXPRESSION_STMT, .null => True
  | .NODE_EXPRESSION_STMT, .child _ => True
  | .NODE_BLOCK_STATEMENT, .null => True
  | .NODE_BLOCK_STATEMENT, .child _ => True
  | .NODE_NEW_EXPR, .null => True
  | .NODE_NEW_EXPR, .child _ => True
  | .NODE_ARRAY_EXPR, .null => True
  | .NODE_ARRAY_EXPR, .child _ => True
  | .NODE_OBJECT_EXPR, .null => True
  | .NODE_OBJECT_EXPR, .child _ => True
  | .NODE_BINARY_EXPR, .binary_expr _ _ _ _ => True
  | .NODE_COMMA_EXPR, .binary_expr _ operator _ _ => operator.text = ","
  | .NODE_ASSIGNMENT_EXPR, .assign_expr _ _ _ _ => True
  | .NODE_UNARY_EXPR, .unary_expr _ _ _ prefix_flag => prefix_flag = 1
  | .NODE_UPDATE_EXPR, .unary_expr _ _ _ _ => True
  | .NODE_CONDITIONAL_EXPR, .cond_expr _ _ _ _ => True
  | .NODE_CALL_EXPR, .call_expr _ _ _ => True
  | .NODE_MEMBER_EXPR, .member_expr _ _ _ _ => True
  | .NODE_IDENTIFIER, .identifier _ _ => True
  | .NODE_LITERAL, .literal _ .LIT_NULL .zero => True
  | .NODE_LITERAL, .literal _ .LIT_BOOLEAN (.boolean _) => True
  | .NODE_LITERAL, .literal _ .LIT_NUMBER (.string _) => True
  | .NODE_LITERAL, .literal _ .LIT_STRING (.string _) => True
  | .NODE_THIS, .null => True
  | .NODE_EMPTY_STATEMENT, .null => True
  | _, _ => False

mutual
/-- The property `Q` holds of the node and of every node reachable from it. -/
def each_node (Q : ASTNode → Prop) : ASTNode → Prop
  | .mk t l c a d => Q (.mk t l c a d) ∧ each_data Q d
/-- The property `Q` holds of every node reachable through a union `data`. -/
def each_data (Q : ASTNode → Prop) : Data → Prop
  | .null => True
  | .program _ body => each_ptr Q body
  | .stmt_list _ _ statements _ => each_list Q statements
  | .var_decl _ _ _ init => each_ptr Q init
  | .func_decl _ _ params body _ _ => each_ptr Q params ∧ each_ptr Q body
  | .if_stmt _ test consequent alternate =>
    each_ptr Q test ∧ each_ptr Q consequent ∧ each_ptr Q alternate
  | .while_stmt _ test body => each_ptr Q test ∧ each_ptr Q body
  | .for_stmt _ init test update body =>
    each_ptr Q init ∧ each_ptr Q test ∧ each_ptr Q update ∧ each_ptr Q body
  | .return_stmt _ argument => each_ptr Q argument
  | .binary_expr _ _ left right => each_ptr Q left ∧ each_ptr Q right
  | .unary_expr _ _ argument _ => each_ptr Q argument
  | .assign_expr _ _ left right => each_ptr Q left ∧ each_ptr Q right
  | .cond_expr _ test consequent alternate =>
    each_ptr Q test ∧ each_ptr Q consequent ∧ each_ptr Q alternate
  | .call_expr _ callee arguments => each_ptr Q callee ∧ each_ptr Q arguments
  | .member_expr _ object property _ => each_ptr Q object ∧ each_ptr Q property
  | .identifier _ _ => True
  | .literal _ _ _ => True
  | .child n => each_node Q n
/-- The property `Q` holds of every node of the tree a pointer leads to. -/
def each_ptr (Q : ASTNode → Prop) : Ptr → Prop
  | none => True
  | some n => each_node Q n
/-- The property `Q` holds of every node of the items of a list. -/
def each_list (Q : ASTNode → Prop) : List Ptr → Prop
  | [] => True
  | p :: rest => each_ptr Q p ∧ each_list Q rest
end

/-- The node is as a builder or `append_statement` leaves a node of its kind. -/
def built_node (n : ASTNode) : Prop := built_shape n.type n.data

/-- Every node of the tree is as the builders leave it. -/
def Made (p : Ptr) : Prop := each_ptr built_node p

/-- A node that is a function declaration holds `is_generator = 0`, and the
text `print_ast` writes for it starts with the line made of the indentation,
"FunctionDeclaration name=", the name, " (async)" when `is_async` is set, and
the newline: no " (generator)" in it. -/
def no_generator (n : ASTNode) : Prop :=
  n.type = .NODE_FUNCTION_DECLARATION →
    ∃ blk name params body is_async, n.data = .func_decl blk name params body is_async 0
      ∧ ∀ d : Nat, print_node n d
          = (emitAll [if params.isSome then
                        labelled d "Parameters:\n" (print_ast params ((d : Int) + 2))
                      else some "",
                      labelled d "Body:\n" (print_ast body ((d : Int) + 2))]).map
              (fun rest => spaces (2 * d) ++ "FunctionDeclaration name=" ++ name.text
                ++ (if is_async ≠ 0 then " (async)" else "") ++ "\n" ++ rest)

/-- A program holding `async function f() {}` and `function g() {}`, as builder
calls. -/
def function_build : Build :=
  .create_program
    (.append_statement
      (.append_statement .create_statement_list
        (.create_async_function_declaration "f" .nil (.create_block_statement .nil)))
      (.create_function_declaration "g" .nil (.create_block_statement .nil)))

/-- The result of running the build of the two functions in the initial world. -/
def function_built : Built :=
  match function_build.run World.init with
  | some r => r
  | none => (none, World.init, [])

/-- The child pointers held in a union `data`, nil ones included, in the order
of the fields; for a list, its items. -/
def children_of : Data → List Ptr
  | .null => []
  | .program _ body => [body]
  | .stmt_list _ _ statements _ => statements
  | .var_decl _ _ _ init => [init]
  | .func_decl _ _ params body _ _ => [params, body]
  | .if_stmt _ test consequent alternate => [test, consequent, alternate]
  | .while_stmt _ test body => [test, body]
  | .for_stmt _ init test update body => [init, test, update, body]
  | .return_stmt _ argument => [argument]
  | .binary_expr _ _ left right => [left, right]
  | .unary_expr _ _ argument _ => [argument]
  | .assign_expr _ _ left right => [left, right]
  | .cond_expr _ test consequent alternate => [test, consequent, alternate]
  | .call_expr _ callee arguments => [callee, arguments]
  | .member_expr _ object property _ => [object, property]
  | .identifier _ _ => []
  | .literal _ _ _ => []
  | .child n => [some n]

/-- The kinds whose payload has child pointers: all but `Identifier`,
`Literal`, `ThisExpression` and `EmptyStatement`. -/
def has_child_fields : NodeType → Bool
  | .NODE_IDENTIFIER | .NODE_LITERAL | .NODE_THIS | .NODE_EMPTY_STATEMENT => false
  | _ => true

/-- The kinds for which `print_ast` recurses with `indent + 1` right after the
first line, with no section label in between. -/
def prints_child_directly : NodeType → Bool
  | .NODE_PROGRAM | .NODE_STATEMENT_LIST | .NODE_THROW_STATEMENT | .NODE_EXPRESSION_STMT
  | .NODE_BLOCK_STATEMENT => true
  | _ => false

/-- The sections `print_ast` writes under the first line of a node: for each,
the label it prints at `indent + 1` and the child it then prints at
`indent + 2`, in the order of the calls.  A section guarded by `if (child)` is
listed when the child is not nil. -/
def sections_of : NodeType → Data → List (String × Ptr)
  | .NODE_VAR_DECLARATION, .var_decl _ _ _ init
  | .NODE_LET_DECLARATION, .var_decl _ _ _ init
  | .NODE_CONST_DECLARATION, .var_decl _ _ _ init =>
    if init.isSome then [("Initializer:", init)] else []
  | .NODE_FUNCTION_DECLARATION, .func_decl _ _ params body _ _ =>
    (if params.isSome then [("Parameters:", params)] else []) ++ [("Body:", body)]
  | .NODE_IF_STATEMENT, .if_stmt _ test consequent alternate =>
    [("Test:", test), ("Consequent:", consequent)]
      ++ (if alternate.isSome then [("Alternate:", alternate)] else [])
  | .NODE_WHILE_STATEMENT, .while_stmt _ test body => [("Test:", test), ("Body:", body)]
  | .NODE_FOR_STATEMENT, .for_stmt _ init test update body =>
    (if init.isSome then [("Init:", init)] else [])
      ++ ((if test.isSome then [("Test:", test)] else [])
      ++ ((if update.isSome then [("Update:", update)] else []) ++ [("Body:", body)]))
  | .NODE_RETURN_STATEMENT, .return_stmt _ argument =>
    if argument.isSome then [("Argument:", argument)] else []
  | .NODE_BREAK_STATEMENT, .child n
  | .NODE_CONTINUE_STATEMENT, .child n => [("Label:", some n)]
  | .NODE_BINARY_EXPR, .binary_expr _ _ left right
  | .NODE_COMMA_EXPR, .binary_expr _ _ left right
  | .NODE_ASSIGNMENT_EXPR, .assign_expr _ _ left right => [("Left:", left), ("Right:", right)]
  | .NODE_UNARY_EXPR, .unary_expr _ _ argument _
  | .NODE_UPDATE_EXPR, .unary_expr _ _ argument _ => [("Argument:", argument)]
  | .NODE_CONDITIONAL_EXPR, .cond_expr _ test consequent alternate =>
    [("Test:", test), ("Consequent:", consequent), ("Alternate:", alternate)]
  | .NODE_CALL_EXPR, .call_expr _ callee arguments =>
    [("Callee:", callee), ("Arguments:", arguments)]
  | .NODE_MEMBER_EXPR, .member_expr _ object property _ =>
    [("Object:", object), ("Property:", property)]
  | .NODE_NEW_EXPR, .null => [("Callee:", none)]
  | .NODE_NEW_EXPR, .child n => [("Callee:", some n)]
  | .NODE_ARRAY_EXPR, .child n => [("Elements:", some n)]
  | .NODE_OBJECT_EXPR, .child n => [("Properties:", some n)]
  | _, _ => []

/-- The text of one section at depth `d`: the label line at depth `d + 1`, then
the child printed at depth `d + 2`. -/
def section_text (d : Nat) (s : String × Ptr) : Option String :=
  (print_ast s.2 ((d : Int) + 2)).map (fun x => spaces (2 * (d + 1)) ++ s.1 ++ "\n" ++ x)

/-- The statement `throw x;` as built from the world `w`. -/
def sample_throw (w : World) : ASTNode :=
  (create_throw_statement (some (create_identifier "x" w).1) (create_identifier "x" w).2).1

/-- The value of each enumerator of `NodeType` in `ast.h`: the enumerators
count from 0 in declaration order. -/
def NodeType.code : NodeType → Int
  | .NODE_PROGRAM => 0
  | .NODE_STATEMENT_LIST => 1
  | .NODE_EXPRESSION_STMT => 2
  | .NODE_VAR_DECLARATION => 3
  | .NODE_LET_DECLARATION => 4
  | .NODE_CONST_DECLARATION => 5
  | .NODE_FUNCTION_DECLARATION => 6
  | .NODE_IF_STATEMENT => 7
  | .NODE_WHILE_STATEMENT => 8
  | .NODE_FOR_STATEMENT => 9
  | .NODE_RETURN_STATEMENT => 10
  | .NODE_BREAK_STATEMENT => 11
  | .NODE_CONTINUE_STATEMENT => 12
  | .NODE_THROW_STATEMENT => 13
  | .NODE_BLOCK_STATEMENT => 14
  | .NODE_EMPTY_STATEMENT => 15
  | .NODE_BINARY_EXPR => 16
  | .NODE_UNARY_EXPR => 17
  | .NODE_UPDATE_EXPR => 18
  | .NODE_ASSIGNMENT_EXPR => 19
  | .NODE_CONDITIONAL_EXPR => 20
  | .NODE_CALL_EXPR => 21
  | .NODE_MEMBER_EXPR => 22
  | .NODE_NEW_EXPR => 23
  | .NODE_COMMA_EXPR => 24
  | .NODE_IDENTIFIER => 25
  | .NODE_LITERAL => 26
  | .NODE_THIS => 27
  | .NODE_ARRAY_EXPR => 28
  | .NODE_OBJECT_EXPR => 29

/-- Where a `switch (type)` with the given `case` labels goes for the value
`v`: to the label with that value, or to `default` (`none`) when no label has
it. -/
def switch_on (labels : List NodeType) (v : Int) : Option NodeType :=
  labels.find? (fun t => decide (t.code = v))

/-- The `case` labels of the `switch` in `node_type_name`, in source order. -/
def node_type_name_labels : List NodeType :=
  [.NODE_PROGRAM, .NODE_STATEMENT_LIST, .NODE_EXPRESSION_STMT, .NODE_VAR_DECLARATION,
   .NODE_LET_DECLARATION, .NODE_CONST_DECLARATION, .NODE_FUNCTION_DECLARATION,
   .NODE_IF_STATEMENT, .NODE_WHILE_STATEMENT, .NODE_FOR_STATEMENT, .NODE_RETURN_STATEMENT,
   .NODE_BREAK_STATEMENT, .NODE_CONTINUE_STATEMENT, .NODE_THROW_STATEMENT,
   .NODE_BLOCK_STATEMENT, .NODE_EMPTY_STATEMENT, .NODE_BINARY_EXPR, .NODE_UNARY_EXPR,
   .NODE_UPDATE_EXPR, .NODE_ASSIGNMENT_EXPR, .NODE_CONDITIONAL_EXPR, .NODE_CALL_EXPR,
   .NODE_MEMBER_EXPR, .NODE_NEW_EXPR, .NODE_COMMA_EXPR, .NODE_IDENTIFIER, .NODE_LITERAL,
   .NODE_THIS, .NODE_ARRAY_EXPR, .NODE_OBJECT_EXPR]

/-- The C function `node_type_name` on the raw value of its argument, the
`default` branch included. -/
def node_type_name_switch (v : Int) : String :=
  match switch_on node_type_name_labels v with
  | some t => node_type_name t
  | none => "Unknown"

/-- Whether the two texts hold different characters at some position that both
have: then neither is the beginning of the other. -/
def departs : List Char → List Char → Bool
  | a :: as, b :: bs => a != b || departs as bs
  | _, _ => false

/-- The text does not begin with what the `default` branch of the `switch` in
`print_ast` writes after the label, `" (unhandled node type: %d)\n"`. -/
def handled (r : String) : Prop := ∀ tail : String, r ≠ " (unhandled node type: " ++ tail

/-- A node of each kind as the builder of that kind makes it in the initial
world: nil for the children of a payload record, a `this` expression for the
child of the kinds that keep a single child pointer in the union. -/
def sample_of_kind (t : NodeType) : ASTNode :=
  let x : Ptr := some (create_this_expression World.init).1
  let w : World := (create_this_expression World.init).2
  match t with
  | .NODE_PROGRAM => (create_program none w).1
  | .NODE_STATEMENT_LIST => (create_statement_list w).1
  | .NODE_EXPRESSION_STMT => (create_expression_statement x w).1
  | .NODE_VAR_DECLARATION => (create_var_declaration "x" none w).1
  | .NODE_LET_DECLARATION => (create_let_declaration "x" none w).1
  | .NODE_CONST_DECLARATION => (create_const_declaration "x" none w).1
  | .NODE_FUNCTION_DECLARATION => (create_function_declaration "f" none none w).1
  | .NODE_IF_STATEMENT => (create_if_statement none none none w).1
  | .NODE_WHILE_STATEMENT => (create_while_statement none none w).1
  | .NODE_FOR_STATEMENT => (create_for_statement none none none none w).1
  | .NODE_RETURN_STATEMENT => (create_return_statement none w).1
  | .NODE_BREAK_STATEMENT => (create_break_statement x w).1
  | .NODE_CONTINUE_STATEMENT => (create_continue_statement x w).1
  | .NODE_THROW_STATEMENT => (create_throw_statement x w).1
  | .NODE_BLOCK_STATEMENT => (create_block_statement x w).1
  | .NODE_EMPTY_STATEMENT => (create_empty_statement w).1
  | .NODE_BINARY_EXPR => (create_binary_expression "+" none none w).1
  | .NODE_UNARY_EXPR => (create_unary_expression "!" none w).1
  | .NODE_UPDATE_EXPR => (create_update_expression "++" none 0 w).1
  | .NODE_ASSIGNMENT_EXPR => (create_assignment_expression "=" none none w).1
  | .NODE_CONDITIONAL_EXPR => (create_conditional_expression none none none w).1
  | .NODE_CALL_EXPR => (create_call_expression none none w).1
  | .NODE_MEMBER_EXPR => (create_member_expression none none 0 w).1
  | .NODE_NEW_EXPR => (create_new_expression x w).1
  | .NODE_COMMA_EXPR => (create_comma_expression none none w).1
  | .NODE_IDENTIFIER => (create_identifier "x" w).1
  | .NODE_LITERAL => (create_null_literal w).1
  | .NODE_THIS => (create_this_expression w).1
  | .NODE_ARRAY_EXPR => (create_array_expression x w).1
  | .NODE_OBJECT_EXPR => (create_object_expression x w).1

/-- The duplicated strings a payload holds, in the order `free_ast` releases
them: the name of a declaration, function or identifier, the operator of an
expression, the text of a number, string or bigint literal.  The kind text of
a declaration is a string literal and is not among them. -/
def strings_of : Data → List Addr
  | .var_decl _ _ name _ => [name.addr]
  | .func_decl _ name _ _ _ _ => [name.addr]
  | .binary_expr _ operator _ _ => [operator.addr]
  | .unary_expr _ operator _ _ => [operator.addr]
  | .assign_expr _ operator _ _ => [operator.addr]
  | .identifier _ name => [name.addr]
  | .literal _ .LIT_NUMBER (.string s) => [s.addr]
  | .literal _ .LIT_STRING (.string s) => [s.addr]
  | .literal _ .LIT_BIGINT (.string s) => [s.addr]
  | _ => []

/-- The blocks of the payload record of a node, in the order `free_ast`
releases them: the record the union points to, preceded for a list by its item
array; none for a union that holds a child pointer or nothing. -/
def payload_blocks : Data → List Addr
  | .null => []
  | .child _ => []
  | .program blk _ => [blk]
  | .stmt_list blk arr _ _ => [arr, blk]
  | .var_decl blk _ _ _ => [blk]
  | .func_decl blk _ _ _ _ _ => [blk]
  | .if_stmt blk _ _ _ => [blk]
  | .while_stmt blk _ _ => [blk]
  | .for_stmt blk _ _ _ _ => [blk]
  | .return_stmt blk _ => [blk]
  | .binary_expr blk _ _ _ => [blk]
  | .unary_expr blk _ _ _ => [blk]
  | .assign_expr blk _ _ _ => [blk]
  | .cond_expr blk _ _ _ => [blk]
  | .call_expr blk _ _ => [blk]
  | .member_expr blk _ _ _ => [blk]
  | .identifier blk _ => [blk]
  | .literal blk _ _ => [blk]

/-- The releases of the children: one sequence for each child pointer, nil
ones included, each being what `free_ast` releases for that child. -/
def child_releases (children : List Ptr) (cs : List (List Addr)) : Prop :=
  List.Forall₂ (fun ch fs => free_ast ch = some fs) children cs

/-- The kind text of a declaration agrees with the discriminant of its node
and with the label printed for it: a node holds a `VarDeclaration` record
exactly when its type is one of the three declaration types, and then the
record's `kind` is the string literal "var", "let" or "const" of that type,
which is also the text between the brackets of the label. -/
def kind_agrees (n : ASTNode) : Prop :=
  ((n.type = .NODE_VAR_DECLARATION ∨ n.type = .NODE_LET_DECLARATION
      ∨ n.type = .NODE_CONST_DECLARATION) →
    ∃ blk kind name init, n.data = .var_decl blk kind name init)
  ∧ ∀ blk kind name init, n.data = .var_decl blk kind name init →
      node_type_name n.type = "VariableDeclaration(" ++ kind.text ++ ")"
      ∧ ((n.type = .NODE_VAR_DECLARATION ∧ kind = CStr.literal "var")
        ∨ (n.type = .NODE_LET_DECLARATION ∧ kind = CStr.literal "let")
        ∨ (n.type = .NODE_CONST_DECLARATION ∧ kind = CStr.literal "const"))

/-- A program holding `var a; let b; const c;`, as builder calls. -/
def declarations_build : Build :=
  .create_program
    (.append_statement
      (.append_statement
        (.append_statement .create_statement_list (.create_var_declaration "a" .nil))
        (.create_let_declaration "b" .nil))
      (.create_const_declaration "c" .nil))

/-- The result of running the build of the three declarations in the initial
world. -/
def declarations_built : Built :=
  match declarations_build.run World.init with
  | some r => r
  | none => (none, World.init, [])

/-- The texts of a sequence, one after the other. -/
def concat_texts : List String → String
  | [] => ""
  | s :: rest => s ++ concat_texts rest

/-- The texts `print_ast` writes for the items of a sequence at a depth, item
by item. -/
def item_texts (items : List Ptr) (depth : Int) (texts : List String) : Prop :=
  List.Forall₂ (fun x s => print_ast x depth = some s) items texts

/-- A section that `print_ast` writes under `if (child)`: the section of the
child when it is not nil, nothing otherwise. -/
def optional_section (d : Nat) (label : String) (child : Ptr) : Option String :=
  if child.isSome then section_text d (label, child) else some ""

/-! ## The driver: `main` and `read_file` of `main.c` -/

/-- What the parser leaves behind for the driver: the value `yyparse` returns
and the globals `parse_error_count`, `root` and `yylineno` after the call. -/
structure Parsed where
  result : Int
  parse_error_count : Int
  root : Ptr
  yylineno : Int

/-- The surroundings of a run of the driver: the files `fopen` can open, with
the bytes `fread` reads from each, and what the lexer and parser (`init_lexer`,
`yyparse`, which are not part of this subsystem) make of an input. -/
structure Env where
  file : String → Option String
  parse : String → Parsed

/-- What a run of the driver does, as far as it can be seen from outside
`main`: text written to the two streams and calls of the other functions. -/
inductive Action where
  | stderr (text : String)
  | stdout (text : String)
  | init_lexer (input : String)
  | yyparse
  | print_ast (node : Ptr) (indent : Int)
  | free_ast (node : Ptr)
  | free_input

/-- The text `printf("%d", n)` writes for an `int`. -/
def fmt_int (n : Int) : String := toString n

/-- The C function `read_file` of `main.c`: the message when the file cannot
be opened, else the contents.  `malloc` is taken to succeed. -/
def read_file (env : Env) (filename : String) : List Action × Option String :=
  match env.file filename with
  | none => ([.stderr ("Error: Cannot open file '" ++ filename ++ "'\n")], none)
  | some content => ([], some content)

/-- The loop of `main` over `argv[1] .. argv[argc-1]`, from the values of
`verbose` and `filename` so far: `none` when the help branch returns 0, else
the two variables after the loop. -/
def scan_args (prog : String) : List String → Int → Option String →
    List Action × Option (Int × Option String)
  | [], verbose, filename => ([], some (verbose, filename))
  | arg :: rest, verbose, filename =>
    if arg = "-v" ∨ arg = "--verbose" then scan_args prog rest 1 filename
    else if arg = "-h" ∨ arg = "--help" then
      ([.stderr "JavaScript Parser - re2c + bison implementation\n\n",
        .stderr ("Usage: " ++ prog ++ " [options] <javascript_file>\n\n"),
        .stderr "Options:\n",
        .stderr "  -v, --verbose    Print detailed AST\n",
        .stderr "  -h, --help       Show this help message\n"], none)
    else scan_args prog rest verbose (some arg)

/-- The C function `main` of `main.c` for the program name `prog` (`argv[0]`)
and the arguments `args` (`argv[1] .. argv[argc-1]`): the exit status and what
the run does, in order. -/
def main (env : Env) (prog : String) (args : List String) : Int × List Action :=
  if (args.length : Int) + 1 < 2 then
    (1, [.stderr ("Usage: " ++ prog ++ " <javascript_file>\n"),
         .stderr "Options:\n",
         .stderr "  -v, --verbose    Print detailed AST\n",
         .stderr "  -h, --help       Show this help message\n"])
  else
    match scan_args prog args 0 none with
    | (acts, none) => (0, acts)
    | (_, some (_, none)) => (1, [.stderr "Error: No input file specified\n"])
    | (_, some (verbose, some filename)) =>
      match read_file env filename with
      | (acts, none) => (1, acts)
      | (_, some input) =>
        let p := env.parse input
        if p.result = 0 ∧ p.parse_error_count = 0 ∧ p.root.isSome then
          (0, [.init_lexer input, .stdout ("Parsing '" ++ filename ++ "'...\n"), .yyparse,
               .stdout "✓ Parsing successful!\n",
               .stdout ("  Total lines: " ++ fmt_int p.yylineno ++ "\n")]
              ++ (if verbose ≠ 0 then
                    [.stdout "\n=== Abstract Syntax Tree ===\n", .print_ast p.root 0]
                  else [])
              ++ [.free_ast p.root, .free_input])
        else
          (1, [.init_lexer input, .stdout ("Parsing '" ++ filename ++ "'...\n"), .yyparse,
               .stdout ("✗ Parsing failed with "
                 ++ fmt_int (if p.parse_error_count > 0 then p.parse_error_count else 1)
                 ++ " error(s)\n")]
              ++ (if p.root.isSome then [.free_ast p.root] else [])
              ++ [.free_input])

/-- The argument is the verbose flag. -/
def is_verbose_flag (arg : String) : Prop := arg = "-v" ∨ arg = "--verbose"

/-- The argument is the help flag. -/
def is_help_flag (arg : String) : Prop := arg = "-h" ∨ arg = "--help"

instance (arg : String) : Decidable (is_verbose_flag arg) := by
  unfold is_verbose_flag; infer_instance

instance (arg : String) : Decidable (is_help_flag arg) := by
  unfold is_help_flag; infer_instance

/-- The input file of an argument list: the last argument that is neither the
verbose nor the help flag. -/
def input_file (args : List String) : Option String :=
  (args.filter (fun a => decide (¬ is_verbose_flag a ∧ ¬ is_help_flag a))).getLast?

/-- Parsing succeeded: `yyparse` returned 0, no parse error was counted and
the root is not nil. -/
def parse_ok (p : Parsed) : Prop := p.result = 0 ∧ p.parse_error_count = 0 ∧ p.root ≠ none

/-- The calls of `print_ast` and `free_ast` among the actions of a run. -/
def tree_calls (acts : List Action) : List Action :=
  acts.filter (fun a => match a with
    | .print_ast _ _ => true
    | .free_ast _ => true
    | _ => false)

/-- Surroundings with one file, `ok.js`, that parses to a program with an
empty body, and one file, `bad.js`, on which the parser reports one error and
leaves no tree. -/
def sample_env : Env where
  file := fun name =>
    if name = "ok.js" then some ";" else if name = "bad.js" then some "var" else none
  parse := fun input =>
    if input = ";" then
      { result := 0, parse_error_count := 0,
        root := some (create_program none World.init).1, yylineno := 1 }
    else { result := 1, parse_error_count := 1, root := none, yylineno := 1 }

/-- A literal node is as the four literal builders leave it: a node holds a
`Literal` record exactly when its type is `NODE_LITERAL`, and then the kind is
null with the value zeroed, boolean with the member `boolean` set, or number
or string with the member `string` set; it is never bigint. -/
def literal_kind_ok (n : ASTNode) : Prop :=
  (n.type = .NODE_LITERAL → ∃ blk kind value, n.data = .literal blk kind value)
  ∧ ∀ blk kind value, n.data = .literal blk kind value →
      n.type = .NODE_LITERAL
      ∧ kind ≠ .LIT_BIGINT
      ∧ ((kind = .LIT_NULL ∧ value = .zero)
        ∨ (kind = .LIT_BOOLEAN ∧ ∃ v, value = .boolean v)
        ∨ (kind = .LIT_NUMBER ∧ ∃ s, value = .string s)
        ∨ (kind = .LIT_STRING ∧ ∃ s, value = .string s))

/-- A program holding the expression statements `null; true; 1; "s";`, as
builder calls. -/
def literals_build : Build :=
  .create_program
    (.append_statement
      (.append_statement
        (.append_statement
          (.append_statement .create_statement_list
            (.create_expression_statement .create_null_literal))
          (.create_expression_statement (.create_boolean_literal 1)))
        (.create_expression_statement (.create_number_literal "1")))
      (.create_expression_statement (.create_string_literal "s")))

/-- The result of running the build of the four literals in the initial
world. -/
def literals_built : Built :=
  match literals_build.run World.init with
  | some r => r
  | none => (none, World.init, [])

/-! ## Theorems -/

/-! ### The growable statement list: `create_statement_list`, `append_statement` -/

/-- The diagnostic `append_statement` writes to standard error when its first
argument is not a list. -/
theorem append_statement_not_list (n item : ASTNode) (w : World)
    (h : n.type ≠ .NODE_STATEMENT_LIST) :
    append_statement (some n) (some item) w
      = some (some n, { w with stderr := w.stderr ++ "Error: Trying to append to non-list node\n" }) := by
  simp [append_statement, h]

/-- The call `append_statement` on a list with a free slot stores the item at index
`count` and leaves the capacity and the item array block unchanged. -/
theorem append_statement_room (ln col : Int) (a blk arr : Addr) (sts : List Ptr) (cap : Int)
    (x : ASTNode) (w : World) (h : (sts.length : Int) < cap) :
    append_statement (some (.mk .NODE_STATEMENT_LIST ln col a (.stmt_list blk arr sts cap)))
        (some x) w
      = some (some (.mk .NODE_STATEMENT_LIST ln col a (.stmt_list blk arr (sts ++ [some x]) cap)), w) := by
  simp [append_statement, ASTNode.type, ASTNode.data, ASTNode.setData, not_le.mpr h]

/-- The call `append_statement` on a full list doubles the capacity, moves the item
array and stores the item at index `count`. -/
theorem append_statement_grow (ln col : Int) (a blk arr : Addr) (sts : List Ptr) (cap : Int)
    (x : ASTNode) (w : World) (h : cap ≤ (sts.length : Int)) (h2 : (sts.length : Int) < cap * 2)
    (h3 : cap * 2 ≤ INT_MAX) :
    append_statement (some (.mk .NODE_STATEMENT_LIST ln col a (.stmt_list blk arr sts cap)))
        (some x) w
      = some (some (.mk .NODE_STATEMENT_LIST ln col a
                  (.stmt_list blk (realloc arr w).1 (sts ++ [some x]) (cap * 2))),
              (realloc arr w).2) := by
  have h4 : ¬ (cap * 2 > INT_MAX) := not_lt.mpr h3
  have h5 : ¬ (cap * 2 < INT_MIN) := by
    have : (0 : Int) ≤ (sts.length : Int) := Int.natCast_nonneg _
    unfold INT_MIN; omega
  have h6 : ¬ (cap * 2 ≤ (sts.length : Int)) := not_le.mpr h2
  simp [append_statement, ASTNode.type, ASTNode.data, ASTNode.setData, h, h4, h5, h6]

/-- Appending a sequence of non-nil items to a list whose capacity is
`16 * 2 ^ k` and tight for its count: every item is stored in order and the
capacity stays of that form and tight. -/
theorem append_all_list (items : List ASTNode) :
    ∀ (ln col : Int) (a blk arr : Addr) (sts : List Ptr) (k : Nat) (w : World),
      sts.length ≤ 16 * 2 ^ k → (k = 0 ∨ 16 * 2 ^ (k - 1) < sts.length) →
      sts.length + items.length ≤ 2 ^ 30 →
      ∃ arr1 k1 w1,
        append_all (some (.mk .NODE_STATEMENT_LIST ln col a
            (.stmt_list blk arr sts ((16 * 2 ^ k : Nat) : Int)))) (items.map some) w
          = some (some (.mk .NODE_STATEMENT_LIST ln col a
              (.stmt_list blk arr1 (sts ++ items.map some) ((16 * 2 ^ k1 : Nat) : Int))), w1)
        ∧ sts.length + items.length ≤ 16 * 2 ^ k1
        ∧ (k1 = 0 ∨ 16 * 2 ^ (k1 - 1) < sts.length + items.length) := by
  induction items with
  | nil =>
    intro ln col a blk arr sts k w h1 h2 _
    exact ⟨arr, k, w, by simp [append_all], by simpa using h1, by simpa using h2⟩
  | cons x xs ih =>
    intro ln col a blk arr sts k w h1 h2 h3
    have e30 : (2 : Nat) ^ 30 = 1073741824 := by norm_num
    simp only [List.length_cons, e30] at h3
    by_cases hfull : sts.length < 16 * 2 ^ k
    · have hroom : ((sts.length : Nat) : Int) < ((16 * 2 ^ k : Nat) : Int) := by exact_mod_cast hfull
      obtain ⟨arr1, k1, w1, e, b1, b2⟩ := ih ln col a blk arr (sts ++ [some x]) k w
        (by simp only [List.length_append, List.length_cons, List.length_nil]; omega)
        (by
          rcases h2 with h | h
          · exact Or.inl h
          · right; simp only [List.length_append, List.length_cons, List.length_nil]; omega)
        (by simp only [List.length_append, List.length_cons, List.length_nil, e30]; omega)
      simp only [List.length_append, List.length_cons, List.length_nil] at b1 b2
      refine ⟨arr1, k1, w1, ?_, ?_, ?_⟩
      · simp only [List.map_cons, append_all, append_statement_room ln col a blk arr sts _ x w hroom]
        simpa using e
      · simp only [List.length_cons]; omega
      · simp only [List.length_cons]; omega
    · have heq : sts.length = 16 * 2 ^ k := by omega
      have hle : ((16 * 2 ^ k : Nat) : Int) ≤ ((sts.length : Nat) : Int) := by
        exact_mod_cast (le_of_eq heq.symm)
      have hlt : ((sts.length : Nat) : Int) < ((16 * 2 ^ k : Nat) : Int) * 2 := by
        have hp : 0 < 2 ^ k := Nat.two_pow_pos k
        have : sts.length < 16 * 2 ^ k * 2 := by omega
        exact_mod_cast this
      have hmax : ((16 * 2 ^ k : Nat) : Int) * 2 ≤ INT_MAX := by
        have hk : sts.length * 2 ≤ 2147483647 := by omega
        rw [heq] at hk
        unfold INT_MAX
        exact_mod_cast hk
      have hcap : ((16 * 2 ^ k : Nat) : Int) * 2 = ((16 * 2 ^ (k + 1) : Nat) : Int) := by
        push_cast; ring
      have hpow : 2 ^ (k + 1) = 2 ^ k * 2 := pow_succ 2 k
      obtain ⟨arr1, k1, w1, e, b1, b2⟩ := ih ln col a blk (realloc arr w).1 (sts ++ [some x])
        (k + 1) (realloc arr w).2
        (by simp only [List.length_append, List.length_cons, List.length_nil]; omega)
        (by right; simp only [List.length_append, List.length_cons, List.length_nil,
              Nat.add_sub_cancel]; omega)
        (by simp only [List.length_append, List.length_cons, List.length_nil, e30]; omega)
      simp only [List.length_append, List.length_cons, List.length_nil] at b1 b2
      refine ⟨arr1, k1, w1, ?_, ?_, ?_⟩
      · simp only [List.map_cons, append_all,
          append_statement_grow ln col a blk arr sts _ x w hle hlt hmax, hcap]
        simpa using e
      · simp only [List.length_cons]; omega
      · simp only [List.length_cons]; omega

/-- A capacity `16 * 2 ^ k` that is tight for `n` is the least member of
`16, 32, 64, ...` that is at least `n`. -/
theorem tight_capacity_least (n k : Nat) (h : k = 0 ∨ 16 * 2 ^ (k - 1) < n) (j : Nat)
    (hj : n ≤ 16 * 2 ^ j) : 16 * 2 ^ k ≤ 16 * 2 ^ j := by
  rcases h with h | h
  · subst h
    have : 1 ≤ 2 ^ j := Nat.one_le_two_pow
    omega
  · have h1 : 2 ^ (k - 1) < 2 ^ j := by omega
    have h2 : k - 1 < j := (Nat.pow_lt_pow_iff_right (by norm_num)).mp h1
    have h3 : k ≤ j := by omega
    have : 2 ^ k ≤ 2 ^ j := Nat.pow_le_pow_right (by norm_num) h3
    omega

/-- The node and world `create_statement_list` returns. -/
theorem create_statement_list_eq (w : World) :
    create_statement_list w
      = (.mk .NODE_STATEMENT_LIST w.yylineno w.yycolno (.heap w.next)
            (.stmt_list (.heap (w.next + 1)) (.heap (w.next + 2)) [] 16),
         { w with next := w.next + 3,
                  live := .heap (w.next + 2) :: .heap (w.next + 1) :: .heap w.next :: w.live }) := by
  rfl

/-- C2: after appending N < 2^30 non-nil items to a list freshly made by
`create_statement_list`, the count is N and the capacity is the least member
of 16, 32, 64, ... that is at least N (16 when N <= 16, and 32 when N = 17). -/
theorem C2_append_count_capacity (items : List ASTNode) (w : World)
    (hN : items.length < 2 ^ 30) :
    ∃ l w1 cap,
      append_all (some (create_statement_list w).1) (items.map some) (create_statement_list w).2
        = some (some l, w1)
      ∧ list_count l = some items.length
      ∧ list_capacity l = some ((cap : Nat) : Int)
      ∧ (∃ k, cap = 16 * 2 ^ k)
      ∧ items.length ≤ cap
      ∧ (∀ j, items.length ≤ 16 * 2 ^ j → cap ≤ 16 * 2 ^ j)
      ∧ (items.length ≤ 16 → cap = 16)
      ∧ (items.length = 17 → cap = 32) := by
  obtain ⟨arr1, k1, w1, e, b1, b2⟩ :=
    append_all_list items w.yylineno w.yycolno (.heap w.next) (.heap (w.next + 1))
      (.heap (w.next + 2)) [] 0 (create_statement_list w).2 (by simp) (Or.inl rfl)
      (by simp only [List.length_nil]; omega)
  simp only [List.length_nil, Nat.zero_add, List.nil_append] at e b1 b2
  have hleast := tight_capacity_least items.length k1 b2
  refine ⟨.mk .NODE_STATEMENT_LIST w.yylineno w.yycolno (.heap w.next)
      (.stmt_list (.heap (w.next + 1)) arr1 (items.map some) ((16 * 2 ^ k1 : Nat) : Int)),
    w1, 16 * 2 ^ k1, ?_, ?_, ?_, ⟨k1, rfl⟩, b1, hleast, ?_, ?_⟩
  · rw [create_statement_list_eq]
    rw [create_statement_list_eq] at e
    simpa using e
  · simp [list_count, ASTNode.data]
  · simp [list_capacity, ASTNode.data]
  · intro h16
    have h := hleast 0 (by simpa using h16)
    have : 1 ≤ 2 ^ k1 := Nat.one_le_two_pow
    omega
  · intro h17
    have h := hleast 1 (by simp; omega)
    rcases b2 with h0 | h0
    · subst h0; simp at b1; omega
    · have : 1 ≤ 2 ^ (k1 - 1) := Nat.one_le_two_pow
      have hk : 2 ^ k1 = 2 ^ (k1 - 1) * 2 := by
        rcases k1 with _ | k
        · simp at b1; omega
        · simp [pow_succ]
      omega

/-- C2 at seventeen items appended to the list made in the initial world. -/
theorem C2_append_count_capacity_witness :
    (List.replicate 17 sample_item).length < 2 ^ 30 ∧
    ∃ l w1 cap,
      append_all (some (create_statement_list World.init).1)
          ((List.replicate 17 sample_item).map some) (create_statement_list World.init).2
        = some (some l, w1)
      ∧ list_count l = some (List.replicate 17 sample_item).length
      ∧ list_capacity l = some ((cap : Nat) : Int)
      ∧ (∃ k, cap = 16 * 2 ^ k)
      ∧ (List.replicate 17 sample_item).length ≤ cap
      ∧ (∀ j, (List.replicate 17 sample_item).length ≤ 16 * 2 ^ j → cap ≤ 16 * 2 ^ j)
      ∧ ((List.replicate 17 sample_item).length ≤ 16 → cap = 16)
      ∧ ((List.replicate 17 sample_item).length = 17 → cap = 32) :=
  ⟨by simp, C2_append_count_capacity (List.replicate 17 sample_item) World.init (by simp)⟩

/-- A node satisfying `ListInv` is a `NODE_STATEMENT_LIST` record holding a
`StatementList`. -/
theorem ListInv.shape {l : ASTNode} (h : ListInv l) :
    ∃ ln col a blk arr sts cap,
      l = .mk .NODE_STATEMENT_LIST ln col a (.stmt_list blk arr sts cap)
      ∧ (sts.length : Int) ≤ cap ∧ 16 ≤ cap := by
  obtain ⟨t, ln, col, a, d⟩ := l
  obtain ⟨ht, blk, arr, sts, cap, hd, _, h1, h2⟩ := h
  simp only [ASTNode.type] at ht
  simp only [ASTNode.data] at hd
  subst ht hd
  exact ⟨ln, col, a, blk, arr, sts, cap, rfl, h1, h2⟩

/-- C3: the list made by `create_statement_list` has capacity 16, count 0 and
satisfies `0 <= count <= capacity`, `capacity >= 16`; every call of
`append_statement` on a list node with capacity below 2^30, for every item
including nil, keeps that predicate, and the capacity changes only when the
count equalled the capacity, and then to exactly twice its value. -/
theorem C3_list_invariant (l : ASTNode) (item : Ptr) (w w0 : World) (hinv : ListInv l)
    (hcap : ∃ c, list_capacity l = some c ∧ c < 2 ^ 30) :
    (ListInv (create_statement_list w0).1
      ∧ list_capacity (create_statement_list w0).1 = some 16
      ∧ list_count (create_statement_list w0).1 = some 0)
    ∧ ∃ l1 w1 n c c1,
        append_statement (some l) item w = some (some l1, w1)
        ∧ ListInv l1
        ∧ list_count l = some n ∧ list_capacity l = some c ∧ list_capacity l1 = some c1
        ∧ (c1 ≠ c → (n : Int) = c ∧ c1 = 2 * c)
        ∧ (item ≠ none → (n : Int) = c → c1 = 2 * c) := by
  constructor
  · rw [create_statement_list_eq]
    refine ⟨⟨rfl, _, _, [], 16, rfl, ?_, ?_, ?_⟩, rfl, rfl⟩ <;> simp
  · obtain ⟨ln, col, a, blk, arr, sts, cap, rfl, h1, h2⟩ := hinv.shape
    obtain ⟨c, hc, hlt⟩ := hcap
    simp only [list_capacity, ASTNode.data, Option.some.injEq] at hc
    subst hc
    cases item with
    | none =>
      exact ⟨_, w, sts.length, cap, cap, by simp [append_statement], hinv, rfl, rfl, rfl,
        fun h => absurd rfl h, fun h => absurd rfl h⟩
    | some x =>
      by_cases hroom : (sts.length : Int) < cap
      · refine ⟨_, w, sts.length, cap, cap, append_statement_room ln col a blk arr sts cap x w hroom,
          ⟨rfl, blk, arr, sts ++ [some x], cap, rfl, ?_, ?_, h2⟩, rfl, rfl, rfl,
          fun h => absurd rfl h, fun _ h => ?_⟩
        · exact Int.natCast_nonneg _
        · simp only [List.length_append, List.length_cons, List.length_nil]; push_cast; omega
        · omega
      · have hfull : cap ≤ (sts.length : Int) := not_lt.mp hroom
        have hmax : cap * 2 ≤ INT_MAX := by
          have : (2 : Int) ^ 30 = 1073741824 := by norm_num
          unfold INT_MAX; omega
        refine ⟨_, _, sts.length, cap, cap * 2,
          append_statement_grow ln col a blk arr sts cap x w hfull (by omega) hmax,
          ⟨rfl, blk, _, sts ++ [some x], cap * 2, rfl, ?_, ?_, by omega⟩, rfl, rfl, rfl,
          fun _ => ⟨by omega, by ring⟩, fun _ _ => by ring⟩
        · exact Int.natCast_nonneg _
        · simp only [List.length_append, List.length_cons, List.length_nil]; push_cast; omega

/-- C3 at the sample list (capacity 16, one item) and the sample item. -/
theorem C3_list_invariant_witness :
    ListInv sample_list ∧ (∃ c, list_capacity sample_list = some c ∧ c < 2 ^ 30) ∧
    ((ListInv (create_statement_list World.init).1
      ∧ list_capacity (create_statement_list World.init).1 = some 16
      ∧ list_count (create_statement_list World.init).1 = some 0)
    ∧ ∃ l1 w1 n c c1,
        append_statement (some sample_list) (some sample_item) World.init = some (some l1, w1)
        ∧ ListInv l1
        ∧ list_count sample_list = some n ∧ list_capacity sample_list = some c
        ∧ list_capacity l1 = some c1
        ∧ (c1 ≠ c → (n : Int) = c ∧ c1 = 2 * c)
        ∧ (some sample_item ≠ none → (n : Int) = c → c1 = 2 * c)) :=
  have hinv : ListInv sample_list :=
    ⟨rfl, _, _, _, _, rfl, by decide, by decide, by decide⟩
  have hcap : ∃ c, list_capacity sample_list = some c ∧ c < 2 ^ 30 := ⟨16, rfl, by norm_num⟩
  ⟨hinv, hcap, C3_list_invariant sample_list (some sample_item) World.init World.init hinv hcap⟩

/-- C5: `append_statement(NULL, item)` returns exactly `item`, for every item
(a node of any kind, or nil), and changes nothing: no block is allocated, so no
list is created. -/
theorem C5_append_to_nil (item : Ptr) (w : World) :
    append_statement none item w = some (item, w) := by
  simp [append_statement]

/-- C6: `append_statement(list, NULL)` on a non-nil node returns that same node
with count, capacity and every item unchanged; and whatever the item, an entry
of the resulting list that is nil was already nil in the list before the call,
so `append_statement` never stores a nil entry. -/
theorem C6_append_nil_item (l : ASTNode) (w : World) :
    append_statement (some l) none w = some (some l, w)
    ∧ ∀ (stmt : Ptr) (l1 : ASTNode) (w1 : World),
        append_statement (some l) stmt w = some (some l1, w1) →
        ∀ i, list_item l1 i = some none → list_item l i = some none := by
  refine ⟨by simp [append_statement], ?_⟩
  intro stmt l1 w1 h i hi
  cases stmt with
  | none =>
    simp only [append_statement, Option.some.injEq, Prod.mk.injEq] at h
    obtain ⟨rfl, _⟩ := h
    exact hi
  | some x =>
    obtain ⟨t, ln, col, a, d⟩ := l
    by_cases ht : t = .NODE_STATEMENT_LIST
    · subst ht
      cases d <;> simp only [append_statement, ASTNode.type, ASTNode.data, ne_eq,
        not_true_eq_false, if_false, reduceCtorEq] at h
      next blk arr sts cap =>
        have key : ∀ arr1 cap1, list_item (ASTNode.mk .NODE_STATEMENT_LIST ln col a
            (.stmt_list blk arr1 (sts ++ [some x]) cap1)) i = some none →
            list_item (ASTNode.mk .NODE_STATEMENT_LIST ln col a (.stmt_list blk arr sts cap)) i
              = some none := by
          intro arr1 cap1 hget
          simp only [list_item, ASTNode.data] at hget ⊢
          by_cases hlt : i < sts.length
          · rwa [List.getElem?_append_left hlt] at hget
          · have hge : sts.length ≤ i := not_lt.mp hlt
            rw [List.getElem?_append_right hge] at hget
            cases hsub : i - sts.length with
            | zero => rw [hsub] at hget; simp at hget
            | succ m => rw [hsub] at hget; simp at hget
        split_ifs at h
        · simp only [realloc, ASTNode.setData, Option.some.injEq, Prod.mk.injEq] at h
          obtain ⟨rfl, _⟩ := h
          exact key _ _ hi
        · simp only [ASTNode.setData, Option.some.injEq, Prod.mk.injEq] at h
          obtain ⟨rfl, _⟩ := h
          exact key _ _ hi
    · have h2 := append_statement_not_list (.mk t ln col a d) x w (by simpa [ASTNode.type] using ht)
      rw [h2] at h
      simp only [Option.some.injEq, Prod.mk.injEq] at h
      obtain ⟨rfl, _⟩ := h
      exact hi

/-- C6 at the sample list: appending nil returns it unchanged. -/
theorem C6_append_nil_item_witness :
    append_statement (some sample_list) none World.init = some (some sample_list, World.init) :=
  (C6_append_nil_item sample_list World.init).1

/-- C7: `append_statement(n, item)` on a non-nil node that is not a statement
list, with a non-nil item, returns normally with `n` itself: kind, position and
payload are those of `n`, the item is not linked into it, nothing is allocated
or released, and the only effect is the diagnostic on standard error. -/
theorem C7_append_to_non_list (n item : ASTNode) (w : World)
    (h : n.type ≠ .NODE_STATEMENT_LIST) :
    ∃ r w1, append_statement (some n) (some item) w = some (some r, w1)
      ∧ r = n ∧ r.type = n.type ∧ r.line = n.line ∧ r.column = n.column ∧ r.data = n.data
      ∧ w1.next = w.next ∧ w1.live = w.live
      ∧ w1.yylineno = w.yylineno ∧ w1.yycolno = w.yycolno
      ∧ w1.stderr = w.stderr ++ "Error: Trying to append to non-list node\n" :=
  ⟨n, _, append_statement_not_list n item w h, rfl, rfl, rfl, rfl, rfl, rfl, rfl, rfl, rfl, rfl⟩

/-- C7 at the sample identifier node and the sample item. -/
theorem C7_append_to_non_list_witness :
    sample_identifier.type ≠ .NODE_STATEMENT_LIST ∧
    ∃ r w1, append_statement (some sample_identifier) (some sample_item) World.init
        = some (some r, w1)
      ∧ r = sample_identifier ∧ r.type = sample_identifier.type
      ∧ r.line = sample_identifier.line ∧ r.column = sample_identifier.column
      ∧ r.data = sample_identifier.data
      ∧ w1.next = World.init.next ∧ w1.live = World.init.live
      ∧ w1.yylineno = World.init.yylineno ∧ w1.yycolno = World.init.yycolno
      ∧ w1.stderr = World.init.stderr ++ "Error: Trying to append to non-list node\n" :=
  ⟨by decide, C7_append_to_non_list sample_identifier sample_item World.init (by decide)⟩

/-- C4, as stated, fails on a full list whose capacity is 2^30: doubling the
capacity leaves the range of `int`, and the call has no defined result, so it
does not return the list with one more item. -/
theorem C4_counterexample_full_list :
    ListInv full_list ∧ list_count full_list = some 1073741824
    ∧ ¬ ∃ l1 w1, append_statement (some full_list) (some sample_item) World.init
          = some (some l1, w1) := by
  refine ⟨⟨rfl, _, _, _, _, rfl, ?_, ?_, ?_⟩, ?_, ?_⟩
  · exact Int.natCast_nonneg _
  · rw [List.length_replicate]; norm_num
  · norm_num
  · simp only [list_count, full_list, ASTNode.data, List.length_replicate]
  · rintro ⟨l1, w1, h⟩
    simp only [append_statement, full_list, ASTNode.type, ASTNode.data, ne_eq, not_true_eq_false,
      if_false, List.length_replicate, INT_MAX, INT_MIN] at h
    norm_num at h
    exact Option.noConfusion h

/-- C4, amended: for every list node that has a free slot or whose capacity is
below 2^30, and every non-nil item x, `append_statement` returns the same node
(same record, kind and position) with the count increased by one, the items at
positions below the old count unchanged and x at the old count; and after
appending x1..xN, N <= 2^30, to a fresh list, the item at position i is
x(i+1) for every i < N. -/
theorem C4_append_keeps_order (l x : ASTNode) (w : World) (items : List ASTNode) (w0 : World)
    (hinv : ListInv l)
    (hroom : ∃ n c, list_count l = some n ∧ list_capacity l = some c ∧ ((n : Int) < c ∨ c < 2 ^ 30))
    (hN : items.length ≤ 2 ^ 30) :
    (∃ l1 w1 n, append_statement (some l) (some x) w = some (some l1, w1)
        ∧ l1.addr = l.addr ∧ l1.type = l.type ∧ l1.line = l.line ∧ l1.column = l.column
        ∧ list_count l = some n ∧ list_count l1 = some (n + 1)
        ∧ (∀ i, i < n → list_item l1 i = list_item l i)
        ∧ list_item l1 n = some (some x))
    ∧ (∃ l1 w1, append_all (some (create_statement_list w0).1) (items.map some)
            (create_statement_list w0).2 = some (some l1, w1)
        ∧ l1.addr = (create_statement_list w0).1.addr
        ∧ list_count l1 = some items.length
        ∧ ∀ i (h : i < items.length), list_item l1 i = some (some (items.get ⟨i, h⟩))) := by
  constructor
  · obtain ⟨ln, col, a, blk, arr, sts, cap, rfl, h1, h2⟩ := hinv.shape
    obtain ⟨n, c, hn, hc, hor⟩ := hroom
    simp only [list_capacity, list_count, ASTNode.data, Option.some.injEq] at hc hn
    subst hc hn
    have items_ok : ∀ arr1 cap1,
        (∀ i, i < sts.length →
          list_item (ASTNode.mk .NODE_STATEMENT_LIST ln col a
            (.stmt_list blk arr1 (sts ++ [some x]) cap1)) i
          = list_item (ASTNode.mk .NODE_STATEMENT_LIST ln col a (.stmt_list blk arr sts cap)) i)
        ∧ list_item (ASTNode.mk .NODE_STATEMENT_LIST ln col a
            (.stmt_list blk arr1 (sts ++ [some x]) cap1)) sts.length = some (some x) := by
      intro arr1 cap1
      constructor
      · intro i hi
        simp only [list_item, ASTNode.data]
        exact List.getElem?_append_left hi
      · simp [list_item, ASTNode.data]
    by_cases hlt : (sts.length : Int) < cap
    · exact ⟨_, w, sts.length, append_statement_room ln col a blk arr sts cap x w hlt, rfl, rfl, rfl,
        rfl, rfl, by simp [list_count, ASTNode.data], (items_ok arr cap).1, (items_ok arr cap).2⟩
    · have hfull : cap ≤ (sts.length : Int) := not_lt.mp hlt
      have hc30 : cap < 2 ^ 30 := by
        rcases hor with h | h
        · exact absurd h hlt
        · exact h
      have hmax : cap * 2 ≤ INT_MAX := by
        have : (2 : Int) ^ 30 = 1073741824 := by norm_num
        unfold INT_MAX; omega
      exact ⟨_, _, sts.length,
        append_statement_grow ln col a blk arr sts cap x w hfull (by omega) hmax, rfl, rfl, rfl,
        rfl, rfl, by simp [list_count, ASTNode.data], (items_ok _ _).1, (items_ok _ _).2⟩
  · obtain ⟨arr1, k1, w1, e, _, _⟩ :=
      append_all_list items w0.yylineno w0.yycolno (.heap w0.next) (.heap (w0.next + 1))
        (.heap (w0.next + 2)) [] 0 (create_statement_list w0).2 (by simp) (Or.inl rfl)
        (by simpa using hN)
    simp only [List.nil_append] at e
    refine ⟨.mk .NODE_STATEMENT_LIST w0.yylineno w0.yycolno (.heap w0.next)
      (.stmt_list (.heap (w0.next + 1)) arr1 (items.map some) ((16 * 2 ^ k1 : Nat) : Int)),
      w1, ?_, ?_, ?_, ?_⟩
    · rw [create_statement_list_eq]
      rw [create_statement_list_eq] at e
      simpa using e
    · rw [create_statement_list_eq]; rfl
    · simp [list_count, ASTNode.data]
    · intro i h
      simp [list_item, ASTNode.data, List.getElem?_eq_getElem h]

/-- C4 (amended) at the sample list, the sample identifier as the new item, and
three items appended to a fresh list. -/
theorem C4_append_keeps_order_witness :
    ListInv sample_list
    ∧ (∃ n c, list_count sample_list = some n ∧ list_capacity sample_list = some c
        ∧ ((n : Int) < c ∨ c < 2 ^ 30))
    ∧ [sample_item, sample_identifier, sample_item].length ≤ 2 ^ 30
    ∧ ((∃ l1 w1 n, append_statement (some sample_list) (some sample_identifier) World.init
          = some (some l1, w1)
        ∧ l1.addr = sample_list.addr ∧ l1.type = sample_list.type
        ∧ l1.line = sample_list.line ∧ l1.column = sample_list.column
        ∧ list_count sample_list = some n ∧ list_count l1 = some (n + 1)
        ∧ (∀ i, i < n → list_item l1 i = list_item sample_list i)
        ∧ list_item l1 n = some (some sample_identifier))
      ∧ (∃ l1 w1, append_all (some (create_statement_list World.init).1)
            ([sample_item, sample_identifier, sample_item].map some)
            (create_statement_list World.init).2 = some (some l1, w1)
        ∧ l1.addr = (create_statement_list World.init).1.addr
        ∧ list_count l1 = some [sample_item, sample_identifier, sample_item].length
        ∧ ∀ i (h : i < [sample_item, sample_identifier, sample_item].length),
            list_item l1 i
              = some (some ([sample_item, sample_identifier, sample_item].get ⟨i, h⟩)))) :=
  have hinv : ListInv sample_list :=
    ⟨rfl, _, _, _, _, rfl, by decide, by decide, by decide⟩
  have hroom : ∃ n c, list_count sample_list = some n ∧ list_capacity sample_list = some c
      ∧ ((n : Int) < c ∨ c < 2 ^ 30) := ⟨1, 16, rfl, rfl, Or.inl (by decide)⟩
  have hN : [sample_item, sample_identifier, sample_item].length ≤ 2 ^ 30 := by
    simp only [List.length_cons, List.length_nil]; norm_num
  ⟨hinv, hroom, hN,
    C4_append_keeps_order sample_list sample_identifier World.init
      [sample_item, sample_identifier, sample_item] World.init hinv hroom hN⟩

/-! ### The printer: `print_ast` -/

/-- Forgetting positions and block identities keeps the number of items. -/
theorem forget_list_length (ps : List Ptr) : (forget_list ps).length = ps.length := by
  induction ps with
  | nil => simp [forget_list]
  | cons p rest ih => simp [forget_list, ih]

/-- Forgetting positions and block identities keeps a pointer nil or non-nil. -/
theorem forget_ptr_isSome (p : Ptr) : (forget_ptr p).isSome = p.isSome := by
  cases p <;> simp [forget_ptr]

set_option maxHeartbeats 4000000 in
/-- The text `print_ast` writes for a node does not depend on the positions or
the block identities stored in the tree. -/
theorem print_node_forget (n : ASTNode) :
    ∀ d, print_node (forget_node n) d = print_node n d := by
  refine @ASTNode.rec
    (fun n => ∀ d, print_node (forget_node n) d = print_node n d)
    (fun dt => ∀ t l c a d,
      print_node (forget_node (.mk t l c a dt)) d = print_node (.mk t l c a dt) d)
    (fun p => ∀ d, print_ast (forget_ptr p) d = print_ast p d)
    (fun ps => ∀ d, print_statements (forget_list ps) d = print_statements ps d)
    ?_ ?_ ?_ ?_ ?_ ?_ ?_ ?_ ?_ ?_ ?_ ?_ ?_ ?_ ?_ ?_ ?_ ?_ ?_ ?_ ?_ ?_ ?_ n
  case refine_1 => intro t l c a data ih d; exact ih t l c a d
  case refine_20 => intro d; rfl
  case refine_21 => intro v ih d; simpa [forget_ptr, print_ast] using ih d
  case refine_22 => intro d; rfl
  case refine_23 => intro h tl ih1 ih2 d; simp [forget_list, print_statements, ih1, ih2]
  case refine_18 =>
    intro blk kind value t l c a d
    cases t <;> first
      | rfl
      | (cases kind <;> cases value <;> rfl)
  all_goals
    (intros)
    intro t _ _ _ _
    cases t <;>
      first
      | rfl
      | simp only [forget_node, forget_data, forget_cstr, print_node, forget_list_length,
          forget_ptr_isSome, *]


/-- C9: the text `print_ast` writes is a function of the structure and the
field values of the tree only: two trees that are equal except for the line and
column stored in their nodes (and the blocks they occupy) are printed
identically at every depth; in particular printing the same tree twice gives
the same text. -/
theorem C9_print_ignores_position (t1 t2 : Ptr) (d : Int)
    (h : forget_ptr t1 = forget_ptr t2) : print_ast t1 d = print_ast t2 d := by
  have key : ∀ t : Ptr, print_ast (forget_ptr t) d = print_ast t d := by
    intro t
    cases t with
    | none => rfl
    | some n => simpa [forget_ptr, print_ast] using print_node_forget n d
  rw [← key t1, ← key t2, h]

/-- C9 at the sample declaration built at two different places of a parse. -/
theorem C9_print_ignores_position_witness :
    forget_ptr (some (sample_decl World.init)) = forget_ptr (some (sample_decl World.later))
    ∧ (sample_decl World.init).line ≠ (sample_decl World.later).line
    ∧ print_ast (some (sample_decl World.init)) 1 = print_ast (some (sample_decl World.later)) 1 :=
  ⟨rfl, by decide,
    C9_print_ignores_position (some (sample_decl World.init)) (some (sample_decl World.later)) 1 rfl⟩

theorem indent_chars_append (k : Nat) (a b : List Char) :
    ∀ st, indent_chars k st (a ++ b) = indent_chars k st a ++ indent_chars k (end_state st a) b := by
  induction a with
  | nil => intro st; simp [indent_chars, end_state]
  | cons c cs ih =>
    intro st
    cases st <;> simp [indent_chars, end_state, ih]

theorem end_state_append (a b : List Char) :
    ∀ st, end_state st (a ++ b) = end_state (end_state st a) b := by
  induction a with
  | nil => intro st; simp [end_state]
  | cons c cs ih => intro st; simp [end_state, ih]

theorem is_line_cons_ne (c : Char) (l : List Char) (hc : c ≠ '\n') (h : is_line l = true) :
    is_line (c :: l) = true := by
  cases l with
  | nil => simp [is_line] at h
  | cons x xs => simp [is_line, hc, h]

theorem is_line_append (t l : List Char) (ht : '\n' ∉ t) (h : is_line l = true) :
    is_line (t ++ l) = true := by
  induction t with
  | nil => simpa using h
  | cons c cs ih =>
    simp only [List.mem_cons, not_or] at ht
    exact is_line_cons_ne c _ (Ne.symm ht.1) (ih ht.2)

theorem is_line_facts (k : Nat) (l : List Char) (h : is_line l = true) :
    indent_chars k false l = l ∧ end_state false l = true := by
  induction l with
  | nil => simp [is_line] at h
  | cons c cs ih =>
    cases cs with
    | nil =>
      simp only [is_line, beq_iff_eq] at h
      subst h
      simp [indent_chars, end_state]
    | cons x xs =>
      simp only [is_line, Bool.and_eq_true, bne_iff_ne, ne_eq] at h
      have hc : (c == '\n') = false := by simpa using h.1
      have := ih h.2
      simp only [indent_chars, end_state, hc] at this ⊢
      exact ⟨by rw [this.1], this.2⟩

theorem is_line_indent (k : Nat) (l : List Char) (h : is_line l = true) :
    indent_chars k true l = List.replicate k ' ' ++ l ∧ end_state true l = true := by
  cases l with
  | nil => simp [is_line] at h
  | cons c cs =>
    cases cs with
    | nil =>
      simp only [is_line, beq_iff_eq] at h
      subst h
      simp [indent_chars, end_state]
    | cons x xs =>
      simp only [is_line, Bool.and_eq_true, bne_iff_ne, ne_eq] at h
      have hc : (c == '\n') = false := by simpa using h.1
      have := is_line_facts k (x :: xs) h.2
      simp only [indent_chars, end_state, hc] at this ⊢
      exact ⟨by rw [this.1], this.2⟩

theorem replicate_space_nonl (m : Nat) : '\n' ∉ List.replicate m ' ' := by
  intro h
  have := List.eq_of_mem_replicate h
  exact absurd this (by decide)

theorem print_indent_data (k : Int) : (print_indent k).data = List.replicate (2 * k.toNat) ' ' := rfl

theorem print_indent_add (k : Int) (d : Nat) (hk : 0 ≤ k) :
    (print_indent (k + d)).data = List.replicate (2 * d) ' ' ++ (print_indent k).data := by
  have : (k + (d : Int)).toNat = d + k.toNat := by omega
  simp only [print_indent_data, this, Nat.mul_add, List.replicate_add]

theorem complete_append (a b : String) (ha : Complete a) (hb : Complete b) : Complete (a ++ b) := by
  unfold Complete at *
  rw [String.data_append, end_state_append, ha, hb]

theorem indent_lines_append (k : Nat) (a b : String) (ha : Complete a) :
    indent_lines k (a ++ b) = indent_lines k a ++ indent_lines k b := by
  unfold Complete at ha
  apply String.ext
  simp only [indent_lines, String.data_append, indent_chars_append, ha]

theorem isLine_app {a b : String} (ha : nonl a) (hb : IsLine b) : IsLine (a ++ b) := by
  unfold IsLine at *
  rw [String.data_append]
  exact is_line_append _ _ ha hb

theorem nonl_append {a b : String} (ha : nonl a) (hb : nonl b) : nonl (a ++ b) := by
  unfold nonl at *
  rw [String.data_append]
  simp [ha, hb]

theorem nonl_ite {c : Prop} [Decidable c] {a b : String} (ha : nonl a) (hb : nonl b) :
    nonl (if c then a else b) := by
  split <;> assumption

theorem nonl_node_type_name (t : NodeType) : nonl (node_type_name t) := by
  cases t <;> decide

theorem shift_none (d : Nat) : Shift d none none := ⟨rfl, fun _ h => Option.noConfusion h⟩

theorem shift_empty (d : Nat) : Shift d (some "") (some "") := by
  refine ⟨rfl, fun s h => ?_⟩
  cases h
  rfl

theorem shift_line {d : Nat} {k : Int} {rest : String} (hk : 0 ≤ k) (h : IsLine rest) :
    Shift d (some (print_indent (k + d) ++ rest)) (some (print_indent k ++ rest)) := by
  have hl : is_line ((print_indent k).data ++ rest.data) = true :=
    is_line_append _ _ (by rw [print_indent_data]; exact replicate_space_nonl _) h
  have hf := is_line_indent (2 * d) _ hl
  refine ⟨?_, fun s hs => ?_⟩
  · simp only [Option.map_some', Option.some.injEq]
    apply String.ext
    simp only [indent_lines, String.data_append, print_indent_add k d hk, hf.1, List.append_assoc]
  · cases hs
    unfold Complete
    rw [String.data_append]
    exact hf.2

theorem shift_null {d : Nat} {k : Int} (hk : 0 ≤ k) :
    Shift d (some (print_null (k + d))) (some (print_null k)) :=
  shift_line hk (by decide)

theorem shift_nil (d : Nat) : Shift d (emitAll []) (emitAll []) := shift_empty d

theorem shift_cons {d : Nat} {x y : Option String} {xs ys : List (Option String)}
    (h1 : Shift d x y) (h2 : Shift d (emitAll xs) (emitAll ys)) :
    Shift d (emitAll (x :: xs)) (emitAll (y :: ys)) := by
  obtain ⟨e1, c1⟩ := h1
  obtain ⟨e2, c2⟩ := h2
  rw [e1]
  cases y with
  | none => exact shift_none d
  | some a =>
    simp only [Option.map_some', emitAll]
    rw [e2]
    cases hys : emitAll ys with
    | none => exact shift_none d
    | some b =>
      have ca := c1 a rfl
      have cb := c2 b hys
      refine ⟨?_, fun s hs => ?_⟩
      · simp only [Option.map_some', indent_lines_append _ _ _ ca]
      · cases hs
        exact complete_append _ _ ca cb

theorem shift_labelled {d : Nat} {k : Int} {label : String} {x y : Option String}
    (hk : 0 ≤ k) (hl : IsLine label) (h : Shift d x y) :
    Shift d (labelled (k + d) label x) (labelled k label y) := by
  obtain ⟨e, c⟩ := h
  rw [e]
  cases y with
  | none => exact shift_none d
  | some b =>
    have hline := @shift_line d (k + 1) label (by omega) hl
    obtain ⟨e1, c1⟩ := hline
    simp only [Option.map_some', Option.some.injEq] at e1
    have cl := c1 _ rfl
    refine ⟨?_, fun s hs => ?_⟩
    · simp only [labelled, Option.map_some', Option.some.injEq]
      rw [indent_lines_append _ _ _ cl, ← e1, add_right_comm]
    · simp only [labelled, Option.some.injEq] at hs
      subst hs
      exact complete_append _ _ cl (c b rfl)

theorem shift_ite {d : Nat} {c : Prop} [Decidable c] {a b a1 b1 : Option String}
    (h1 : Shift d a a1) (h2 : Shift d b b1) :
    Shift d (if c then a else b) (if c then a1 else b1) := by
  split <;> assumption


theorem digitChar_ne_newline (m : Nat) (h : m < 10) : Nat.digitChar m ≠ '\n' := by
  interval_cases m <;> decide

theorem toDigitsCore_nonl (fuel : Nat) : ∀ (n : Nat) (ds : List Char),
    '\n' ∉ ds → '\n' ∉ Nat.toDigitsCore 10 fuel n ds := by
  induction fuel with
  | zero => intro n ds h; simpa [Nat.toDigitsCore] using h
  | succ f ih =>
    intro n ds h
    have hd : '\n' ∉ Nat.digitChar (n % 10) :: ds := by
      simp only [List.mem_cons, not_or]
      exact ⟨(digitChar_ne_newline _ (Nat.mod_lt _ (by norm_num))).symm, h⟩
    simp only [Nat.toDigitsCore]
    split
    · exact hd
    · exact ih _ _ hd

theorem nonl_fmt_d (n : Nat) : nonl (fmt_d n) := by
  unfold nonl fmt_d
  show '\n' ∉ (Nat.repr n).data
  simp only [Nat.repr, Nat.toDigits, List.asString]
  exact toDigitsCore_nonl _ _ _ (by simp)


set_option maxHeartbeats 4000000 in
theorem print_node_shift (n : ASTNode) :
    no_newline_node n → ∀ (k : Int) (d : Nat), 0 ≤ k →
      Shift d (print_node n (k + d)) (print_node n k) := by
  refine @ASTNode.rec
    (fun n => no_newline_node n → ∀ (k : Int) (d : Nat), 0 ≤ k →
      Shift d (print_node n (k + d)) (print_node n k))
    (fun dt => no_newline_data dt → ∀ t l c a (k : Int) (d : Nat), 0 ≤ k →
      Shift d (print_node (.mk t l c a dt) (k + d)) (print_node (.mk t l c a dt) k))
    (fun p => no_newline_ptr p → ∀ (k : Int) (d : Nat), 0 ≤ k →
      Shift d (print_ast p (k + d)) (print_ast p k))
    (fun ps => no_newline_list ps → ∀ (k : Int) (d : Nat), 0 ≤ k →
      Shift d (print_statements ps (k + d)) (print_statements ps k))
    ?_ ?_ ?_ ?_ ?_ ?_ ?_ ?_ ?_ ?_ ?_ ?_ ?_ ?_ ?_ ?_ ?_ ?_ ?_ ?_ ?_ ?_ ?_ n
  case refine_1 =>
    intro t l c a data ih h k d hk
    exact ih (by simpa [no_newline_node] using h) t l c a k d hk
  case refine_20 => intro _ k d hk; exact shift_null hk
  case refine_21 =>
    intro v ih h k d hk
    simpa [print_ast] using ih (by simpa [no_newline_ptr] using h) k d hk
  case refine_22 => intro _ k d _; exact shift_empty d
  case refine_23 =>
    intro hd tl ih1 ih2 h k d hk
    simp only [no_newline_list] at h
    simp only [print_statements]
    exact shift_cons (ih1 h.1 k d hk) (shift_cons (ih2 h.2 k d hk) (shift_nil d))
  case refine_18 =>
    intro blk kind value h t l c a k d hk
    cases t <;> first
      | exact shift_none d
      | (cases kind <;> cases value <;> simp only [no_newline_data] at h <;>
          simp only [print_node, String.append_assoc] <;>
          first
          | exact shift_none d
          | exact shift_line hk (by decide)
          | exact shift_line hk (isLine_app (by decide) (isLine_app (by decide) (by decide)))
          | exact shift_line hk (isLine_app (by decide) (isLine_app (by decide)
              (isLine_app (nonl_ite (by decide) (by decide)) (by decide))))
          | exact shift_line hk (isLine_app (by decide) (isLine_app (by decide)
              (isLine_app h (by decide)))))
  all_goals
    (intros)
    intro h t _ _ _ k d hk
    simp only [no_newline_data] at h
    cases t <;> first | exact shift_none d | skip
    all_goals simp only [print_node, String.append_assoc, add_right_comm k (d : Int)]
    all_goals
      repeat' first
        | exact shift_none d
        | exact shift_nil d
        | exact shift_empty d
        | apply shift_cons
        | apply shift_ite
        | apply shift_labelled
        | apply shift_null
        | apply shift_line
        | exact nonl_node_type_name _
        | exact nonl_fmt_d _
        | decide
        | omega
        | apply isLine_app
        | apply nonl_ite
        | exact h
        | exact h.1
        | exact h.2
        | exact h.2.1
        | exact h.2.2
        | exact h.2.2.1
        | exact h.2.2.2
        | apply_assumption


theorem first_line_some (i l x : String) :
    ∃ rest : Option String, some (i ++ (l ++ x)) = rest.map (fun r => i ++ (l ++ r)) :=
  ⟨some x, rfl⟩

theorem first_line_none (i l : String) :
    ∃ rest : Option String, (none : Option String) = rest.map (fun r => i ++ (l ++ r)) :=
  ⟨none, rfl⟩

theorem first_line_emitAll (i l x : String) (xs : List (Option String)) :
    ∃ rest : Option String,
      emitAll (some (i ++ (l ++ x)) :: xs) = rest.map (fun r => i ++ (l ++ r)) := by
  cases h : emitAll xs with
  | none => exact ⟨none, by simp [emitAll, h]⟩
  | some b => exact ⟨some (x ++ b), by simp [emitAll, h, String.append_assoc]⟩

set_option maxHeartbeats 4000000 in
theorem print_node_first_line (t : NodeType) (l c : Int) (a : Addr) (data : Data) (d : Int) :
    ∃ rest : Option String,
      print_node (.mk t l c a data) d
        = rest.map (fun r => print_indent d ++ (node_type_name t ++ r)) := by
  cases data
  case literal blk kind value =>
    cases t
    case NODE_LITERAL =>
      cases kind <;> cases value <;> simp only [print_node, String.append_assoc] <;>
        first
        | exact first_line_none _ _
        | exact first_line_some _ _ _
    all_goals
      first
      | exact ⟨none, rfl⟩
      | (simp only [print_node, String.append_assoc]
         exact first_line_some _ _ _)
  all_goals
    cases t <;>
      first
      | exact ⟨none, rfl⟩
      | (simp only [print_node, String.append_assoc]
         first
         | exact first_line_some _ _ _
         | exact first_line_emitAll _ _ _ _)

theorem defined_some (s : String) : Defined (some s) := ⟨s, rfl⟩

theorem defined_nil : Defined (emitAll []) := ⟨"", rfl⟩

theorem defined_cons {x : Option String} {xs : List (Option String)}
    (h1 : Defined x) (h2 : Defined (emitAll xs)) : Defined (emitAll (x :: xs)) := by
  obtain ⟨a, rfl⟩ := h1
  obtain ⟨b, hb⟩ := h2
  exact ⟨a ++ b, by simp [emitAll, hb]⟩

theorem defined_labelled {d : Int} {label : String} {x : Option String} (h : Defined x) :
    Defined (labelled d label x) := by
  obtain ⟨a, rfl⟩ := h
  exact ⟨_, rfl⟩

theorem defined_ite {c : Prop} [Decidable c] {a b : Option String}
    (h1 : Defined a) (h2 : Defined b) : Defined (if c then a else b) := by
  split <;> assumption

set_option maxHeartbeats 4000000 in
/-- On a well-formed tree, with nil children anywhere, `print_ast` does not fail. -/
theorem print_node_defined (n : ASTNode) :
    well_formed_node n → ∀ d, Defined (print_node n d) := by
  refine @ASTNode.rec
    (fun n => well_formed_node n → ∀ d, Defined (print_node n d))
    (fun dt => well_formed_data dt → ∀ t l c a d, fits t dt → Defined (print_node (.mk t l c a dt) d))
    (fun p => well_formed_ptr p → ∀ d, Defined (print_ast p d))
    (fun ps => well_formed_list ps → ∀ d, Defined (print_statements ps d))
    ?_ ?_ ?_ ?_ ?_ ?_ ?_ ?_ ?_ ?_ ?_ ?_ ?_ ?_ ?_ ?_ ?_ ?_ ?_ ?_ ?_ ?_ ?_ n
  case refine_1 =>
    intro t l c a data ih h d
    simp only [well_formed_node] at h
    exact ih h.2 t l c a d h.1
  case refine_20 => intro _ d; exact ⟨_, rfl⟩
  case refine_21 =>
    intro v ih h d
    simpa [print_ast] using ih (by simpa [well_formed_ptr] using h) d
  case refine_22 => intro _ d; exact ⟨_, rfl⟩
  case refine_23 =>
    intro hd tl ih1 ih2 h d
    simp only [well_formed_list] at h
    simp only [print_statements]
    exact defined_cons (ih1 h.1 d) (defined_cons (ih2 h.2 d) defined_nil)
  case refine_18 =>
    intro blk kind value _ t l c a d hfit
    cases t <;> first
      | exact False.elim hfit
      | exact ⟨_, rfl⟩
      | (cases kind <;> cases value <;> first | exact False.elim hfit | exact ⟨_, rfl⟩)
  all_goals
    (intros)
    intro h t _ _ _ d hfit
    simp only [well_formed_data] at h
    cases t <;> first | exact False.elim hfit | skip
    all_goals simp only [print_node]
    all_goals
      repeat' first
        | exact defined_some _
        | exact defined_nil
        | apply defined_cons
        | apply defined_ite
        | apply defined_labelled
        | exact h
        | exact h.1
        | exact h.2
        | exact h.2.1
        | exact h.2.2
        | exact h.2.2.1
        | exact h.2.2.2
        | apply_assumption


theorem owned_list_append (a b : List Ptr) :
    owned_list (a ++ b) = owned_list a ++ owned_list b := by
  induction a with
  | nil => simp [owned_list]
  | cons p rest ih => simp [owned_list, ih]

theorem freed_list_append (a b : List Ptr) :
    freed_list (a ++ b) = freed_list a ++ freed_list b := by
  induction a with
  | nil => simp [freed_list]
  | cons p rest ih => simp [freed_list, ih]

/-- The releases of a tree are a rearrangement of its blocks. -/
theorem freed_perm_owned (n : ASTNode) : (freed_node n).Perm (owned_node n) := by
  refine @ASTNode.rec
    (fun n => (freed_node n).Perm (owned_node n))
    (fun d => (freed_data d).Perm (owned_data d))
    (fun p => (freed_ptr p).Perm (owned_ptr p))
    (fun ps => (freed_list ps).Perm (owned_list ps))
    ?_ ?_ ?_ ?_ ?_ ?_ ?_ ?_ ?_ ?_ ?_ ?_ ?_ ?_ ?_ ?_ ?_ ?_ ?_ ?_ ?_ ?_ ?_ n
  case refine_18 =>
    intro blk kind value
    cases value <;> simp only [freed_data, owned_data] <;>
      first | exact List.Perm.refl _ | exact List.Perm.swap _ _ _
  all_goals
    (intros)
    try simp only [freed_node, owned_node, freed_data, owned_data, freed_ptr, owned_ptr,
      freed_list, owned_list, ← Multiset.coe_eq_coe, ← Multiset.coe_add, ← Multiset.singleton_add,
      ← Multiset.cons_coe] at *
    try simp only [*]
    try first | rfl | abel

theorem freed_ptr_perm_owned (p : Ptr) : (freed_ptr p).Perm (owned_ptr p) := by
  cases p with
  | none => simp [freed_ptr, owned_ptr]
  | some n => simpa [freed_ptr, owned_ptr] using freed_perm_owned n

theorem good_nil {w : World} (hw : WorldOK w) : Good w [] w [] :=
  ⟨hw, le_refl _, by simp, by simp [owned_list], by simp [owned_list]⟩

theorem good_seq {w w1 w2 : World} {ps qs d1 d2 : List Ptr}
    (g1 : Good w ps w1 d1) (g2 : Good w1 qs w2 d2) :
    Good w (ps ++ qs) w2 (d1 ++ d2) := by
  obtain ⟨_, n1, f1, l1, r1⟩ := g1
  obtain ⟨ok2, n2, f2, l2, r2⟩ := g2
  refine ⟨ok2, le_trans n1 n2, ?_, ?_, ?_⟩
  · intro p hp
    rcases List.mem_append.mp hp with h | h
    · exact f1 p h
    · exact f2 p h
  · have h3 := l2.trans ((List.Perm.refl _).append ((List.Perm.refl _).append l1))
    refine h3.trans ?_
    simp only [owned_list_append, ← Multiset.coe_eq_coe, ← Multiset.coe_add]
    abel
  · intro a ha
    simp only [owned_list_append, List.mem_append] at ha
    rcases ha with (h | h) | (h | h)
    · obtain ⟨n, e, a1, a2⟩ := r1 a (List.mem_append.mpr (Or.inl h))
      exact ⟨n, e, a1, by omega⟩
    · obtain ⟨n, e, a1, a2⟩ := r2 a (List.mem_append.mpr (Or.inl h))
      exact ⟨n, e, by omega, a2⟩
    · obtain ⟨n, e, a1, a2⟩ := r1 a (List.mem_append.mpr (Or.inr h))
      exact ⟨n, e, a1, by omega⟩
    · obtain ⟨n, e, a1, a2⟩ := r2 a (List.mem_append.mpr (Or.inr h))
      exact ⟨n, e, by omega, a2⟩

/-- A node built from the trees `ps` in blocks `nb` handed out after them. -/
theorem good_node {w w1 w2 : World} {ps rest dr : List Ptr} {n : ASTNode} (nb : List Addr)
    (g : Good w (ps ++ rest) w1 dr)
    (hnext : w2.next = w1.next + nb.length)
    (hlive : w2.live.Perm (nb ++ w1.live))
    (hnb : ∀ a ∈ nb, ∃ i, a = Addr.heap i ∧ w1.next ≤ i ∧ i < w2.next)
    (hnd : nb.Nodup)
    (hown : (owned_node n).Perm (nb ++ owned_list ps))
    (hfree : (∀ p ∈ ps, free_ast p = some (freed_ptr p)) → free_node n = some (freed_node n)) :
    Good w (some n :: rest) w2 dr := by
  obtain ⟨⟨nd1, lt1⟩, n1, f1, l1, r1⟩ := g
  have hperm : w2.live.Perm (owned_list (some n :: rest) ++ (owned_list dr ++ w.live)) := by
    have h3 := hlive.trans ((List.Perm.refl nb).append l1)
    refine h3.trans ?_
    have h4 := hown
    simp only [owned_list, owned_ptr, owned_list_append, ← Multiset.coe_eq_coe,
      ← Multiset.coe_add] at h4 ⊢
    rw [h4]
    abel
  have hrange : ∀ a ∈ owned_list (some n :: rest) ++ owned_list dr,
      ∃ i, a = Addr.heap i ∧ w.next ≤ i ∧ i < w2.next := by
    intro a ha
    simp only [owned_list, owned_ptr, List.mem_append] at ha
    have hold : ∀ a ∈ owned_list (ps ++ rest) ++ owned_list dr,
        ∃ i, a = Addr.heap i ∧ w.next ≤ i ∧ i < w2.next := by
      intro a ha
      obtain ⟨i, e, a1, a2⟩ := r1 a ha
      exact ⟨i, e, a1, by omega⟩
    rcases ha with (h | h) | h
    · rcases List.mem_append.mp (hown.subset h) with h | h
      · obtain ⟨i, e, a1, a2⟩ := hnb a h
        exact ⟨i, e, by omega, a2⟩
      · exact hold a (by simp only [owned_list_append, List.mem_append]; tauto)
    · exact hold a (by simp only [owned_list_append, List.mem_append]; tauto)
    · exact hold a (by simp only [List.mem_append]; tauto)
  refine ⟨⟨?_, ?_⟩, by omega, ?_, hperm, hrange⟩
  · refine (List.Perm.nodup_iff hlive).mpr ?_
    refine List.Nodup.append hnd nd1 ?_
    intro a ha hb
    obtain ⟨i, e, a1, _⟩ := hnb a ha
    obtain ⟨j, e2, a3⟩ := lt1 a hb
    rw [e] at e2
    cases e2
    omega
  · intro a ha
    rcases List.mem_append.mp (hlive.subset ha) with h | h
    · obtain ⟨i, e, _, a2⟩ := hnb a h
      exact ⟨i, e, a2⟩
    · obtain ⟨j, e2, a3⟩ := lt1 a h
      exact ⟨j, e2, by omega⟩
  · intro p hp
    rcases List.mem_cons.mp hp with h | h
    · subst h
      simpa [free_ast, freed_ptr] using hfree (fun q hq => f1 q (List.mem_append.mpr (Or.inl hq)))
    · exact f1 p (List.mem_append.mpr (Or.inr h))



theorem fresh_blocks_mem {s j : Nat} {a : Addr} (h : a ∈ fresh_blocks s j) :
    ∃ i, a = Addr.heap i ∧ s ≤ i ∧ i < s + j := by
  simp only [fresh_blocks, List.mem_map, List.mem_range'_1] at h
  obtain ⟨i, ⟨h1, h2⟩, rfl⟩ := h
  exact ⟨i, rfl, h1, h2⟩

theorem fresh_blocks_nodup (s j : Nat) : (fresh_blocks s j).Nodup := by
  unfold fresh_blocks
  refine List.Nodup.map ?_ (List.nodup_range' s j)
  intro a b h
  cases h
  rfl

/-- The lemma `good_node` for a node built in the next `j` blocks of the allocator. -/
theorem good_fresh {w w1 w2 : World} {dr : List Ptr} {n : ASTNode} (ps rest : List Ptr) (j : Nat)
    (g : Good w (ps ++ rest) w1 dr)
    (hnext : w2.next = w1.next + j)
    (hlive : w2.live = (fresh_blocks w1.next j).reverse ++ w1.live)
    (hown : (owned_node n).Perm (fresh_blocks w1.next j ++ owned_list ps))
    (hfree : (∀ p ∈ ps, free_ast p = some (freed_ptr p)) → free_node n = some (freed_node n)) :
    Good w (some n :: rest) w2 dr := by
  refine good_node (fresh_blocks w1.next j) g ?_ ?_ ?_ (fresh_blocks_nodup _ _) hown hfree
  · simp [fresh_blocks, hnext]
  · rw [hlive]
    exact (List.reverse_perm _).append (List.Perm.refl _)
  · intro a ha
    obtain ⟨i, e, h1, h2⟩ := fresh_blocks_mem ha
    exact ⟨i, e, h1, by omega⟩

theorem good_with_arg {b : Build} {w0 w : World} {ps dacc : List Ptr}
    {k : Ptr → World → List Ptr → Option Built} {x : Built}
    (ih : ∀ w p w1 dr, WorldOK w → b.run w = some (p, w1, dr) → Good w [p] w1 dr)
    (g : Good w0 ps w dacc)
    (hk : ∀ p w1 d, Good w0 (ps ++ [p]) w1 (dacc ++ d) → k p w1 (dacc ++ d) = some x →
      Good w0 [x.1] x.2.1 x.2.2)
    (h : with_arg (b.run w) dacc k = some x) : Good w0 [x.1] x.2.1 x.2.2 := by
  unfold with_arg at h
  cases hb : b.run w with
  | none => rw [hb] at h; exact Option.noConfusion h
  | some r =>
    obtain ⟨p, w1, d⟩ := r
    rw [hb] at h
    exact hk p w1 d (good_seq g (ih w p w1 d g.1 hb)) h

theorem fresh_blocks_1 (s : Nat) : fresh_blocks s 1 = [.heap s] := rfl
theorem fresh_blocks_2 (s : Nat) : fresh_blocks s 2 = [.heap s, .heap (s + 1)] := rfl
theorem fresh_blocks_3 (s : Nat) :
    fresh_blocks s 3 = [.heap s, .heap (s + 1), .heap (s + 1 + 1)] := rfl

theorem fresh_blocks_5 (s : Nat) :
    fresh_blocks s 5
      = [.heap s, .heap (s + 1), .heap (s + 1 + 1), .heap (s + 1 + 1 + 1), .heap (s + 1 + 1 + 1 + 1)] :=
  rfl

theorem owned_ofChild (p : Ptr) : owned_data (Data.ofChild p) = owned_ptr p := by
  cases p <;> simp [Data.ofChild, owned_data, owned_ptr]

theorem free_statements_append (xs ys : List Ptr) (X Y : List Addr)
    (hx : free_statements xs = some X) (hy : free_statements ys = some Y) :
    free_statements (xs ++ ys) = some (X ++ Y) := by
  induction xs generalizing X with
  | nil =>
    simp only [free_statements, Option.some.injEq] at hx
    subst hx
    simpa using hy
  | cons p rest ih =>
    simp only [free_statements, List.cons_append] at hx ⊢
    cases hp : free_ast p with
    | none => rw [hp] at hx; simp [freeAll] at hx
    | some P =>
      cases hr : free_statements rest with
      | none => rw [hp, hr] at hx; simp [freeAll] at hx
      | some R =>
        rw [hp, hr] at hx
        simp only [freeAll, List.append_nil, Option.some.injEq] at hx
        subst hx
        simp [ih R hr, freeAll]

/-- The list node after `append_statement` stored an item and the world after
the call keep the invariant of the build. -/
theorem good_append {w v2 : World} {pl ps : Ptr} {d : List Ptr} {x : Built}
    (g : Good w [pl, ps] v2 d)
    (h : (match append_statement pl ps v2 with
          | none => none
          | some (r, w1) => some (r, w1, d ++ dropped_by_append pl ps)) = some x) :
    Good w [x.1] x.2.1 x.2.2 := by
  obtain ⟨⟨nd, lt⟩, hn, hf, hl, hr⟩ := g
  have fl := hf pl (by simp)
  have fs := hf ps (by simp)
  simp only [owned_list, List.append_nil] at hl hr
  cases pl with
  | none =>
    simp only [append_statement, dropped_by_append, List.append_nil, Option.some.injEq] at h
    subst h
    exact ⟨⟨nd, lt⟩, hn, by simpa using fs, by simpa [owned_list, owned_ptr] using hl,
      by simpa [owned_list, owned_ptr] using hr⟩
  | some l =>
    cases ps with
    | none =>
      simp only [append_statement, dropped_by_append, List.append_nil, Option.some.injEq] at h
      subst h
      exact ⟨⟨nd, lt⟩, hn, by simpa using fl, by simpa [owned_list, owned_ptr] using hl,
        by simpa [owned_list, owned_ptr] using hr⟩
    | some s =>
      by_cases ht : l.type = .NODE_STATEMENT_LIST
      · obtain ⟨t, ln, col, a, data⟩ := l
        simp only [ASTNode.type] at ht
        subst ht
        have hdrop : dropped_by_append (some (ASTNode.mk .NODE_STATEMENT_LIST ln col a data))
            (some s) = [] := by
          simp [dropped_by_append, ASTNode.type]
        rw [hdrop, List.append_nil] at h
        cases data <;>
          first
          | (simp only [append_statement, ASTNode.type, ASTNode.data, ne_eq, not_true_eq_false,
              if_false, reduceCtorEq] at h
             done)
          | skip
        next blk arr sts cap =>
          -- the releases and the blocks of the list before the call
          have hsts : free_statements sts = some (freed_list sts) := by
            simp only [free_ast, free_node, freed_ptr, freed_node, freed_data] at fl
            cases hfs : free_statements sts with
            | none => rw [hfs] at fl; simp [freeAll] at fl
            | some Y =>
              rw [hfs] at fl
              simp only [freeAll, List.append_nil, Option.some.injEq] at fl
              have : Y ++ [arr, blk, a] = freed_list sts ++ [arr, blk, a] := by
                simpa using fl
              rw [List.append_cancel_right this]
          have hitem : free_statements [some s] = some (freed_list [some s]) := by
            simp only [free_ast] at fs
            simp [free_statements, free_ast, fs, freeAll, freed_list, freed_ptr]
          have hnew := free_statements_append sts [some s] _ _ hsts hitem
          rw [← freed_list_append] at hnew
          have hfree : ∀ arr1 cap1, free_ast (some (ASTNode.mk .NODE_STATEMENT_LIST ln col a
              (.stmt_list blk arr1 (sts ++ [some s]) cap1)))
              = some (freed_ptr (some (ASTNode.mk .NODE_STATEMENT_LIST ln col a
                  (.stmt_list blk arr1 (sts ++ [some s]) cap1)))) := by
            intro arr1 cap1
            simp [free_ast, free_node, hnew, freeAll, freed_ptr, freed_node, freed_data]
          simp only [owned_ptr, owned_node, owned_data] at hl hr
          by_cases hroom : (sts.length : Int) < cap
          · rw [append_statement_room ln col a blk arr sts cap s v2 hroom] at h
            simp only [Option.some.injEq] at h
            subst h
            refine ⟨⟨nd, lt⟩, hn, ?_, ?_, ?_⟩
            · intro q hq
              simp only [List.mem_singleton] at hq
              subst hq
              exact hfree arr cap
            · refine hl.trans ?_
              simp only [owned_list, owned_ptr, owned_node, owned_data, owned_list_append,
                List.append_nil, ← Multiset.coe_eq_coe, ← Multiset.coe_add, ← Multiset.cons_coe,
                ← Multiset.singleton_add]
              abel
            · intro b hb
              apply hr b
              simp only [owned_list, owned_ptr, owned_node, owned_data, owned_list_append,
                List.append_nil, List.mem_append, List.mem_cons] at hb ⊢
              tauto
          · have hfull : cap ≤ (sts.length : Int) := not_lt.mp hroom
            by_cases hover : cap * 2 > INT_MAX ∨ cap * 2 < INT_MIN
            · simp [append_statement, ASTNode.type, ASTNode.data, hfull, hover] at h
            by_cases hstill : (sts.length : Int) ≥ cap * 2
            · simp [append_statement, ASTNode.type, ASTNode.data, hfull, hover, hstill] at h
            rw [append_statement_grow ln col a blk arr sts cap s v2 hfull (not_le.mp hstill)
              (not_lt.mp (fun hgt => hover (Or.inl hgt)))] at h
            simp only [Option.some.injEq] at h
            subst h
            -- the old item array is outstanding and differs from every other block
            have harr : arr ∈ v2.live := hl.symm.subset (by simp)
            have hnd2 := (List.Perm.nodup_iff hl).mp nd
            have hne : arr ≠ a ∧ arr ≠ blk ∧
                arr ∉ owned_list sts ++ owned_node s ++ (owned_list d ++ w.live) := by
              simp only [List.cons_append, List.nodup_cons, List.mem_cons, not_or] at hnd2
              exact ⟨fun e => hnd2.1.2.1 e.symm, fun e => hnd2.2.1.1 e.symm, hnd2.2.2.1⟩
            have herase : (v2.live.erase arr).Perm
                (a :: blk :: (owned_list sts ++ owned_node s ++ (owned_list d ++ w.live))) := by
              have := hl.erase arr
              simpa [List.erase_cons, hne.1.symm, hne.2.1.symm] using this
            have hfresh : Addr.heap v2.next ∉ v2.live := by
              intro hmem
              obtain ⟨n, e, hlt⟩ := lt _ hmem
              cases e
              omega
            refine ⟨⟨?_, ?_⟩, ?_, ?_, ?_, ?_⟩
            · simp only [realloc, List.nodup_cons]
              exact ⟨fun hmem => hfresh (List.mem_of_mem_erase hmem), nd.erase arr⟩
            · intro b hb
              simp only [realloc, List.mem_cons] at hb
              rcases hb with rfl | hb
              · exact ⟨v2.next, rfl, by simp [realloc]⟩
              · obtain ⟨n, e, hlt⟩ := lt b (List.mem_of_mem_erase hb)
                exact ⟨n, e, by simp only [realloc]; omega⟩
            · show w.next ≤ v2.next + 1
              omega
            · intro q hq
              simp only [List.mem_singleton] at hq
              subst hq
              exact hfree _ _
            · simp only [realloc]
              refine (List.Perm.cons _ herase).trans ?_
              simp only [owned_list, owned_ptr, owned_node, owned_data, owned_list_append,
                List.append_nil, ← Multiset.coe_eq_coe, ← Multiset.coe_add, ← Multiset.cons_coe,
                ← Multiset.singleton_add]
              abel
            · intro b hb
              simp only [realloc, owned_list, owned_ptr, owned_node, owned_data, owned_list_append,
                List.append_nil, List.mem_append, List.mem_cons] at hb
              have hold : ∀ c, c ∈ a :: blk :: arr :: owned_list sts ++ owned_node s ++ owned_list d →
                  ∃ n, c = Addr.heap n ∧ w.next ≤ n ∧ n < v2.next + 1 := by
                intro c hc
                obtain ⟨n, e, h1, h2⟩ := hr c hc
                exact ⟨n, e, h1, by omega⟩
              rcases hb with (rfl | rfl | rfl | hb | hb) | hb
              · exact hold _ (by simp)
              · exact hold _ (by simp)
              · exact ⟨v2.next, rfl, hn, Nat.lt_succ_self _⟩
              · exact hold _ (by simp [hb])
              · exact hold _ (by simp [hb])
              · exact hold _ (by simp [hb])
      · rw [append_statement_not_list l s v2 ht] at h
        simp only [dropped_by_append, ne_eq, ht, not_false_eq_true, if_true,
          Option.some.injEq] at h
        subst h
        refine ⟨⟨nd, lt⟩, hn, by simpa using fl, ?_, ?_⟩
        · refine hl.trans ?_
          simp only [owned_list, owned_list_append, List.append_nil, ← Multiset.coe_eq_coe,
            ← Multiset.coe_add]
          abel
        · intro a ha
          apply hr a
          simp only [owned_list, owned_list_append, List.append_nil, List.mem_append] at ha ⊢
          tauto

set_option maxHeartbeats 4000000 in
theorem build_good (b : Build) :
    ∀ (w : World) (p : Ptr) (w1 : World) (dr : List Ptr),
      WorldOK w → b.run w = some (p, w1, dr) → Good w [p] w1 dr := by
  induction b with
  | nil =>
    intro w p w1 dr hw h
    simp only [Build.run, Option.some.injEq, Prod.mk.injEq] at h
    obtain ⟨rfl, rfl, rfl⟩ := h
    exact ⟨hw, le_refl _, by simp [free_ast, freed_ptr], by simp [owned_list, owned_ptr],
      by simp [owned_list, owned_ptr]⟩
  | advance line column b ih =>
    intro w p w1 dr hw h
    simp only [Build.run] at h
    exact ih { w with yylineno := line, yycolno := column } p w1 dr hw h
  | append_statement _ _ ih1 ih2 =>
    intro w p w1 dr hw h
    simp only [Build.run] at h
    refine good_with_arg (x := (p, w1, dr)) ih1 (good_nil hw) ?_ h
    intro pl v1 d1 g1
    refine good_with_arg ih2 g1 ?_
    intro ps v2 d2 g2 hn
    exact good_append (by simpa using g2) hn
  | create_program _ ih1 =>
    intro w p w1 dr hw h
    simp only [Build.run] at h
    refine good_with_arg (x := (p, w1, dr)) ih1 (good_nil hw) ?_ h
    intro p1 v1 d1 g1 hn
    simp only [after_call, Option.some.injEq, Prod.mk.injEq] at hn
    obtain ⟨rfl, rfl, rfl⟩ := hn
    refine good_fresh [p1] [] 2 (by simpa using g1) ?_ ?_ ?_ ?_
    · simp [JsAst.create_program, create_node, malloc, strdup, ASTNode.setData]
    · simp [JsAst.create_program, create_node, malloc, strdup, ASTNode.setData, fresh_blocks_2]
    · simp [JsAst.create_program, create_node, malloc, strdup, ASTNode.setData, fresh_blocks_2, owned_node, owned_data, owned_list]
    · intro hf
      simp only [List.mem_cons, List.mem_singleton, forall_eq_or_imp, forall_eq,
        List.not_mem_nil, false_implies, implies_true, and_true] at hf
      simp [JsAst.create_program, create_node, malloc, strdup, ASTNode.setData, free_node, freeAll, freed_node, freed_data, hf]
  | create_statement_list =>
    intro w p w1 dr hw h
    simp only [Build.run] at h
    simp only [leaf, Option.some.injEq, Prod.mk.injEq] at h
    obtain ⟨rfl, rfl, rfl⟩ := h
    refine good_fresh [] [] 3 (by simpa using good_nil hw) ?_ ?_ ?_ ?_
    · simp [JsAst.create_statement_list, create_node, malloc, strdup, ASTNode.setData]
    · simp [JsAst.create_statement_list, create_node, malloc, strdup, ASTNode.setData, fresh_blocks_3]
    · simp [JsAst.create_statement_list, create_node, malloc, strdup, ASTNode.setData, fresh_blocks_3, owned_node, owned_data, owned_list]
    · intro hf
      simp [JsAst.create_statement_list, create_node, malloc, strdup, ASTNode.setData, free_node, freeAll, freed_node, freed_data, free_statements, freed_list]
  | create_expression_statement _ ih1 =>
    intro w p w1 dr hw h
    simp only [Build.run] at h
    refine good_with_arg (x := (p, w1, dr)) ih1 (good_nil hw) ?_ h
    intro p1 v1 d1 g1 hn
    simp only [after_call, Option.some.injEq, Prod.mk.injEq] at hn
    obtain ⟨rfl, rfl, rfl⟩ := hn
    refine good_fresh [p1] [] 1 (by simpa using g1) ?_ ?_ ?_ ?_
    · simp [JsAst.create_expression_statement, create_node, malloc, strdup, ASTNode.setData]
    · simp [JsAst.create_expression_statement, create_node, malloc, strdup, ASTNode.setData, fresh_blocks_1]
    · simp [JsAst.create_expression_statement, create_node, malloc, strdup, ASTNode.setData, fresh_blocks_1, owned_node, owned_list, owned_ofChild]
    · intro hf
      simp only [List.mem_singleton, forall_eq] at hf
      cases p1 <;>
        simp_all [JsAst.create_expression_statement, create_node, malloc, strdup, ASTNode.setData, Data.ofChild, free_node, free_ast, freeAll, freed_node,
          freed_data, freed_ptr]
  | create_var_declaration _ _ ih1 =>
    intro w p w1 dr hw h
    simp only [Build.run] at h
    refine good_with_arg (x := (p, w1, dr)) ih1 (good_nil hw) ?_ h
    intro p1 v1 d1 g1 hn
    simp only [after_call, Option.some.injEq, Prod.mk.injEq] at hn
    obtain ⟨rfl, rfl, rfl⟩ := hn
    refine good_fresh [p1] [] 3 (by simpa using g1) ?_ ?_ ?_ ?_
    · simp [JsAst.create_var_declaration, create_node, malloc, strdup, ASTNode.setData]
    · simp [JsAst.create_var_declaration, create_node, malloc, strdup, ASTNode.setData, fresh_blocks_3]
    · simp [JsAst.create_var_declaration, create_node, malloc, strdup, ASTNode.setData, fresh_blocks_3, owned_node, owned_data, owned_list]
    · intro hf
      simp only [List.mem_cons, List.mem_singleton, forall_eq_or_imp, forall_eq,
        List.not_mem_nil, false_implies, implies_true, and_true] at hf
      simp [JsAst.create_var_declaration, create_node, malloc, strdup, ASTNode.setData, free_node, freeAll, freed_node, freed_data, hf]
  | create_let_declaration _ _ ih1 =>
    intro w p w1 dr hw h
    simp only [Build.run] at h
    refine good_with_arg (x := (p, w1, dr)) ih1 (good_nil hw) ?_ h
    intro p1 v1 d1 g1 hn
    simp only [after_call, Option.some.injEq, Prod.mk.injEq] at hn
    obtain ⟨rfl, rfl, rfl⟩ := hn
    refine good_fresh [p1] [] 3 (by simpa using g1) ?_ ?_ ?_ ?_
    · simp [JsAst.create_let_declaration, create_node, malloc, strdup, ASTNode.setData]
    · simp [JsAst.create_let_declaration, create_node, malloc, strdup, ASTNode.setData, fresh_blocks_3]
    · simp [JsAst.create_let_declaration, create_node, malloc, strdup, ASTNode.setData, fresh_blocks_3, owned_node, owned_data, owned_list]
    · intro hf
      simp only [List.mem_cons, List.mem_singleton, forall_eq_or_imp, forall_eq,
        List.not_mem_nil, false_implies, implies_true, and_true] at hf
      simp [JsAst.create_let_declaration, create_node, malloc, strdup, ASTNode.setData, free_node, freeAll, freed_node, freed_data, hf]
  | create_const_declaration _ _ ih1 =>
    intro w p w1 dr hw h
    simp only [Build.run] at h
    refine good_with_arg (x := (p, w1, dr)) ih1 (good_nil hw) ?_ h
    intro p1 v1 d1 g1 hn
    simp only [after_call, Option.some.injEq, Prod.mk.injEq] at hn
    obtain ⟨rfl, rfl, rfl⟩ := hn
    refine good_fresh [p1] [] 3 (by simpa using g1) ?_ ?_ ?_ ?_
    · simp [JsAst.create_const_declaration, create_node, malloc, strdup, ASTNode.setData]
    · simp [JsAst.create_const_declaration, create_node, malloc, strdup, ASTNode.setData, fresh_blocks_3]
    · simp [JsAst.create_const_declaration, create_node, malloc, strdup, ASTNode.setData, fresh_blocks_3, owned_node, owned_data, owned_list]
    · intro hf
      simp only [List.mem_cons, List.mem_singleton, forall_eq_or_imp, forall_eq,
        List.not_mem_nil, false_implies, implies_true, and_true] at hf
      simp [JsAst.create_const_declaration, create_node, malloc, strdup, ASTNode.setData, free_node, freeAll, freed_node, freed_data, hf]
  | create_function_declaration _ _ _ ih1 ih2 =>
    intro w p w1 dr hw h
    simp only [Build.run] at h
    refine good_with_arg (x := (p, w1, dr)) ih1 (good_nil hw) ?_ h
    intro p1 v1 d1 g1
    refine good_with_arg ih2 g1 ?_
    intro p2 v2 d2 g2 hn
    simp only [after_call, Option.some.injEq, Prod.mk.injEq] at hn
    obtain ⟨rfl, rfl, rfl⟩ := hn
    refine good_fresh [p1, p2] [] 3 (by simpa using g2) ?_ ?_ ?_ ?_
    · simp [JsAst.create_function_declaration, create_node, malloc, strdup, ASTNode.setData]
    · simp [JsAst.create_function_declaration, create_node, malloc, strdup, ASTNode.setData, fresh_blocks_3]
    · simp [JsAst.create_function_declaration, create_node, malloc, strdup, ASTNode.setData, fresh_blocks_3, owned_node, owned_data, owned_list]
    · intro hf
      simp only [List.mem_cons, List.mem_singleton, forall_eq_or_imp, forall_eq,
        List.not_mem_nil, false_implies, implies_true, and_true] at hf
      simp [JsAst.create_function_declaration, create_node, malloc, strdup, ASTNode.setData, free_node, freeAll, freed_node, freed_data, hf]
  | create_async_function_declaration _ _ _ ih1 ih2 =>
    intro w p w1 dr hw h
    simp only [Build.run] at h
    refine good_with_arg (x := (p, w1, dr)) ih1 (good_nil hw) ?_ h
    intro p1 v1 d1 g1
    refine good_with_arg ih2 g1 ?_
    intro p2 v2 d2 g2 hn
    simp only [after_call, Option.some.injEq, Prod.mk.injEq] at hn
    obtain ⟨rfl, rfl, rfl⟩ := hn
    refine good_fresh [p1, p2] [] 3 (by simpa using g2) ?_ ?_ ?_ ?_
    · simp [JsAst.create_async_function_declaration, create_node, malloc, strdup, ASTNode.setData, JsAst.create_function_declaration, set_is_async]
    · simp [JsAst.create_async_function_declaration, create_node, malloc, strdup, ASTNode.setData, JsAst.create_function_declaration, set_is_async, fresh_blocks_3]
    · simp [JsAst.create_async_function_declaration, create_node, malloc, strdup, ASTNode.setData, JsAst.create_function_declaration, set_is_async, fresh_blocks_3, owned_node, owned_data, owned_list]
    · intro hf
      simp only [List.mem_cons, List.mem_singleton, forall_eq_or_imp, forall_eq,
        List.not_mem_nil, false_implies, implies_true, and_true] at hf
      simp [JsAst.create_async_function_declaration, create_node, malloc, strdup, ASTNode.setData, JsAst.create_function_declaration, set_is_async, free_node, freeAll, freed_node, freed_data, hf]
  | create_if_statement _ _ _ ih1 ih2 ih3 =>
    intro w p w1 dr hw h
    simp only [Build.run] at h
    refine good_with_arg (x := (p, w1, dr)) ih1 (good_nil hw) ?_ h
    intro p1 v1 d1 g1
    refine good_with_arg ih2 g1 ?_
    intro p2 v2 d2 g2
    refine good_with_arg ih3 g2 ?_
    intro p3 v3 d3 g3 hn
    simp only [after_call, Option.some.injEq, Prod.mk.injEq] at hn
    obtain ⟨rfl, rfl, rfl⟩ := hn
    refine good_fresh [p1, p2, p3] [] 2 (by simpa using g3) ?_ ?_ ?_ ?_
    · simp [JsAst.create_if_statement, create_node, malloc, strdup, ASTNode.setData]
    · simp [JsAst.create_if_statement, create_node, malloc, strdup, ASTNode.setData, fresh_blocks_2]
    · simp [JsAst.create_if_statement, create_node, malloc, strdup, ASTNode.setData, fresh_blocks_2, owned_node, owned_data, owned_list]
    · intro hf
      simp only [List.mem_cons, List.mem_singleton, forall_eq_or_imp, forall_eq,
        List.not_mem_nil, false_implies, implies_true, and_true] at hf
      simp [JsAst.create_if_statement, create_node, malloc, strdup, ASTNode.setData, free_node, freeAll, freed_node, freed_data, hf]
  | create_while_statement _ _ ih1 ih2 =>
    intro w p w1 dr hw h
    simp only [Build.run] at h
    refine good_with_arg (x := (p, w1, dr)) ih1 (good_nil hw) ?_ h
    intro p1 v1 d1 g1
    refine good_with_arg ih2 g1 ?_
    intro p2 v2 d2 g2 hn
    simp only [after_call, Option.some.injEq, Prod.mk.injEq] at hn
    obtain ⟨rfl, rfl, rfl⟩ := hn
    refine good_fresh [p1, p2] [] 2 (by simpa using g2) ?_ ?_ ?_ ?_
    · simp [JsAst.create_while_statement, create_node, malloc, strdup, ASTNode.setData]
    · simp [JsAst.create_while_statement, create_node, malloc, strdup, ASTNode.setData, fresh_blocks_2]
    · simp [JsAst.create_while_statement, create_node, malloc, strdup, ASTNode.setData, fresh_blocks_2, owned_node, owned_data, owned_list]
    · intro hf
      simp only [List.mem_cons, List.mem_singleton, forall_eq_or_imp, forall_eq,
        List.not_mem_nil, false_implies, implies_true, and_true] at hf
      simp [JsAst.create_while_statement, create_node, malloc, strdup, ASTNode.setData, free_node, freeAll, freed_node, freed_data, hf]
  | create_for_statement _ _ _ _ ih1 ih2 ih3 ih4 =>
    intro w p w1 dr hw h
    simp only [Build.run] at h
    refine good_with_arg (x := (p, w1, dr)) ih1 (good_nil hw) ?_ h
    intro p1 v1 d1 g1
    refine good_with_arg ih2 g1 ?_
    intro p2 v2 d2 g2
    refine good_with_arg ih3 g2 ?_
    intro p3 v3 d3 g3
    refine good_with_arg ih4 g3 ?_
    intro p4 v4 d4 g4 hn
    simp only [after_call, Option.some.injEq, Prod.mk.injEq] at hn
    obtain ⟨rfl, rfl, rfl⟩ := hn
    refine good_fresh [p1, p2, p3, p4] [] 2 (by simpa using g4) ?_ ?_ ?_ ?_
    · simp [JsAst.create_for_statement, create_node, malloc, strdup, ASTNode.setData]
    · simp [JsAst.create_for_statement, create_node, malloc, strdup, ASTNode.setData, fresh_blocks_2]
    · simp [JsAst.create_for_statement, create_node, malloc, strdup, ASTNode.setData, fresh_blocks_2, owned_node, owned_data, owned_list]
    · intro hf
      simp only [List.mem_cons, List.mem_singleton, forall_eq_or_imp, forall_eq,
        List.not_mem_nil, false_implies, implies_true, and_true] at hf
      simp [JsAst.create_for_statement, create_node, malloc, strdup, ASTNode.setData, free_node, freeAll, freed_node, freed_data, hf]
  | create_for_statement_with_var _ _ _ _ _ ih1 ih2 ih3 ih4 =>
    intro w p w1 dr hw h
    simp only [Build.run] at h
    refine good_with_arg (x := (p, w1, dr)) ih1 (good_nil hw) ?_ h
    intro p1 v1 d1 g1
    refine good_with_arg ih2 g1 ?_
    intro p2 v2 d2 g2
    refine good_with_arg ih3 g2 ?_
    intro p3 v3 d3 g3
    refine good_with_arg ih4 g3 ?_
    intro p4 v4 d4 g4 hn
    simp only [after_call, Option.some.injEq, Prod.mk.injEq] at hn
    obtain ⟨rfl, rfl, rfl⟩ := hn
    refine good_fresh [p1, p2, p3, p4] [] 5 (by simpa using g4) ?_ ?_ ?_ ?_
    · simp [JsAst.create_for_statement_with_var, create_node, malloc, strdup, ASTNode.setData, JsAst.create_for_statement, JsAst.create_var_declaration]
    · simp [JsAst.create_for_statement_with_var, create_node, malloc, strdup, ASTNode.setData, JsAst.create_for_statement, JsAst.create_var_declaration, fresh_blocks_5]
    · simp only [JsAst.create_for_statement_with_var, create_node, malloc, strdup, ASTNode.setData, JsAst.create_for_statement, JsAst.create_var_declaration, fresh_blocks_5, owned_node, owned_data, owned_ptr, owned_list,
        CStr.literal, ← Multiset.coe_eq_coe, ← Multiset.coe_add, ← Multiset.cons_coe,
        ← Multiset.singleton_add, List.append_nil]
      abel
    · intro hf
      simp only [List.mem_cons, List.mem_singleton, forall_eq_or_imp, forall_eq,
        List.not_mem_nil, false_implies, implies_true, and_true] at hf
      simp [JsAst.create_for_statement_with_var, create_node, malloc, strdup, ASTNode.setData, JsAst.create_for_statement, JsAst.create_var_declaration, free_node, free_ast, freeAll, freed_node, freed_data, freed_ptr, hf]
  | create_return_statement _ ih1 =>
    intro w p w1 dr hw h
    simp only [Build.run] at h
    refine good_with_arg (x := (p, w1, dr)) ih1 (good_nil hw) ?_ h
    intro p1 v1 d1 g1 hn
    simp only [after_call, Option.some.injEq, Prod.mk.injEq] at hn
    obtain ⟨rfl, rfl, rfl⟩ := hn
    refine good_fresh [p1] [] 2 (by simpa using g1) ?_ ?_ ?_ ?_
    · simp [JsAst.create_return_statement, create_node, malloc, strdup, ASTNode.setData]
    · simp [JsAst.create_return_statement, create_node, malloc, strdup, ASTNode.setData, fresh_blocks_2]
    · simp [JsAst.create_return_statement, create_node, malloc, strdup, ASTNode.setData, fresh_blocks_2, owned_node, owned_data, owned_list]
    · intro hf
      simp only [List.mem_cons, List.mem_singleton, forall_eq_or_imp, forall_eq,
        List.not_mem_nil, false_implies, implies_true, and_true] at hf
      simp [JsAst.create_return_statement, create_node, malloc, strdup, ASTNode.setData, free_node, freeAll, freed_node, freed_data, hf]
  | create_break_statement _ ih1 =>
    intro w p w1 dr hw h
    simp only [Build.run] at h
    refine good_with_arg (x := (p, w1, dr)) ih1 (good_nil hw) ?_ h
    intro p1 v1 d1 g1 hn
    simp only [after_call, Option.some.injEq, Prod.mk.injEq] at hn
    obtain ⟨rfl, rfl, rfl⟩ := hn
    refine good_fresh [p1] [] 1 (by simpa using g1) ?_ ?_ ?_ ?_
    · simp [JsAst.create_break_statement, create_node, malloc, strdup, ASTNode.setData]
    · simp [JsAst.create_break_statement, create_node, malloc, strdup, ASTNode.setData, fresh_blocks_1]
    · simp [JsAst.create_break_statement, create_node, malloc, strdup, ASTNode.setData, fresh_blocks_1, owned_node, owned_list, owned_ofChild]
    · intro hf
      simp only [List.mem_singleton, forall_eq] at hf
      cases p1 <;>
        simp_all [JsAst.create_break_statement, create_node, malloc, strdup, ASTNode.setData, Data.ofChild, free_node, free_ast, freeAll, freed_node,
          freed_data, freed_ptr]
  | create_continue_statement _ ih1 =>
    intro w p w1 dr hw h
    simp only [Build.run] at h
    refine good_with_arg (x := (p, w1, dr)) ih1 (good_nil hw) ?_ h
    intro p1 v1 d1 g1 hn
    simp only [after_call, Option.some.injEq, Prod.mk.injEq] at hn
    obtain ⟨rfl, rfl, rfl⟩ := hn
    refine good_fresh [p1] [] 1 (by simpa using g1) ?_ ?_ ?_ ?_
    · simp [JsAst.create_continue_statement, create_node, malloc, strdup, ASTNode.setData]
    · simp [JsAst.create_continue_statement, create_node, malloc, strdup, ASTNode.setData, fresh_blocks_1]
    · simp [JsAst.create_continue_statement, create_node, malloc, strdup, ASTNode.setData, fresh_blocks_1, owned_node, owned_list, owned_ofChild]
    · intro hf
      simp only [List.mem_singleton, forall_eq] at hf
      cases p1 <;>
        simp_all [JsAst.create_continue_statement, create_node, malloc, strdup, ASTNode.setData, Data.ofChild, free_node, free_ast, freeAll, freed_node,
          freed_data, freed_ptr]
  | create_throw_statement _ ih1 =>
    intro w p w1 dr hw h
    simp only [Build.run] at h
    refine good_with_arg (x := (p, w1, dr)) ih1 (good_nil hw) ?_ h
    intro p1 v1 d1 g1 hn
    simp only [after_call, Option.some.injEq, Prod.mk.injEq] at hn
    obtain ⟨rfl, rfl, rfl⟩ := hn
    refine good_fresh [p1] [] 1 (by simpa using g1) ?_ ?_ ?_ ?_
    · simp [JsAst.create_throw_statement, create_node, malloc, strdup, ASTNode.setData]
    · simp [JsAst.create_throw_statement, create_node, malloc, strdup, ASTNode.setData, fresh_blocks_1]
    · simp [JsAst.create_throw_statement, create_node, malloc, strdup, ASTNode.setData, fresh_blocks_1, owned_node, owned_list, owned_ofChild]
    · intro hf
      simp only [List.mem_singleton, forall_eq] at hf
      cases p1 <;>
        simp_all [JsAst.create_throw_statement, create_node, malloc, strdup, ASTNode.setData, Data.ofChild, free_node, free_ast, freeAll, freed_node,
          freed_data, freed_ptr]
  | create_block_statement _ ih1 =>
    intro w p w1 dr hw h
    simp only [Build.run] at h
    refine good_with_arg (x := (p, w1, dr)) ih1 (good_nil hw) ?_ h
    intro p1 v1 d1 g1 hn
    simp only [after_call, Option.some.injEq, Prod.mk.injEq] at hn
    obtain ⟨rfl, rfl, rfl⟩ := hn
    refine good_fresh [p1] [] 1 (by simpa using g1) ?_ ?_ ?_ ?_
    · simp [JsAst.create_block_statement, create_node, malloc, strdup, ASTNode.setData]
    · simp [JsAst.create_block_statement, create_node, malloc, strdup, ASTNode.setData, fresh_blocks_1]
    · simp [JsAst.create_block_statement, create_node, malloc, strdup, ASTNode.setData, fresh_blocks_1, owned_node, owned_list, owned_ofChild]
    · intro hf
      simp only [List.mem_singleton, forall_eq] at hf
      cases p1 <;>
        simp_all [JsAst.create_block_statement, create_node, malloc, strdup, ASTNode.setData, Data.ofChild, free_node, free_ast, freeAll, freed_node,
          freed_data, freed_ptr]
  | create_empty_statement =>
    intro w p w1 dr hw h
    simp only [Build.run] at h
    simp only [leaf, Option.some.injEq, Prod.mk.injEq] at h
    obtain ⟨rfl, rfl, rfl⟩ := h
    refine good_fresh [] [] 1 (by simpa using good_nil hw) ?_ ?_ ?_ ?_
    · simp [JsAst.create_empty_statement, create_node, malloc, strdup, ASTNode.setData]
    · simp [JsAst.create_empty_statement, create_node, malloc, strdup, ASTNode.setData, fresh_blocks_1]
    · simp [JsAst.create_empty_statement, create_node, malloc, strdup, ASTNode.setData, fresh_blocks_1, owned_node, owned_data, owned_list]
    · intro hf
      simp [JsAst.create_empty_statement, create_node, malloc, strdup, ASTNode.setData, free_node, freeAll, freed_node, freed_data]
  | create_binary_expression _ _ _ ih1 ih2 =>
    intro w p w1 dr hw h
    simp only [Build.run] at h
    refine good_with_arg (x := (p, w1, dr)) ih1 (good_nil hw) ?_ h
    intro p1 v1 d1 g1
    refine good_with_arg ih2 g1 ?_
    intro p2 v2 d2 g2 hn
    simp only [after_call, Option.some.injEq, Prod.mk.injEq] at hn
    obtain ⟨rfl, rfl, rfl⟩ := hn
    refine good_fresh [p1, p2] [] 3 (by simpa using g2) ?_ ?_ ?_ ?_
    · simp [JsAst.create_binary_expression, create_node, malloc, strdup, ASTNode.setData]
    · simp [JsAst.create_binary_expression, create_node, malloc, strdup, ASTNode.setData, fresh_blocks_3]
    · simp [JsAst.create_binary_expression, create_node, malloc, strdup, ASTNode.setData, fresh_blocks_3, owned_node, owned_data, owned_list]
    · intro hf
      simp only [List.mem_cons, List.mem_singleton, forall_eq_or_imp, forall_eq,
        List.not_mem_nil, false_implies, implies_true, and_true] at hf
      simp [JsAst.create_binary_expression, create_node, malloc, strdup, ASTNode.setData, free_node, freeAll, freed_node, freed_data, hf]
  | create_unary_expression _ _ ih1 =>
    intro w p w1 dr hw h
    simp only [Build.run] at h
    refine good_with_arg (x := (p, w1, dr)) ih1 (good_nil hw) ?_ h
    intro p1 v1 d1 g1 hn
    simp only [after_call, Option.some.injEq, Prod.mk.injEq] at hn
    obtain ⟨rfl, rfl, rfl⟩ := hn
    refine good_fresh [p1] [] 3 (by simpa using g1) ?_ ?_ ?_ ?_
    · simp [JsAst.create_unary_expression, create_node, malloc, strdup, ASTNode.setData]
    · simp [JsAst.create_unary_expression, create_node, malloc, strdup, ASTNode.setData, fresh_blocks_3]
    · simp [JsAst.create_unary_expression, create_node, malloc, strdup, ASTNode.setData, fresh_blocks_3, owned_node, owned_data, owned_list]
    · intro hf
      simp only [List.mem_cons, List.mem_singleton, forall_eq_or_imp, forall_eq,
        List.not_mem_nil, false_implies, implies_true, and_true] at hf
      simp [JsAst.create_unary_expression, create_node, malloc, strdup, ASTNode.setData, free_node, freeAll, freed_node, freed_data, hf]
  | create_update_expression _ _ _ ih1 =>
    intro w p w1 dr hw h
    simp only [Build.run] at h
    refine good_with_arg (x := (p, w1, dr)) ih1 (good_nil hw) ?_ h
    intro p1 v1 d1 g1 hn
    simp only [after_call, Option.some.injEq, Prod.mk.injEq] at hn
    obtain ⟨rfl, rfl, rfl⟩ := hn
    refine good_fresh [p1] [] 3 (by simpa using g1) ?_ ?_ ?_ ?_
    · simp [JsAst.create_update_expression, create_node, malloc, strdup, ASTNode.setData]
    · simp [JsAst.create_update_expression, create_node, malloc, strdup, ASTNode.setData, fresh_blocks_3]
    · simp [JsAst.create_update_expression, create_node, malloc, strdup, ASTNode.setData, fresh_blocks_3, owned_node, owned_data, owned_list]
    · intro hf
      simp only [List.mem_cons, List.mem_singleton, forall_eq_or_imp, forall_eq,
        List.not_mem_nil, false_implies, implies_true, and_true] at hf
      simp [JsAst.create_update_expression, create_node, malloc, strdup, ASTNode.setData, free_node, freeAll, freed_node, freed_data, hf]
  | create_assignment_expression _ _ _ ih1 ih2 =>
    intro w p w1 dr hw h
    simp only [Build.run] at h
    refine good_with_arg (x := (p, w1, dr)) ih1 (good_nil hw) ?_ h
    intro p1 v1 d1 g1
    refine good_with_arg ih2 g1 ?_
    intro p2 v2 d2 g2 hn
    simp only [after_call, Option.some.injEq, Prod.mk.injEq] at hn
    obtain ⟨rfl, rfl, rfl⟩ := hn
    refine good_fresh [p1, p2] [] 3 (by simpa using g2) ?_ ?_ ?_ ?_
    · simp [JsAst.create_assignment_expression, create_node, malloc, strdup, ASTNode.setData]
    · simp [JsAst.create_assignment_expression, create_node, malloc, strdup, ASTNode.setData, fresh_blocks_3]
    · simp [JsAst.create_assignment_expression, create_node, malloc, strdup, ASTNode.setData, fresh_blocks_3, owned_node, owned_data, owned_list]
    · intro hf
      simp only [List.mem_cons, List.mem_singleton, forall_eq_or_imp, forall_eq,
        List.not_mem_nil, false_implies, implies_true, and_true] at hf
      simp [JsAst.create_assignment_expression, create_node, malloc, strdup, ASTNode.setData, free_node, freeAll, freed_node, freed_data, hf]
  | create_conditional_expression _ _ _ ih1 ih2 ih3 =>
    intro w p w1 dr hw h
    simp only [Build.run] at h
    refine good_with_arg (x := (p, w1, dr)) ih1 (good_nil hw) ?_ h
    intro p1 v1 d1 g1
    refine good_with_arg ih2 g1 ?_
    intro p2 v2 d2 g2
    refine good_with_arg ih3 g2 ?_
    intro p3 v3 d3 g3 hn
    simp only [after_call, Option.some.injEq, Prod.mk.injEq] at hn
    obtain ⟨rfl, rfl, rfl⟩ := hn
    refine good_fresh [p1, p2, p3] [] 2 (by simpa using g3) ?_ ?_ ?_ ?_
    · simp [JsAst.create_conditional_expression, create_node, malloc, strdup, ASTNode.setData]
    · simp [JsAst.create_conditional_expression, create_node, malloc, strdup, ASTNode.setData, fresh_blocks_2]
    · simp [JsAst.create_conditional_expression, create_node, malloc, strdup, ASTNode.setData, fresh_blocks_2, owned_node, owned_data, owned_list]
    · intro hf
      simp only [List.mem_cons, List.mem_singleton, forall_eq_or_imp, forall_eq,
        List.not_mem_nil, false_implies, implies_true, and_true] at hf
      simp [JsAst.create_conditional_expression, create_node, malloc, strdup, ASTNode.setData, free_node, freeAll, freed_node, freed_data, hf]
  | create_call_expression _ _ ih1 ih2 =>
    intro w p w1 dr hw h
    simp only [Build.run] at h
    refine good_with_arg (x := (p, w1, dr)) ih1 (good_nil hw) ?_ h
    intro p1 v1 d1 g1
    refine good_with_arg ih2 g1 ?_
    intro p2 v2 d2 g2 hn
    simp only [after_call, Option.some.injEq, Prod.mk.injEq] at hn
    obtain ⟨rfl, rfl, rfl⟩ := hn
    refine good_fresh [p1, p2] [] 2 (by simpa using g2) ?_ ?_ ?_ ?_
    · simp [JsAst.create_call_expression, create_node, malloc, strdup, ASTNode.setData]
    · simp [JsAst.create_call_expression, create_node, malloc, strdup, ASTNode.setData, fresh_blocks_2]
    · simp [JsAst.create_call_expression, create_node, malloc, strdup, ASTNode.setData, fresh_blocks_2, owned_node, owned_data, owned_list]
    · intro hf
      simp only [List.mem_cons, List.mem_singleton, forall_eq_or_imp, forall_eq,
        List.not_mem_nil, false_implies, implies_true, and_true] at hf
      simp [JsAst.create_call_expression, create_node, malloc, strdup, ASTNode.setData, free_node, freeAll, freed_node, freed_data, hf]
  | create_member_expression _ _ _ ih1 ih2 =>
    intro w p w1 dr hw h
    simp only [Build.run] at h
    refine good_with_arg (x := (p, w1, dr)) ih1 (good_nil hw) ?_ h
    intro p1 v1 d1 g1
    refine good_with_arg ih2 g1 ?_
    intro p2 v2 d2 g2 hn
    simp only [after_call, Option.some.injEq, Prod.mk.injEq] at hn
    obtain ⟨rfl, rfl, rfl⟩ := hn
    refine good_fresh [p1, p2] [] 2 (by simpa using g2) ?_ ?_ ?_ ?_
    · simp [JsAst.create_member_expression, create_node, malloc, strdup, ASTNode.setData]
    · simp [JsAst.create_member_expression, create_node, malloc, strdup, ASTNode.setData, fresh_blocks_2]
    · simp [JsAst.create_member_expression, create_node, malloc, strdup, ASTNode.setData, fresh_blocks_2, owned_node, owned_data, owned_list]
    · intro hf
      simp only [List.mem_cons, List.mem_singleton, forall_eq_or_imp, forall_eq,
        List.not_mem_nil, false_implies, implies_true, and_true] at hf
      simp [JsAst.create_member_expression, create_node, malloc, strdup, ASTNode.setData, free_node, freeAll, freed_node, freed_data, hf]
  | create_new_expression _ ih1 =>
    intro w p w1 dr hw h
    simp only [Build.run] at h
    refine good_with_arg (x := (p, w1, dr)) ih1 (good_nil hw) ?_ h
    intro p1 v1 d1 g1 hn
    simp only [after_call, Option.some.injEq, Prod.mk.injEq] at hn
    obtain ⟨rfl, rfl, rfl⟩ := hn
    refine good_fresh [p1] [] 1 (by simpa using g1) ?_ ?_ ?_ ?_
    · simp [JsAst.create_new_expression, create_node, malloc, strdup, ASTNode.setData]
    · simp [JsAst.create_new_expression, create_node, malloc, strdup, ASTNode.setData, fresh_blocks_1]
    · simp [JsAst.create_new_expression, create_node, malloc, strdup, ASTNode.setData, fresh_blocks_1, owned_node, owned_list, owned_ofChild]
    · intro hf
      simp only [List.mem_singleton, forall_eq] at hf
      cases p1 <;>
        simp_all [JsAst.create_new_expression, create_node, malloc, strdup, ASTNode.setData, Data.ofChild, free_node, free_ast, freeAll, freed_node,
          freed_data, freed_ptr]
  | create_comma_expression _ _ ih1 ih2 =>
    intro w p w1 dr hw h
    simp only [Build.run] at h
    refine good_with_arg (x := (p, w1, dr)) ih1 (good_nil hw) ?_ h
    intro p1 v1 d1 g1
    refine good_with_arg ih2 g1 ?_
    intro p2 v2 d2 g2 hn
    simp only [after_call, Option.some.injEq, Prod.mk.injEq] at hn
    obtain ⟨rfl, rfl, rfl⟩ := hn
    refine good_fresh [p1, p2] [] 3 (by simpa using g2) ?_ ?_ ?_ ?_
    · simp [JsAst.create_comma_expression, create_node, malloc, strdup, ASTNode.setData]
    · simp [JsAst.create_comma_expression, create_node, malloc, strdup, ASTNode.setData, fresh_blocks_3]
    · simp [JsAst.create_comma_expression, create_node, malloc, strdup, ASTNode.setData, fresh_blocks_3, owned_node, owned_data, owned_list]
    · intro hf
      simp only [List.mem_cons, List.mem_singleton, forall_eq_or_imp, forall_eq,
        List.not_mem_nil, false_implies, implies_true, and_true] at hf
      simp [JsAst.create_comma_expression, create_node, malloc, strdup, ASTNode.setData, free_node, freeAll, freed_node, freed_data, hf]
  | create_identifier _ =>
    intro w p w1 dr hw h
    simp only [Build.run] at h
    simp only [leaf, Option.some.injEq, Prod.mk.injEq] at h
    obtain ⟨rfl, rfl, rfl⟩ := h
    refine good_fresh [] [] 3 (by simpa using good_nil hw) ?_ ?_ ?_ ?_
    · simp [JsAst.create_identifier, create_node, malloc, strdup, ASTNode.setData]
    · simp [JsAst.create_identifier, create_node, malloc, strdup, ASTNode.setData, fresh_blocks_3]
    · simp [JsAst.create_identifier, create_node, malloc, strdup, ASTNode.setData, fresh_blocks_3, owned_node, owned_data, owned_list]
    · intro hf
      simp [JsAst.create_identifier, create_node, malloc, strdup, ASTNode.setData, free_node, freeAll, freed_node, freed_data]
  | create_null_literal =>
    intro w p w1 dr hw h
    simp only [Build.run] at h
    simp only [leaf, Option.some.injEq, Prod.mk.injEq] at h
    obtain ⟨rfl, rfl, rfl⟩ := h
    refine good_fresh [] [] 2 (by simpa using good_nil hw) ?_ ?_ ?_ ?_
    · simp [JsAst.create_null_literal, create_node, malloc, strdup, ASTNode.setData]
    · simp [JsAst.create_null_literal, create_node, malloc, strdup, ASTNode.setData, fresh_blocks_2]
    · simp [JsAst.create_null_literal, create_node, malloc, strdup, ASTNode.setData, fresh_blocks_2, owned_node, owned_data, owned_list]
    · intro hf
      simp [JsAst.create_null_literal, create_node, malloc, strdup, ASTNode.setData, free_node, freeAll, freed_node, freed_data]
  | create_boolean_literal _ =>
    intro w p w1 dr hw h
    simp only [Build.run] at h
    simp only [leaf, Option.some.injEq, Prod.mk.injEq] at h
    obtain ⟨rfl, rfl, rfl⟩ := h
    refine good_fresh [] [] 2 (by simpa using good_nil hw) ?_ ?_ ?_ ?_
    · simp [JsAst.create_boolean_literal, create_node, malloc, strdup, ASTNode.setData]
    · simp [JsAst.create_boolean_literal, create_node, malloc, strdup, ASTNode.setData, fresh_blocks_2]
    · simp [JsAst.create_boolean_literal, create_node, malloc, strdup, ASTNode.setData, fresh_blocks_2, owned_node, owned_data, owned_list]
    · intro hf
      simp [JsAst.create_boolean_literal, create_node, malloc, strdup, ASTNode.setData, free_node, freeAll, freed_node, freed_data]
  | create_number_literal _ =>
    intro w p w1 dr hw h
    simp only [Build.run] at h
    simp only [leaf, Option.some.injEq, Prod.mk.injEq] at h
    obtain ⟨rfl, rfl, rfl⟩ := h
    refine good_fresh [] [] 3 (by simpa using good_nil hw) ?_ ?_ ?_ ?_
    · simp [JsAst.create_number_literal, create_node, malloc, strdup, ASTNode.setData]
    · simp [JsAst.create_number_literal, create_node, malloc, strdup, ASTNode.setData, fresh_blocks_3]
    · simp [JsAst.create_number_literal, create_node, malloc, strdup, ASTNode.setData, fresh_blocks_3, owned_node, owned_data, owned_list]
    · intro hf
      simp [JsAst.create_number_literal, create_node, malloc, strdup, ASTNode.setData, free_node, freeAll, freed_node, freed_data]
  | create_string_literal _ =>
    intro w p w1 dr hw h
    simp only [Build.run] at h
    simp only [leaf, Option.some.injEq, Prod.mk.injEq] at h
    obtain ⟨rfl, rfl, rfl⟩ := h
    refine good_fresh [] [] 3 (by simpa using good_nil hw) ?_ ?_ ?_ ?_
    · simp [JsAst.create_string_literal, create_node, malloc, strdup, ASTNode.setData]
    · simp [JsAst.create_string_literal, create_node, malloc, strdup, ASTNode.setData, fresh_blocks_3]
    · simp [JsAst.create_string_literal, create_node, malloc, strdup, ASTNode.setData, fresh_blocks_3, owned_node, owned_data, owned_list]
    · intro hf
      simp [JsAst.create_string_literal, create_node, malloc, strdup, ASTNode.setData, free_node, freeAll, freed_node, freed_data]
  | create_this_expression =>
    intro w p w1 dr hw h
    simp only [Build.run] at h
    simp only [leaf, Option.some.injEq, Prod.mk.injEq] at h
    obtain ⟨rfl, rfl, rfl⟩ := h
    refine good_fresh [] [] 1 (by simpa using good_nil hw) ?_ ?_ ?_ ?_
    · simp [JsAst.create_this_expression, create_node, malloc, strdup, ASTNode.setData]
    · simp [JsAst.create_this_expression, create_node, malloc, strdup, ASTNode.setData, fresh_blocks_1]
    · simp [JsAst.create_this_expression, create_node, malloc, strdup, ASTNode.setData, fresh_blocks_1, owned_node, owned_data, owned_list]
    · intro hf
      simp [JsAst.create_this_expression, create_node, malloc, strdup, ASTNode.setData, free_node, freeAll, freed_node, freed_data]
  | create_array_expression _ ih1 =>
    intro w p w1 dr hw h
    simp only [Build.run] at h
    refine good_with_arg (x := (p, w1, dr)) ih1 (good_nil hw) ?_ h
    intro p1 v1 d1 g1 hn
    simp only [after_call, Option.some.injEq, Prod.mk.injEq] at hn
    obtain ⟨rfl, rfl, rfl⟩ := hn
    refine good_fresh [p1] [] 1 (by simpa using g1) ?_ ?_ ?_ ?_
    · simp [JsAst.create_array_expression, create_node, malloc, strdup, ASTNode.setData]
    · simp [JsAst.create_array_expression, create_node, malloc, strdup, ASTNode.setData, fresh_blocks_1]
    · simp [JsAst.create_array_expression, create_node, malloc, strdup, ASTNode.setData, fresh_blocks_1, owned_node, owned_list, owned_ofChild]
    · intro hf
      simp only [List.mem_singleton, forall_eq] at hf
      cases p1 <;>
        simp_all [JsAst.create_array_expression, create_node, malloc, strdup, ASTNode.setData, Data.ofChild, free_node, free_ast, freeAll, freed_node,
          freed_data, freed_ptr]
  | create_object_expression _ ih1 =>
    intro w p w1 dr hw h
    simp only [Build.run] at h
    refine good_with_arg (x := (p, w1, dr)) ih1 (good_nil hw) ?_ h
    intro p1 v1 d1 g1 hn
    simp only [after_call, Option.some.injEq, Prod.mk.injEq] at hn
    obtain ⟨rfl, rfl, rfl⟩ := hn
    refine good_fresh [p1] [] 1 (by simpa using g1) ?_ ?_ ?_ ?_
    · simp [JsAst.create_object_expression, create_node, malloc, strdup, ASTNode.setData]
    · simp [JsAst.create_object_expression, create_node, malloc, strdup, ASTNode.setData, fresh_blocks_1]
    · simp [JsAst.create_object_expression, create_node, malloc, strdup, ASTNode.setData, fresh_blocks_1, owned_node, owned_list, owned_ofChild]
    · intro hf
      simp only [List.mem_singleton, forall_eq] at hf
      cases p1 <;>
        simp_all [JsAst.create_object_expression, create_node, malloc, strdup, ASTNode.setData, Data.ofChild, free_node, free_ast, freeAll, freed_node,
          freed_data, freed_ptr]


/-- Releasing blocks that are outstanding, each once, succeeds and leaves the
other outstanding blocks. -/
theorem releaseAll_perm (fs : List Addr) :
    ∀ (w : World) (rest : List Addr), w.live.Perm (fs ++ rest) → w.live.Nodup →
      ∃ w2, releaseAll fs w = some w2 ∧ w2.live.Perm rest ∧ w2.next = w.next := by
  induction fs with
  | nil => intro w rest h _; exact ⟨w, rfl, by simpa using h, rfl⟩
  | cons a fs ih =>
    intro w rest h nd
    have hmem : a ∈ w.live := h.symm.subset (by simp)
    have h2 : (w.live.erase a).Perm (fs ++ rest) := by
      have := h.erase a
      simpa using this
    obtain ⟨w2, e, hp, hn⟩ := ih { w with live := w.live.erase a } rest h2 (nd.erase a)
    exact ⟨w2, by simp [releaseAll, free, hmem, e], hp, hn⟩

/-- C1, as stated, fails on a build in which `append_statement` is given a
node that is not a list: the item is not linked, `free_ast` on the returned
root releases the three blocks of the root only, and the three blocks of the
item are still outstanding after the teardown. -/
theorem C1_counterexample_dropped_item :
    ∃ p w1 dr fs w2, dropping_build.run World.init = some (p, w1, dr)
      ∧ free_ast p = some fs
      ∧ fs = [Addr.heap 2, Addr.heap 1, Addr.heap 0]
      ∧ releaseAll fs w1 = some w2
      ∧ w2.live = [Addr.heap 5, Addr.heap 4, Addr.heap 3]
      ∧ w2.live.length ≠ 0 :=
  ⟨_, _, _, _, _, rfl, rfl, rfl, rfl, rfl, by decide⟩

/-- C1, amended: for every tree built only through the builder operations, each
returned node being passed on at most once, `free_ast` on the root releases
exactly the storage blocks of the nodes reachable from the root (node records,
payload records, duplicated strings, item arrays), each once: every released
block was handed out during the build and is outstanding when released, none
is a string literal, none is released twice, and afterwards the outstanding
blocks are those outstanding before the build together with the blocks of the
items that `append_statement` was given with a non-list node and did not link;
with no such item and nothing outstanding before, the count of outstanding
allocations is zero. -/
theorem C1_free_ast_releases_tree (b : Build) (w w1 : World) (p : Ptr) (dr : List Ptr)
    (hw : WorldOK w) (hrun : b.run w = some (p, w1, dr)) :
    ∃ fs w2, free_ast p = some fs
      ∧ fs.Perm (owned_ptr p)
      ∧ fs.Nodup
      ∧ (∀ a ∈ fs, a ∈ w1.live ∧ a ∉ w.live ∧ ∃ n, a = Addr.heap n)
      ∧ (∀ text, Addr.static text ∉ fs)
      ∧ releaseAll fs w1 = some w2
      ∧ w2.live.Perm (owned_list dr ++ w.live)
      ∧ (∀ a ∈ fs, a ∉ w2.live)
      ∧ (dr = [] → w.live = [] → w2.live.length = 0) := by
  obtain ⟨⟨nd, lt⟩, hn, hf, hl, hr⟩ := build_good b w p w1 dr hw hrun
  have hfree := hf p (by simp)
  have hperm := freed_ptr_perm_owned p
  simp only [owned_list, List.append_nil] at hl hr
  have hl2 : w1.live.Perm (freed_ptr p ++ (owned_list dr ++ w.live)) :=
    hl.trans (hperm.symm.append (List.Perm.refl _))
  have hnd2 : (freed_ptr p ++ (owned_list dr ++ w.live)).Nodup := (List.Perm.nodup_iff hl2).mp nd
  obtain ⟨w2, hrel, hp2, _⟩ := releaseAll_perm (freed_ptr p) w1 _ hl2 nd
  refine ⟨freed_ptr p, w2, hfree, hperm, (List.nodup_append.mp hnd2).1, ?_, ?_, hrel, hp2, ?_, ?_⟩
  · intro a ha
    refine ⟨hl2.symm.subset (List.mem_append.mpr (Or.inl ha)), ?_, ?_⟩
    · intro hmem
      exact (List.nodup_append.mp hnd2).2.2 ha (List.mem_append.mpr (Or.inr hmem))
    · obtain ⟨n, e, _, _⟩ := hr a (List.mem_append.mpr (Or.inl (hperm.subset ha)))
      exact ⟨n, e⟩
  · intro text ha
    obtain ⟨n, e, _, _⟩ := hr _ (List.mem_append.mpr (Or.inl (hperm.subset ha)))
    exact Addr.noConfusion e
  · intro a ha hmem
    exact (List.nodup_append.mp hnd2).2.2 ha (hp2.subset hmem)
  · intro h1 h2
    subst h1
    rw [h2] at hp2
    simpa [owned_list] using hp2.length_eq

/-- C1 at the sample build run in the initial world. -/
theorem C1_free_ast_releases_tree_witness :
    WorldOK World.init ∧ sample_build.run World.init = some sample_built
    ∧ ∃ fs w2, free_ast sample_built.1 = some fs
      ∧ fs.Perm (owned_ptr sample_built.1)
      ∧ fs.Nodup
      ∧ (∀ a ∈ fs, a ∈ sample_built.2.1.live ∧ a ∉ World.init.live ∧ ∃ n, a = Addr.heap n)
      ∧ (∀ text, Addr.static text ∉ fs)
      ∧ releaseAll fs sample_built.2.1 = some w2
      ∧ w2.live.Perm (owned_list sample_built.2.2 ++ World.init.live)
      ∧ (∀ a ∈ fs, a ∉ w2.live)
      ∧ (sample_built.2.2 = [] → World.init.live = [] → w2.live.length = 0) :=
  have hw : WorldOK World.init := ⟨List.nodup_nil, fun a h => absurd h (List.not_mem_nil a)⟩
  have hrun : sample_build.run World.init = some sample_built := rfl
  ⟨hw, hrun,
    C1_free_ast_releases_tree sample_build World.init sample_built.2.1 sample_built.1
      sample_built.2.2 hw hrun⟩

/-! ### The builders: what they store, and the position they record -/

/-- C15: `create_async_function_declaration(name, params, body)` returns the
node `create_function_declaration(name, params, body)` returns, with `is_async`
1 in place of 0: kind `FunctionDeclaration`, the position, the name, the
parameters, the body and `is_generator = 0` are the same, and so is the state
left behind. -/
theorem C15_async_is_function_with_flag (name : String) (params body : Ptr) (w : World) :
    ∃ (blk : Addr) (nm : CStr), nm.text = name
      ∧ (create_function_declaration name params body w).1
          = .mk .NODE_FUNCTION_DECLARATION w.yylineno w.yycolno (.heap w.next)
              (.func_decl blk nm params body 0 0)
      ∧ (create_async_function_declaration name params body w).1
          = .mk .NODE_FUNCTION_DECLARATION w.yylineno w.yycolno (.heap w.next)
              (.func_decl blk nm params body 1 0)
      ∧ (create_async_function_declaration name params body w).2
          = (create_function_declaration name params body w).2 :=
  ⟨_, _, rfl, rfl, rfl, rfl⟩

/-- C17: every builder returns a node of the kind of that builder whose
payload holds the arguments it was given, each in its own field: the children
a, b, c, e in the order of the parameters, the text s in the string field, the
flag v in the flag field.  `create_for_statement_with_var` stores as `init` the
`VariableDeclaration(var)` it makes from the name and the initializer. -/
theorem C17_builders_store_arguments (s : String) (a b c e : Ptr) (v : Int) (w : World) :
    ((create_program a w).1.type = .NODE_PROGRAM
      ∧ ∃ blk, (create_program a w).1.data = .program blk a)
    ∧ ((create_statement_list w).1.type = .NODE_STATEMENT_LIST
      ∧ ∃ blk arr, (create_statement_list w).1.data = .stmt_list blk arr [] 16)
    ∧ ((create_expression_statement a w).1.type = .NODE_EXPRESSION_STMT
      ∧ (create_expression_statement a w).1.data = Data.ofChild a)
    ∧ ((create_var_declaration s a w).1.type = .NODE_VAR_DECLARATION
      ∧ ∃ blk nm, nm.text = s ∧ (create_var_declaration s a w).1.data = .var_decl blk (CStr.literal "var") nm a)
    ∧ ((create_let_declaration s a w).1.type = .NODE_LET_DECLARATION
      ∧ ∃ blk nm, nm.text = s ∧ (create_let_declaration s a w).1.data = .var_decl blk (CStr.literal "let") nm a)
    ∧ ((create_const_declaration s a w).1.type = .NODE_CONST_DECLARATION
      ∧ ∃ blk nm, nm.text = s ∧ (create_const_declaration s a w).1.data = .var_decl blk (CStr.literal "const") nm a)
    ∧ ((create_function_declaration s a b w).1.type = .NODE_FUNCTION_DECLARATION
      ∧ ∃ blk nm, nm.text = s ∧ (create_function_declaration s a b w).1.data = .func_decl blk nm a b 0 0)
    ∧ ((create_async_function_declaration s a b w).1.type = .NODE_FUNCTION_DECLARATION
      ∧ ∃ blk nm, nm.text = s ∧ (create_async_function_declaration s a b w).1.data = .func_decl blk nm a b 1 0)
    ∧ ((create_if_statement a b c w).1.type = .NODE_IF_STATEMENT
      ∧ ∃ blk, (create_if_statement a b c w).1.data = .if_stmt blk a b c)
    ∧ ((create_while_statement a b w).1.type = .NODE_WHILE_STATEMENT
      ∧ ∃ blk, (create_while_statement a b w).1.data = .while_stmt blk a b)
    ∧ ((create_for_statement a b c e w).1.type = .NODE_FOR_STATEMENT
      ∧ ∃ blk, (create_for_statement a b c e w).1.data = .for_stmt blk a b c e)
    ∧ ((create_for_statement_with_var s a b c e w).1.type = .NODE_FOR_STATEMENT
      ∧ ∃ blk decl vblk nm, nm.text = s
        ∧ (create_for_statement_with_var s a b c e w).1.data = .for_stmt blk (some decl) b c e
        ∧ decl.type = .NODE_VAR_DECLARATION
        ∧ decl.data = .var_decl vblk (CStr.literal "var") nm a)
    ∧ ((create_return_statement a w).1.type = .NODE_RETURN_STATEMENT
      ∧ ∃ blk, (create_return_statement a w).1.data = .return_stmt blk a)
    ∧ ((create_break_statement a w).1.type = .NODE_BREAK_STATEMENT
      ∧ (create_break_statement a w).1.data = Data.ofChild a)
    ∧ ((create_continue_statement a w).1.type = .NODE_CONTINUE_STATEMENT
      ∧ (create_continue_statement a w).1.data = Data.ofChild a)
    ∧ ((create_throw_statement a w).1.type = .NODE_THROW_STATEMENT
      ∧ (create_throw_statement a w).1.data = Data.ofChild a)
    ∧ ((create_block_statement a w).1.type = .NODE_BLOCK_STATEMENT
      ∧ (create_block_statement a w).1.data = Data.ofChild a)
    ∧ ((create_empty_statement w).1.type = .NODE_EMPTY_STATEMENT
      ∧ (create_empty_statement w).1.data = .null)
    ∧ ((create_binary_expression s a b w).1.type = .NODE_BINARY_EXPR
      ∧ ∃ blk op, op.text = s ∧ (create_binary_expression s a b w).1.data = .binary_expr blk op a b)
    ∧ ((create_unary_expression s a w).1.type = .NODE_UNARY_EXPR
      ∧ ∃ blk op, op.text = s ∧ (create_unary_expression s a w).1.data = .unary_expr blk op a 1)
    ∧ ((create_update_expression s a v w).1.type = .NODE_UPDATE_EXPR
      ∧ ∃ blk op, op.text = s ∧ (create_update_expression s a v w).1.data = .unary_expr blk op a v)
    ∧ ((create_assignment_expression s a b w).1.type = .NODE_ASSIGNMENT_EXPR
      ∧ ∃ blk op, op.text = s ∧ (create_assignment_expression s a b w).1.data = .assign_expr blk op a b)
    ∧ ((create_conditional_expression a b c w).1.type = .NODE_CONDITIONAL_EXPR
      ∧ ∃ blk, (create_conditional_expression a b c w).1.data = .cond_expr blk a b c)
    ∧ ((create_call_expression a b w).1.type = .NODE_CALL_EXPR
      ∧ ∃ blk, (create_call_expression a b w).1.data = .call_expr blk a b)
    ∧ ((create_member_expression a b v w).1.type = .NODE_MEMBER_EXPR
      ∧ ∃ blk, (create_member_expression a b v w).1.data = .member_expr blk a b v)
    ∧ ((create_new_expression a w).1.type = .NODE_NEW_EXPR
      ∧ (create_new_expression a w).1.data = Data.ofChild a)
    ∧ ((create_comma_expression a b w).1.type = .NODE_COMMA_EXPR
      ∧ ∃ blk op, op.text = "," ∧ (create_comma_expression a b w).1.data = .binary_expr blk op a b)
    ∧ ((create_identifier s w).1.type = .NODE_IDENTIFIER
      ∧ ∃ blk nm, nm.text = s ∧ (create_identifier s w).1.data = .identifier blk nm)
    ∧ ((create_null_literal w).1.type = .NODE_LITERAL
      ∧ ∃ blk, (create_null_literal w).1.data = .literal blk .LIT_NULL .zero)
    ∧ ((create_boolean_literal v w).1.type = .NODE_LITERAL
      ∧ ∃ blk, (create_boolean_literal v w).1.data = .literal blk .LIT_BOOLEAN (.boolean v))
    ∧ ((create_number_literal s w).1.type = .NODE_LITERAL
      ∧ ∃ blk nm, nm.text = s ∧ (create_number_literal s w).1.data = .literal blk .LIT_NUMBER (.string nm))
    ∧ ((create_string_literal s w).1.type = .NODE_LITERAL
      ∧ ∃ blk nm, nm.text = s ∧ (create_string_literal s w).1.data = .literal blk .LIT_STRING (.string nm))
    ∧ ((create_this_expression w).1.type = .NODE_THIS
      ∧ (create_this_expression w).1.data = .null)
    ∧ ((create_array_expression a w).1.type = .NODE_ARRAY_EXPR
      ∧ (create_array_expression a w).1.data = Data.ofChild a)
    ∧ ((create_object_expression a w).1.type = .NODE_OBJECT_EXPR
      ∧ (create_object_expression a w).1.data = Data.ofChild a) := by
  exact ⟨⟨rfl, _, rfl⟩,
    ⟨rfl, _, _, rfl⟩,
    ⟨rfl, rfl⟩,
    ⟨rfl, _, _, rfl, rfl⟩,
    ⟨rfl, _, _, rfl, rfl⟩,
    ⟨rfl, _, _, rfl, rfl⟩,
    ⟨rfl, _, _, rfl, rfl⟩,
    ⟨rfl, _, _, rfl, rfl⟩,
    ⟨rfl, _, rfl⟩,
    ⟨rfl, _, rfl⟩,
    ⟨rfl, _, rfl⟩,
    ⟨rfl, _, _, _, _, rfl, rfl, rfl, rfl⟩,
    ⟨rfl, _, rfl⟩,
    ⟨rfl, rfl⟩,
    ⟨rfl, rfl⟩,
    ⟨rfl, rfl⟩,
    ⟨rfl, rfl⟩,
    ⟨rfl, rfl⟩,
    ⟨rfl, _, _, rfl, rfl⟩,
    ⟨rfl, _, _, rfl, rfl⟩,
    ⟨rfl, _, _, rfl, rfl⟩,
    ⟨rfl, _, _, rfl, rfl⟩,
    ⟨rfl, _, rfl⟩,
    ⟨rfl, _, rfl⟩,
    ⟨rfl, _, rfl⟩,
    ⟨rfl, rfl⟩,
    ⟨rfl, _, _, rfl, rfl⟩,
    ⟨rfl, _, _, rfl, rfl⟩,
    ⟨rfl, _, rfl⟩,
    ⟨rfl, _, rfl⟩,
    ⟨rfl, _, _, rfl, rfl⟩,
    ⟨rfl, _, _, rfl, rfl⟩,
    ⟨rfl, rfl⟩,
    ⟨rfl, rfl⟩,
    ⟨rfl, rfl⟩⟩

theorem positions_list_append (xs ys : List Ptr) :
    positions_list (xs ++ ys) = positions_list xs ++ positions_list ys := by
  induction xs with
  | nil => simp [positions_list]
  | cons x xs ih => simp [positions_list, ih]

/-- C18: the node every builder returns carries the line and column of the scan
cursor at the call, and the call leaves the cursor where it was (so the
declaration made inside `create_for_statement_with_var` carries them too);
`append_statement` changes no line or column: the positions recorded in the
tree it returns, with those of an item it left unlinked, are the positions
recorded in the list followed by those recorded in the item. -/
theorem C18_position_is_cursor (s : String) (a b c e : Ptr) (v : Int) (w : World) :
    at_cursor (create_program a w) w
    ∧ at_cursor (create_statement_list w) w
    ∧ at_cursor (create_expression_statement a w) w
    ∧ at_cursor (create_var_declaration s a w) w
    ∧ at_cursor (create_let_declaration s a w) w
    ∧ at_cursor (create_const_declaration s a w) w
    ∧ at_cursor (create_function_declaration s a b w) w
    ∧ at_cursor (create_async_function_declaration s a b w) w
    ∧ at_cursor (create_if_statement a b c w) w
    ∧ at_cursor (create_while_statement a b w) w
    ∧ at_cursor (create_for_statement a b c e w) w
    ∧ at_cursor (create_for_statement_with_var s a b c e w) w
    ∧ at_cursor (create_return_statement a w) w
    ∧ at_cursor (create_break_statement a w) w
    ∧ at_cursor (create_continue_statement a w) w
    ∧ at_cursor (create_throw_statement a w) w
    ∧ at_cursor (create_block_statement a w) w
    ∧ at_cursor (create_empty_statement w) w
    ∧ at_cursor (create_binary_expression s a b w) w
    ∧ at_cursor (create_unary_expression s a w) w
    ∧ at_cursor (create_update_expression s a v w) w
    ∧ at_cursor (create_assignment_expression s a b w) w
    ∧ at_cursor (create_conditional_expression a b c w) w
    ∧ at_cursor (create_call_expression a b w) w
    ∧ at_cursor (create_member_expression a b v w) w
    ∧ at_cursor (create_new_expression a w) w
    ∧ at_cursor (create_comma_expression a b w) w
    ∧ at_cursor (create_identifier s w) w
    ∧ at_cursor (create_null_literal w) w
    ∧ at_cursor (create_boolean_literal v w) w
    ∧ at_cursor (create_number_literal s w) w
    ∧ at_cursor (create_string_literal s w) w
    ∧ at_cursor (create_this_expression w) w
    ∧ at_cursor (create_array_expression a w) w
    ∧ at_cursor (create_object_expression a w) w
    ∧ (∃ blk decl, (create_for_statement_with_var s a b c e w).1.data
          = .for_stmt blk (some decl) b c e
        ∧ decl.line = w.yylineno ∧ decl.column = w.yycolno)
    ∧ (∀ (list stmt r : Ptr) (w1 : World), append_statement list stmt w = some (r, w1) →
        positions_ptr r ++ positions_list (dropped_by_append list stmt)
          = positions_ptr list ++ positions_ptr stmt
        ∧ w1.yylineno = w.yylineno ∧ w1.yycolno = w.yycolno) := by
  refine ⟨⟨rfl, rfl, rfl, rfl⟩, ⟨rfl, rfl, rfl, rfl⟩, ⟨rfl, rfl, rfl, rfl⟩, ⟨rfl, rfl, rfl, rfl⟩,
    ⟨rfl, rfl, rfl, rfl⟩, ⟨rfl, rfl, rfl, rfl⟩, ⟨rfl, rfl, rfl, rfl⟩, ⟨rfl, rfl, rfl, rfl⟩,
    ⟨rfl, rfl, rfl, rfl⟩, ⟨rfl, rfl, rfl, rfl⟩, ⟨rfl, rfl, rfl, rfl⟩, ⟨rfl, rfl, rfl, rfl⟩,
    ⟨rfl, rfl, rfl, rfl⟩, ⟨rfl, rfl, rfl, rfl⟩, ⟨rfl, rfl, rfl, rfl⟩, ⟨rfl, rfl, rfl, rfl⟩,
    ⟨rfl, rfl, rfl, rfl⟩, ⟨rfl, rfl, rfl, rfl⟩, ⟨rfl, rfl, rfl, rfl⟩, ⟨rfl, rfl, rfl, rfl⟩,
    ⟨rfl, rfl, rfl, rfl⟩, ⟨rfl, rfl, rfl, rfl⟩, ⟨rfl, rfl, rfl, rfl⟩, ⟨rfl, rfl, rfl, rfl⟩,
    ⟨rfl, rfl, rfl, rfl⟩, ⟨rfl, rfl, rfl, rfl⟩, ⟨rfl, rfl, rfl, rfl⟩, ⟨rfl, rfl, rfl, rfl⟩,
    ⟨rfl, rfl, rfl, rfl⟩, ⟨rfl, rfl, rfl, rfl⟩, ⟨rfl, rfl, rfl, rfl⟩, ⟨rfl, rfl, rfl, rfl⟩,
    ⟨rfl, rfl, rfl, rfl⟩, ⟨rfl, rfl, rfl, rfl⟩, ⟨rfl, rfl, rfl, rfl⟩, ⟨_, _, rfl, rfl, rfl⟩, ?_⟩
  intro list stmt r w1 h
  cases list with
  | none =>
    simp only [append_statement, Option.some.injEq, Prod.mk.injEq] at h
    obtain ⟨rfl, rfl⟩ := h
    simp [dropped_by_append, positions_ptr, positions_list]
  | some l =>
    cases stmt with
    | none =>
      simp only [append_statement, Option.some.injEq, Prod.mk.injEq] at h
      obtain ⟨rfl, rfl⟩ := h
      simp [dropped_by_append, positions_ptr, positions_list]
    | some x =>
      obtain ⟨t, ln, col, ad, dt⟩ := l
      by_cases ht : t = .NODE_STATEMENT_LIST
      · subst ht
        cases dt with
        | stmt_list blk arr sts cap =>
          simp only [append_statement, ASTNode.type, ASTNode.data, ASTNode.setData, ne_eq,
            not_true_eq_false, if_false, realloc] at h
          split at h
          · split at h
            · exact Option.noConfusion h
            · split at h
              · exact Option.noConfusion h
              · simp only [Option.some.injEq, Prod.mk.injEq] at h
                obtain ⟨rfl, rfl⟩ := h
                simp [dropped_by_append, ASTNode.type, positions_ptr, positions_node,
                  positions_data, positions_list, positions_list_append]
          · simp only [Option.some.injEq, Prod.mk.injEq] at h
            obtain ⟨rfl, rfl⟩ := h
            simp [dropped_by_append, ASTNode.type, positions_ptr, positions_node,
              positions_data, positions_list, positions_list_append]
        | _ =>
          simp [append_statement, ASTNode.type, ASTNode.data] at h
      · simp only [append_statement, ASTNode.type, ne_eq, ht, not_false_eq_true, if_true,
          Option.some.injEq, Prod.mk.injEq] at h
        obtain ⟨rfl, rfl⟩ := h
        simp [dropped_by_append, ASTNode.type, ht, positions_ptr, positions_list]

/-- C18 for the list of the sample program and one more item. -/
theorem C18_position_is_cursor_witness :
    append_statement (some (create_statement_list World.init).1) (some (sample_decl World.later))
        World.later
      = some (some ((create_statement_list World.init).1.setData
          (.stmt_list (.heap 1) (.heap 2) [some (sample_decl World.later)] 16)), World.later)
    ∧ positions_ptr (some ((create_statement_list World.init).1.setData
          (.stmt_list (.heap 1) (.heap 2) [some (sample_decl World.later)] 16)))
        ++ positions_list (dropped_by_append (some (create_statement_list World.init).1)
            (some (sample_decl World.later)))
      = positions_ptr (some (create_statement_list World.init).1)
        ++ positions_ptr (some (sample_decl World.later)) :=
  ⟨rfl, ((C18_position_is_cursor "" none none none none 0 World.later).2.2.2.2.2.2.2.2.2.2.2.2.2.2.2.2.2.2.2.2.2.2.2.2.2.2.2.2.2.2.2.2.2.2.2.2
      (some (create_statement_list World.init).1) (some (sample_decl World.later)) _ _ rfl).1⟩

/-! ### The printer: the text written for the kinds -/

theorem print_indent_nat (d : Nat) : print_indent (d : Int) = spaces (2 * d) := rfl

theorem print_indent_nat_succ (d : Nat) : print_indent ((d : Int) + 1) = spaces (2 * (d + 1)) := by
  have : ((d : Int) + 1).toNat = d + 1 := by omega
  simp only [print_indent, spaces, this]

theorem print_indent_nat_two (d : Nat) : print_indent ((d : Int) + 2) = spaces (2 * (d + 2)) := by
  have : ((d : Int) + 2).toNat = d + 2 := by omega
  simp only [print_indent, spaces, this]

theorem literal_line_inj (d : Nat) (k a b : String)
    (h : spaces (2 * d) ++ k ++ a ++ "\n" = spaces (2 * d) ++ k ++ b ++ "\n") : a = b := by
  have h1 := congrArg String.data h
  simp only [String.data_append, List.append_assoc] at h1
  have h2 := List.append_cancel_left (List.append_cancel_left h1)
  exact String.ext (List.append_cancel_right h2)

/-- C19: `create_number_literal(s)` and `create_string_literal(s)` store the
text s itself, and `print_ast` at depth d writes 2*d spaces, "Literal (number) "
or "Literal (string) ", the text s and a newline; different texts print
differently, so "1.0", "1" and "0x1" do. -/
theorem C19_literal_text_verbatim (s : String) (w : World) (d : Nat) :
    (∃ (blk : Addr) (v : CStr), v.text = s
      ∧ (create_number_literal s w).1.data = .literal blk .LIT_NUMBER (.string v))
    ∧ (∃ (blk : Addr) (v : CStr), v.text = s
      ∧ (create_string_literal s w).1.data = .literal blk .LIT_STRING (.string v))
    ∧ print_ast (some (create_number_literal s w).1) d
        = some (spaces (2 * d) ++ "Literal (number) " ++ s ++ "\n")
    ∧ print_ast (some (create_string_literal s w).1) d
        = some (spaces (2 * d) ++ "Literal (string) " ++ s ++ "\n")
    ∧ (∀ (t : String) (v : World),
        print_ast (some (create_number_literal s w).1) d
          = print_ast (some (create_number_literal t v).1) d → s = t)
    ∧ (∀ (t : String) (v : World),
        print_ast (some (create_string_literal s w).1) d
          = print_ast (some (create_string_literal t v).1) d → s = t)
    ∧ print_ast (some (create_number_literal "1.0" w).1) d
        ≠ print_ast (some (create_number_literal "1" w).1) d
    ∧ print_ast (some (create_number_literal "1.0" w).1) d
        ≠ print_ast (some (create_number_literal "0x1" w).1) d
    ∧ print_ast (some (create_number_literal "1" w).1) d
        ≠ print_ast (some (create_number_literal "0x1" w).1) d := by
  have hn : ∀ (t : String) (v : World), print_ast (some (create_number_literal t v).1) d
      = some (spaces (2 * d) ++ "Literal (number) " ++ t ++ "\n") := by
    intro t v
    simp only [create_number_literal, create_node, malloc, strdup, ASTNode.setData, print_ast,
      print_node, node_type_name, print_indent_nat, String.append_assoc]
    rfl
  have hst : ∀ (t : String) (v : World), print_ast (some (create_string_literal t v).1) d
      = some (spaces (2 * d) ++ "Literal (string) " ++ t ++ "\n") := by
    intro t v
    simp only [create_string_literal, create_node, malloc, strdup, ASTNode.setData, print_ast,
      print_node, node_type_name, print_indent_nat, String.append_assoc]
    rfl
  have inj : ∀ a b : String, print_ast (some (create_number_literal a w).1) d
      = print_ast (some (create_number_literal b w).1) d → a = b := by
    intro a b h
    rw [hn, hn] at h
    exact literal_line_inj d _ a b (Option.some.inj h)
  refine ⟨⟨_, _, rfl, rfl⟩, ⟨_, _, rfl, rfl⟩, hn s w, hst s w, ?_, ?_, ?_, ?_, ?_⟩
  · intro t v h
    rw [hn, hn] at h
    exact literal_line_inj d _ s t (Option.some.inj h)
  · intro t v h
    rw [hst, hst] at h
    exact literal_line_inj d _ s t (Option.some.inj h)
  · intro h
    exact absurd (inj _ _ h) (by decide)
  · intro h
    exact absurd (inj _ _ h) (by decide)
  · intro h
    exact absurd (inj _ _ h) (by decide)

/-- C19 for the texts `1` and `1.0` at depth 1. -/
theorem C19_literal_text_verbatim_witness :
    print_ast (some (create_number_literal "1" World.init).1) 1
      = print_ast (some (create_number_literal "1" World.later).1) 1
    ∧ "1" = "1" :=
  ⟨rfl, (C19_literal_text_verbatim "1" World.init 1).2.2.2.2.1 "1" World.later rfl⟩

/-! ### Trees made by builder calls only -/

theorem each_list_append (Q : ASTNode → Prop) (xs ys : List Ptr) :
    each_list Q (xs ++ ys) ↔ each_list Q xs ∧ each_list Q ys := by
  induction xs with
  | nil => simp [each_list]
  | cons x xs ih => simp [each_list, ih, and_assoc]

theorem each_node_mono {Q R : ASTNode → Prop} (hQR : ∀ n, Q n → R n) (n : ASTNode) :
    each_node Q n → each_node R n := by
  refine @ASTNode.rec
    (fun n => each_node Q n → each_node R n)
    (fun dt => each_data Q dt → each_data R dt)
    (fun p => each_ptr Q p → each_ptr R p)
    (fun ps => each_list Q ps → each_list R ps)
    ?_ ?_ ?_ ?_ ?_ ?_ ?_ ?_ ?_ ?_ ?_ ?_ ?_ ?_ ?_ ?_ ?_ ?_ ?_ ?_ ?_ ?_ ?_ n
  case refine_1 =>
    intro t l c a data ih h
    exact ⟨hQR _ h.1, ih h.2⟩
  all_goals
    (intros)
    simp only [each_data, each_ptr, each_list] at *
    try tauto

theorem each_ptr_mono {Q R : ASTNode → Prop} (hQR : ∀ n, Q n → R n) (p : Ptr) :
    each_ptr Q p → each_ptr R p := by
  cases p with
  | none => exact fun h => h
  | some n => exact each_node_mono hQR n

theorem made_nil : (∀ p ∈ ([] : List Ptr), Made p) ∧ ∀ q ∈ ([] : List Ptr), Made q :=
  ⟨fun _ h => absurd h (List.not_mem_nil _), fun _ h => absurd h (List.not_mem_nil _)⟩

theorem made_with_arg {b : Build} {w : World} {ps dacc : List Ptr}
    {k : Ptr → World → List Ptr → Option Built} {x : Built}
    (ih : ∀ w p w1 dr, b.run w = some (p, w1, dr) → Made p ∧ ∀ q ∈ dr, Made q)
    (g : (∀ p ∈ ps, Made p) ∧ ∀ q ∈ dacc, Made q)
    (hk : ∀ p w1 d, ((∀ q ∈ ps ++ [p], Made q) ∧ ∀ q ∈ dacc ++ d, Made q) →
      k p w1 (dacc ++ d) = some x → Made x.1 ∧ ∀ q ∈ x.2.2, Made q)
    (h : with_arg (b.run w) dacc k = some x) : Made x.1 ∧ ∀ q ∈ x.2.2, Made q := by
  unfold with_arg at h
  cases hb : b.run w with
  | none => rw [hb] at h; exact Option.noConfusion h
  | some r =>
    obtain ⟨p, w1, d⟩ := r
    rw [hb] at h
    have := ih w p w1 d hb
    refine hk p w1 d ⟨?_, ?_⟩ h
    · intro q hq
      rcases List.mem_append.1 hq with hq | hq
      · exact g.1 q hq
      · rw [List.mem_singleton.1 hq]; exact this.1
    · intro q hq
      rcases List.mem_append.1 hq with hq | hq
      · exact g.2 q hq
      · exact this.2 q hq

theorem made_append {pl ps : Ptr} {w : World} {d : List Ptr} {x : Built}
    (g : (∀ q ∈ [pl, ps], Made q) ∧ ∀ q ∈ d, Made q)
    (h : (match append_statement pl ps w with
          | none => none
          | some (r, w1) => some (r, w1, d ++ dropped_by_append pl ps)) = some x) :
    Made x.1 ∧ ∀ q ∈ x.2.2, Made q := by
  have hl : Made pl := g.1 pl (by simp)
  have hs : Made ps := g.1 ps (by simp)
  have hd := g.2
  have hdrop : ∀ q ∈ d ++ dropped_by_append pl ps, Made q := by
    intro q hq
    rcases List.mem_append.1 hq with hq | hq
    · exact hd q hq
    · unfold dropped_by_append at hq
      split at hq
      · split at hq
        · rw [List.mem_singleton.1 hq]; exact hs
        · exact absurd hq (List.not_mem_nil _)
      · exact absurd hq (List.not_mem_nil _)
  cases hr : append_statement pl ps w with
  | none => rw [hr] at h; exact Option.noConfusion h
  | some r =>
    obtain ⟨r, w1⟩ := r
    rw [hr] at h
    simp only [Option.some.injEq] at h
    subst h
    refine ⟨?_, hdrop⟩
    show Made r
    cases pl with
    | none =>
      simp only [append_statement, Option.some.injEq, Prod.mk.injEq] at hr
      rw [← hr.1]; exact hs
    | some l =>
      cases ps with
      | none =>
        simp only [append_statement, Option.some.injEq, Prod.mk.injEq] at hr
        rw [← hr.1]; exact hl
      | some s =>
        obtain ⟨t, ln, col, ad, dt⟩ := l
        by_cases ht : t = .NODE_STATEMENT_LIST
        · subst ht
          cases dt with
          | stmt_list blk arr sts cap =>
            have hl1 : ((∀ p ∈ sts, p ≠ none) ∧ (sts.length : Int) ≤ cap
                ∧ ∃ k : Nat, cap = 16 * 2 ^ k) ∧ each_list built_node sts := hl
            obtain ⟨⟨hnn, hlen, k, hk⟩, hitems⟩ := hl1
            have hitems2 : each_list built_node (sts ++ [some s]) := by
              rw [each_list_append]
              exact ⟨hitems, by simpa [each_list, Made, each_ptr] using hs⟩
            have hnn2 : ∀ p ∈ sts ++ [some s], p ≠ none := by
              intro p hp
              rcases List.mem_append.1 hp with hp | hp
              · exact hnn p hp
              · rw [List.mem_singleton.1 hp]; exact Option.some_ne_none _
            simp only [append_statement, ASTNode.type, ASTNode.data, ASTNode.setData, ne_eq,
              not_true_eq_false, if_false, realloc] at hr
            split at hr
            · split at hr
              · exact Option.noConfusion hr
              · split at hr
                · exact Option.noConfusion hr
                · simp only [Option.some.injEq, Prod.mk.injEq] at hr
                  rw [← hr.1]
                  show ((∀ p ∈ sts ++ [some s], p ≠ none)
                    ∧ ((sts ++ [some s]).length : Int) ≤ cap * 2
                    ∧ ∃ k : Nat, cap * 2 = 16 * 2 ^ k) ∧ each_list built_node (sts ++ [some s])
                  refine ⟨⟨hnn2, ?_, k + 1, ?_⟩, hitems2⟩
                  · simp only [List.length_append, List.length_cons, List.length_nil]
                    push_cast
                    omega
                  · rw [hk, pow_succ]; ring
            · simp only [Option.some.injEq, Prod.mk.injEq] at hr
              rw [← hr.1]
              show ((∀ p ∈ sts ++ [some s], p ≠ none)
                ∧ ((sts ++ [some s]).length : Int) ≤ cap
                ∧ ∃ k : Nat, cap = 16 * 2 ^ k) ∧ each_list built_node (sts ++ [some s])
              refine ⟨⟨hnn2, ?_, k, hk⟩, hitems2⟩
              simp only [List.length_append, List.length_cons, List.length_nil]
              push_cast
              omega
          | _ =>
            simp [append_statement, ASTNode.type, ASTNode.data] at hr
        · simp only [append_statement, ASTNode.type, ne_eq, ht, not_false_eq_true, if_true,
            Option.some.injEq, Prod.mk.injEq] at hr
          rw [← hr.1]; exact hl

theorem build_made (b : Build) :
    ∀ (w : World) (p : Ptr) (w1 : World) (dr : List Ptr),
      b.run w = some (p, w1, dr) → Made p ∧ ∀ q ∈ dr, Made q := by
  induction b with
  | nil =>
    intro w p w1 dr h
    simp only [Build.run, Option.some.injEq, Prod.mk.injEq] at h
    obtain ⟨rfl, rfl, rfl⟩ := h
    exact ⟨trivial, fun _ h => absurd h (List.not_mem_nil _)⟩
  | advance line column b ih =>
    intro w p w1 dr h
    simp only [Build.run] at h
    exact ih { w with yylineno := line, yycolno := column } p w1 dr h
  | append_statement _ _ ih1 ih2 =>
    intro w p w1 dr h
    simp only [Build.run] at h
    refine made_with_arg (x := (p, w1, dr)) ih1 made_nil ?_ h
    intro pl v1 d1 g1
    refine made_with_arg ih2 g1 ?_
    intro ps v2 d2 g2 hn
    exact made_append (by simpa using g2) hn
  | create_program _ ih1 =>
    intro w p w1 dr h
    simp only [Build.run] at h
    refine made_with_arg (x := (p, w1, dr)) ih1 made_nil ?_ h
    intro p1 v1 d1 g1 hn
    simp only [after_call, Option.some.injEq, Prod.mk.injEq] at hn
    obtain ⟨rfl, rfl, rfl⟩ := hn
    have h1 : Made p1 := g1.1 p1 (by simp)
    exact ⟨⟨trivial, h1⟩, g1.2⟩
  | create_statement_list =>
    intro w p w1 dr h
    simp only [Build.run] at h
    simp only [leaf, Option.some.injEq, Prod.mk.injEq] at h
    obtain ⟨rfl, rfl, rfl⟩ := h
    exact ⟨⟨⟨fun _ h => absurd h (List.not_mem_nil _), by decide, 0, by norm_num⟩, trivial⟩, fun _ h => absurd h (List.not_mem_nil _)⟩
  | create_expression_statement _ ih1 =>
    intro w p w1 dr h
    simp only [Build.run] at h
    refine made_with_arg (x := (p, w1, dr)) ih1 made_nil ?_ h
    intro p1 v1 d1 g1 hn
    simp only [after_call, Option.some.injEq, Prod.mk.injEq] at hn
    obtain ⟨rfl, rfl, rfl⟩ := hn
    have h1 : Made p1 := g1.1 p1 (by simp)
    refine ⟨?_, g1.2⟩
    cases p1 with
    | none => exact ⟨trivial, trivial⟩
    | some n => exact ⟨trivial, h1⟩
  | create_var_declaration _ _ ih1 =>
    intro w p w1 dr h
    simp only [Build.run] at h
    refine made_with_arg (x := (p, w1, dr)) ih1 made_nil ?_ h
    intro p1 v1 d1 g1 hn
    simp only [after_call, Option.some.injEq, Prod.mk.injEq] at hn
    obtain ⟨rfl, rfl, rfl⟩ := hn
    have h1 : Made p1 := g1.1 p1 (by simp)
    exact ⟨⟨rfl, h1⟩, g1.2⟩
  | create_let_declaration _ _ ih1 =>
    intro w p w1 dr h
    simp only [Build.run] at h
    refine made_with_arg (x := (p, w1, dr)) ih1 made_nil ?_ h
    intro p1 v1 d1 g1 hn
    simp only [after_call, Option.some.injEq, Prod.mk.injEq] at hn
    obtain ⟨rfl, rfl, rfl⟩ := hn
    have h1 : Made p1 := g1.1 p1 (by simp)
    exact ⟨⟨rfl, h1⟩, g1.2⟩
  | create_const_declaration _ _ ih1 =>
    intro w p w1 dr h
    simp only [Build.run] at h
    refine made_with_arg (x := (p, w1, dr)) ih1 made_nil ?_ h
    intro p1 v1 d1 g1 hn
    simp only [after_call, Option.some.injEq, Prod.mk.injEq] at hn
    obtain ⟨rfl, rfl, rfl⟩ := hn
    have h1 : Made p1 := g1.1 p1 (by simp)
    exact ⟨⟨rfl, h1⟩, g1.2⟩
  | create_function_declaration _ _ _ ih1 ih2 =>
    intro w p w1 dr h
    simp only [Build.run] at h
    refine made_with_arg (x := (p, w1, dr)) ih1 made_nil ?_ h
    intro p1 v1 d1 g1
    refine made_with_arg ih2 g1 ?_
    intro p2 v2 d2 g2 hn
    simp only [after_call, Option.some.injEq, Prod.mk.injEq] at hn
    obtain ⟨rfl, rfl, rfl⟩ := hn
    have h1 : Made p1 := g2.1 p1 (by simp)
    have h2 : Made p2 := g2.1 p2 (by simp)
    exact ⟨⟨⟨Or.inl rfl, rfl⟩, h1, h2⟩, g2.2⟩
  | create_async_function_declaration _ _ _ ih1 ih2 =>
    intro w p w1 dr h
    simp only [Build.run] at h
    refine made_with_arg (x := (p, w1, dr)) ih1 made_nil ?_ h
    intro p1 v1 d1 g1
    refine made_with_arg ih2 g1 ?_
    intro p2 v2 d2 g2 hn
    simp only [after_call, Option.some.injEq, Prod.mk.injEq] at hn
    obtain ⟨rfl, rfl, rfl⟩ := hn
    have h1 : Made p1 := g2.1 p1 (by simp)
    have h2 : Made p2 := g2.1 p2 (by simp)
    exact ⟨⟨⟨Or.inr rfl, rfl⟩, h1, h2⟩, g2.2⟩
  | create_if_statement _ _ _ ih1 ih2 ih3 =>
    intro w p w1 dr h
    simp only [Build.run] at h
    refine made_with_arg (x := (p, w1, dr)) ih1 made_nil ?_ h
    intro p1 v1 d1 g1
    refine made_with_arg ih2 g1 ?_
    intro p2 v2 d2 g2
    refine made_with_arg ih3 g2 ?_
    intro p3 v3 d3 g3 hn
    simp only [after_call, Option.some.injEq, Prod.mk.injEq] at hn
    obtain ⟨rfl, rfl, rfl⟩ := hn
    have h1 : Made p1 := g3.1 p1 (by simp)
    have h2 : Made p2 := g3.1 p2 (by simp)
    have h3 : Made p3 := g3.1 p3 (by simp)
    exact ⟨⟨trivial, h1, h2, h3⟩, g3.2⟩
  | create_while_statement _ _ ih1 ih2 =>
    intro w p w1 dr h
    simp only [Build.run] at h
    refine made_with_arg (x := (p, w1, dr)) ih1 made_nil ?_ h
    intro p1 v1 d1 g1
    refine made_with_arg ih2 g1 ?_
    intro p2 v2 d2 g2 hn
    simp only [after_call, Option.some.injEq, Prod.mk.injEq] at hn
    obtain ⟨rfl, rfl, rfl⟩ := hn
    have h1 : Made p1 := g2.1 p1 (by simp)
    have h2 : Made p2 := g2.1 p2 (by simp)
    exact ⟨⟨trivial, h1, h2⟩, g2.2⟩
  | create_for_statement _ _ _ _ ih1 ih2 ih3 ih4 =>
    intro w p w1 dr h
    simp only [Build.run] at h
    refine made_with_arg (x := (p, w1, dr)) ih1 made_nil ?_ h
    intro p1 v1 d1 g1
    refine made_with_arg ih2 g1 ?_
    intro p2 v2 d2 g2
    refine made_with_arg ih3 g2 ?_
    intro p3 v3 d3 g3
    refine made_with_arg ih4 g3 ?_
    intro p4 v4 d4 g4 hn
    simp only [after_call, Option.some.injEq, Prod.mk.injEq] at hn
    obtain ⟨rfl, rfl, rfl⟩ := hn
    have h1 : Made p1 := g4.1 p1 (by simp)
    have h2 : Made p2 := g4.1 p2 (by simp)
    have h3 : Made p3 := g4.1 p3 (by simp)
    have h4 : Made p4 := g4.1 p4 (by simp)
    exact ⟨⟨trivial, h1, h2, h3, h4⟩, g4.2⟩
  | create_for_statement_with_var _ _ _ _ _ ih1 ih2 ih3 ih4 =>
    intro w p w1 dr h
    simp only [Build.run] at h
    refine made_with_arg (x := (p, w1, dr)) ih1 made_nil ?_ h
    intro p1 v1 d1 g1
    refine made_with_arg ih2 g1 ?_
    intro p2 v2 d2 g2
    refine made_with_arg ih3 g2 ?_
    intro p3 v3 d3 g3
    refine made_with_arg ih4 g3 ?_
    intro p4 v4 d4 g4 hn
    simp only [after_call, Option.some.injEq, Prod.mk.injEq] at hn
    obtain ⟨rfl, rfl, rfl⟩ := hn
    have h1 : Made p1 := g4.1 p1 (by simp)
    have h2 : Made p2 := g4.1 p2 (by simp)
    have h3 : Made p3 := g4.1 p3 (by simp)
    have h4 : Made p4 := g4.1 p4 (by simp)
    exact ⟨⟨trivial, ⟨rfl, h1⟩, h2, h3, h4⟩, g4.2⟩
  | create_return_statement _ ih1 =>
    intro w p w1 dr h
    simp only [Build.run] at h
    refine made_with_arg (x := (p, w1, dr)) ih1 made_nil ?_ h
    intro p1 v1 d1 g1 hn
    simp only [after_call, Option.some.injEq, Prod.mk.injEq] at hn
    obtain ⟨rfl, rfl, rfl⟩ := hn
    have h1 : Made p1 := g1.1 p1 (by simp)
    exact ⟨⟨trivial, h1⟩, g1.2⟩
  | create_break_statement _ ih1 =>
    intro w p w1 dr h
    simp only [Build.run] at h
    refine made_with_arg (x := (p, w1, dr)) ih1 made_nil ?_ h
    intro p1 v1 d1 g1 hn
    simp only [after_call, Option.some.injEq, Prod.mk.injEq] at hn
    obtain ⟨rfl, rfl, rfl⟩ := hn
    have h1 : Made p1 := g1.1 p1 (by simp)
    refine ⟨?_, g1.2⟩
    cases p1 with
    | none => exact ⟨trivial, trivial⟩
    | some n => exact ⟨trivial, h1⟩
  | create_continue_statement _ ih1 =>
    intro w p w1 dr h
    simp only [Build.run] at h
    refine made_with_arg (x := (p, w1, dr)) ih1 made_nil ?_ h
    intro p1 v1 d1 g1 hn
    simp only [after_call, Option.some.injEq, Prod.mk.injEq] at hn
    obtain ⟨rfl, rfl, rfl⟩ := hn
    have h1 : Made p1 := g1.1 p1 (by simp)
    refine ⟨?_, g1.2⟩
    cases p1 with
    | none => exact ⟨trivial, trivial⟩
    | some n => exact ⟨trivial, h1⟩
  | create_throw_statement _ ih1 =>
    intro w p w1 dr h
    simp only [Build.run] at h
    refine made_with_arg (x := (p, w1, dr)) ih1 made_nil ?_ h
    intro p1 v1 d1 g1 hn
    simp only [after_call, Option.some.injEq, Prod.mk.injEq] at hn
    obtain ⟨rfl, rfl, rfl⟩ := hn
    have h1 : Made p1 := g1.1 p1 (by simp)
    refine ⟨?_, g1.2⟩
    cases p1 with
    | none => exact ⟨trivial, trivial⟩
    | some n => exact ⟨trivial, h1⟩
  | create_block_statement _ ih1 =>
    intro w p w1 dr h
    simp only [Build.run] at h
    refine made_with_arg (x := (p, w1, dr)) ih1 made_nil ?_ h
    intro p1 v1 d1 g1 hn
    simp only [after_call, Option.some.injEq, Prod.mk.injEq] at hn
    obtain ⟨rfl, rfl, rfl⟩ := hn
    have h1 : Made p1 := g1.1 p1 (by simp)
    refine ⟨?_, g1.2⟩
    cases p1 with
    | none => exact ⟨trivial, trivial⟩
    | some n => exact ⟨trivial, h1⟩
  | create_empty_statement =>
    intro w p w1 dr h
    simp only [Build.run] at h
    simp only [leaf, Option.some.injEq, Prod.mk.injEq] at h
    obtain ⟨rfl, rfl, rfl⟩ := h
    exact ⟨⟨trivial, trivial⟩, fun _ h => absurd h (List.not_mem_nil _)⟩
  | create_binary_expression _ _ _ ih1 ih2 =>
    intro w p w1 dr h
    simp only [Build.run] at h
    refine made_with_arg (x := (p, w1, dr)) ih1 made_nil ?_ h
    intro p1 v1 d1 g1
    refine made_with_arg ih2 g1 ?_
    intro p2 v2 d2 g2 hn
    simp only [after_call, Option.some.injEq, Prod.mk.injEq] at hn
    obtain ⟨rfl, rfl, rfl⟩ := hn
    have h1 : Made p1 := g2.1 p1 (by simp)
    have h2 : Made p2 := g2.1 p2 (by simp)
    exact ⟨⟨trivial, h1, h2⟩, g2.2⟩
  | create_unary_expression _ _ ih1 =>
    intro w p w1 dr h
    simp only [Build.run] at h
    refine made_with_arg (x := (p, w1, dr)) ih1 made_nil ?_ h
    intro p1 v1 d1 g1 hn
    simp only [after_call, Option.some.injEq, Prod.mk.injEq] at hn
    obtain ⟨rfl, rfl, rfl⟩ := hn
    have h1 : Made p1 := g1.1 p1 (by simp)
    exact ⟨⟨rfl, h1⟩, g1.2⟩
  | create_update_expression _ _ _ ih1 =>
    intro w p w1 dr h
    simp only [Build.run] at h
    refine made_with_arg (x := (p, w1, dr)) ih1 made_nil ?_ h
    intro p1 v1 d1 g1 hn
    simp only [after_call, Option.some.injEq, Prod.mk.injEq] at hn
    obtain ⟨rfl, rfl, rfl⟩ := hn
    have h1 : Made p1 := g1.1 p1 (by simp)
    exact ⟨⟨trivial, h1⟩, g1.2⟩
  | create_assignment_expression _ _ _ ih1 ih2 =>
    intro w p w1 dr h
    simp only [Build.run] at h
    refine made_with_arg (x := (p, w1, dr)) ih1 made_nil ?_ h
    intro p1 v1 d1 g1
    refine made_with_arg ih2 g1 ?_
    intro p2 v2 d2 g2 hn
    simp only [after_call, Option.some.injEq, Prod.mk.injEq] at hn
    obtain ⟨rfl, rfl, rfl⟩ := hn
    have h1 : Made p1 := g2.1 p1 (by simp)
    have h2 : Made p2 := g2.1 p2 (by simp)
    exact ⟨⟨trivial, h1, h2⟩, g2.2⟩
  | create_conditional_expression _ _ _ ih1 ih2 ih3 =>
    intro w p w1 dr h
    simp only [Build.run] at h
    refine made_with_arg (x := (p, w1, dr)) ih1 made_nil ?_ h
    intro p1 v1 d1 g1
    refine made_with_arg ih2 g1 ?_
    intro p2 v2 d2 g2
    refine made_with_arg ih3 g2 ?_
    intro p3 v3 d3 g3 hn
    simp only [after_call, Option.some.injEq, Prod.mk.injEq] at hn
    obtain ⟨rfl, rfl, rfl⟩ := hn
    have h1 : Made p1 := g3.1 p1 (by simp)
    have h2 : Made p2 := g3.1 p2 (by simp)
    have h3 : Made p3 := g3.1 p3 (by simp)
    exact ⟨⟨trivial, h1, h2, h3⟩, g3.2⟩
  | create_call_expression _ _ ih1 ih2 =>
    intro w p w1 dr h
    simp only [Build.run] at h
    refine made_with_arg (x := (p, w1, dr)) ih1 made_nil ?_ h
    intro p1 v1 d1 g1
    refine made_with_arg ih2 g1 ?_
    intro p2 v2 d2 g2 hn
    simp only [after_call, Option.some.injEq, Prod.mk.injEq] at hn
    obtain ⟨rfl, rfl, rfl⟩ := hn
    have h1 : Made p1 := g2.1 p1 (by simp)
    have h2 : Made p2 := g2.1 p2 (by simp)
    exact ⟨⟨trivial, h1, h2⟩, g2.2⟩
  | create_member_expression _ _ _ ih1 ih2 =>
    intro w p w1 dr h
    simp only [Build.run] at h
    refine made_with_arg (x := (p, w1, dr)) ih1 made_nil ?_ h
    intro p1 v1 d1 g1
    refine made_with_arg ih2 g1 ?_
    intro p2 v2 d2 g2 hn
    simp only [after_call, Option.some.injEq, Prod.mk.injEq] at hn
    obtain ⟨rfl, rfl, rfl⟩ := hn
    have h1 : Made p1 := g2.1 p1 (by simp)
    have h2 : Made p2 := g2.1 p2 (by simp)
    exact ⟨⟨trivial, h1, h2⟩, g2.2⟩
  | create_new_expression _ ih1 =>
    intro w p w1 dr h
    simp only [Build.run] at h
    refine made_with_arg (x := (p, w1, dr)) ih1 made_nil ?_ h
    intro p1 v1 d1 g1 hn
    simp only [after_call, Option.some.injEq, Prod.mk.injEq] at hn
    obtain ⟨rfl, rfl, rfl⟩ := hn
    have h1 : Made p1 := g1.1 p1 (by simp)
    refine ⟨?_, g1.2⟩
    cases p1 with
    | none => exact ⟨trivial, trivial⟩
    | some n => exact ⟨trivial, h1⟩
  | create_comma_expression _ _ ih1 ih2 =>
    intro w p w1 dr h
    simp only [Build.run] at h
    refine made_with_arg (x := (p, w1, dr)) ih1 made_nil ?_ h
    intro p1 v1 d1 g1
    refine made_with_arg ih2 g1 ?_
    intro p2 v2 d2 g2 hn
    simp only [after_call, Option.some.injEq, Prod.mk.injEq] at hn
    obtain ⟨rfl, rfl, rfl⟩ := hn
    have h1 : Made p1 := g2.1 p1 (by simp)
    have h2 : Made p2 := g2.1 p2 (by simp)
    exact ⟨⟨rfl, h1, h2⟩, g2.2⟩
  | create_identifier _ =>
    intro w p w1 dr h
    simp only [Build.run] at h
    simp only [leaf, Option.some.injEq, Prod.mk.injEq] at h
    obtain ⟨rfl, rfl, rfl⟩ := h
    exact ⟨⟨trivial, trivial⟩, fun _ h => absurd h (List.not_mem_nil _)⟩
  | create_null_literal =>
    intro w p w1 dr h
    simp only [Build.run] at h
    simp only [leaf, Option.some.injEq, Prod.mk.injEq] at h
    obtain ⟨rfl, rfl, rfl⟩ := h
    exact ⟨⟨trivial, trivial⟩, fun _ h => absurd h (List.not_mem_nil _)⟩
  | create_boolean_literal _ =>
    intro w p w1 dr h
    simp only [Build.run] at h
    simp only [leaf, Option.some.injEq, Prod.mk.injEq] at h
    obtain ⟨rfl, rfl, rfl⟩ := h
    exact ⟨⟨trivial, trivial⟩, fun _ h => absurd h (List.not_mem_nil _)⟩
  | create_number_literal _ =>
    intro w p w1 dr h
    simp only [Build.run] at h
    simp only [leaf, Option.some.injEq, Prod.mk.injEq] at h
    obtain ⟨rfl, rfl, rfl⟩ := h
    exact ⟨⟨trivial, trivial⟩, fun _ h => absurd h (List.not_mem_nil _)⟩
  | create_string_literal _ =>
    intro w p w1 dr h
    simp only [Build.run] at h
    simp only [leaf, Option.some.injEq, Prod.mk.injEq] at h
    obtain ⟨rfl, rfl, rfl⟩ := h
    exact ⟨⟨trivial, trivial⟩, fun _ h => absurd h (List.not_mem_nil _)⟩
  | create_this_expression =>
    intro w p w1 dr h
    simp only [Build.run] at h
    simp only [leaf, Option.some.injEq, Prod.mk.injEq] at h
    obtain ⟨rfl, rfl, rfl⟩ := h
    exact ⟨⟨trivial, trivial⟩, fun _ h => absurd h (List.not_mem_nil _)⟩
  | create_array_expression _ ih1 =>
    intro w p w1 dr h
    simp only [Build.run] at h
    refine made_with_arg (x := (p, w1, dr)) ih1 made_nil ?_ h
    intro p1 v1 d1 g1 hn
    simp only [after_call, Option.some.injEq, Prod.mk.injEq] at hn
    obtain ⟨rfl, rfl, rfl⟩ := hn
    have h1 : Made p1 := g1.1 p1 (by simp)
    refine ⟨?_, g1.2⟩
    cases p1 with
    | none => exact ⟨trivial, trivial⟩
    | some n => exact ⟨trivial, h1⟩
  | create_object_expression _ ih1 =>
    intro w p w1 dr h
    simp only [Build.run] at h
    refine made_with_arg (x := (p, w1, dr)) ih1 made_nil ?_ h
    intro p1 v1 d1 g1 hn
    simp only [after_call, Option.some.injEq, Prod.mk.injEq] at hn
    obtain ⟨rfl, rfl, rfl⟩ := hn
    have h1 : Made p1 := g1.1 p1 (by simp)
    refine ⟨?_, g1.2⟩
    cases p1 with
    | none => exact ⟨trivial, trivial⟩
    | some n => exact ⟨trivial, h1⟩

theorem built_no_generator (n : ASTNode) (h : built_node n) : no_generator n := by
  obtain ⟨t, l, c, a, dt⟩ := n
  intro ht
  have ht1 : t = .NODE_FUNCTION_DECLARATION := ht
  subst ht1
  cases dt with
  | func_decl blk nm ps body ia ig =>
    have h1 : (ia = 0 ∨ ia = 1) ∧ ig = 0 := h
    obtain ⟨_, rfl⟩ := h1
    refine ⟨blk, nm, ps, body, ia, rfl, fun d => ?_⟩
    simp only [print_node, node_type_name, print_indent_nat]
    generalize (if ps.isSome then labelled d "Parameters:\n" (print_ast ps ((d : Int) + 2))
                  else some "") = x
    generalize labelled d "Body:\n" (print_ast body ((d : Int) + 2)) = y
    cases x <;> cases y <;>
      simp [emitAll, String.append_assoc]
  | _ => exact False.elim h

theorem option_map_self (x : Option String) : x.map (fun b => b) = x := by
  cases x <;> rfl

theorem emitAll_nil : emitAll [] = some "" := rfl

theorem emitAll_cons_bind (x : Option String) (xs : List (Option String)) :
    emitAll (x :: xs) = x.bind (fun a => (emitAll xs).map (fun b => a ++ b)) := by
  cases x with
  | none => rfl
  | some a =>
    cases h : emitAll xs with
    | none => simp [emitAll, h]
    | some s => simp [emitAll, h]

theorem section_text_eq (d : Nat) (label : String) (ch : Ptr) :
    section_text d (label, ch) = labelled d (label ++ "\n") (print_ast ch ((d : Int) + 2)) := by
  unfold section_text labelled
  cases print_ast ch ((d : Int) + 2) with
  | none => rfl
  | some s => simp [print_indent_nat_succ, String.append_assoc]

set_option maxHeartbeats 4000000 in
theorem sections_cover (d : Nat) (t : NodeType) (l c : Int) (a : Addr) (data : Data)
    (hfit : fits t data) (hch : has_child_fields t = true)
    (hdir : prints_child_directly t = false) :
    (∃ detail marker : String,
        (marker = "" ∨ marker = spaces (2 * (d + 1)) ++ "(no argument)\n"
          ∨ marker = spaces (2 * (d + 1)) ++ "(empty array)\n"
          ∨ marker = spaces (2 * (d + 1)) ++ "(empty object)\n")
        ∧ print_ast (some (.mk t l c a data)) d
          = emitAll (some (spaces (2 * d) ++ node_type_name t ++ detail ++ "\n" ++ marker)
              :: (sections_of t data).map (section_text d)))
    ∧ ∀ ch ∈ children_of data, ch ≠ none → ∃ label, (label, ch) ∈ sections_of t data := by
  cases data with
  | var_decl blk kind nm init =>
    cases t <;> first
      | exact False.elim hfit
      | exact absurd hch (by decide)
      | exact absurd hdir (by decide)
      | (obtain _ | init := init
         · refine ⟨⟨" name=" ++ nm.text, "", Or.inl rfl, ?_⟩, ?_⟩
           · show _ = emitAll (_ :: List.map (section_text d) [])
             simp only [print_ast, print_node, print_null, node_type_name, print_indent_nat,
               print_indent_nat_succ, print_indent_nat_two, List.map, section_text_eq, Option.isSome_some,
               Option.isSome_none, if_true, if_false, Bool.false_eq_true, emitAll_cons_bind, emitAll_nil,
               Option.some_bind, Option.map_some', option_map_self, String.append_assoc, String.append_empty,
               String.empty_append, String.reduceAppend]
             try rfl
           · intro ch hc hne
             show ∃ label, (label, ch) ∈ []
             simp only [children_of, List.mem_cons, List.mem_singleton, List.not_mem_nil,
               or_false] at hc
             rcases hc with rfl
             · exact absurd rfl hne
         · refine ⟨⟨" name=" ++ nm.text, "", Or.inl rfl, ?_⟩, ?_⟩
           · show _ = emitAll (_ :: List.map (section_text d) [("Initializer:", some init)])
             simp only [print_ast, print_node, print_null, node_type_name, print_indent_nat,
               print_indent_nat_succ, print_indent_nat_two, List.map, section_text_eq, Option.isSome_some,
               Option.isSome_none, if_true, if_false, Bool.false_eq_true, emitAll_cons_bind, emitAll_nil,
               Option.some_bind, Option.map_some', option_map_self, String.append_assoc, String.append_empty,
               String.empty_append, String.reduceAppend]
             try rfl
           · intro ch hc hne
             show ∃ label, (label, ch) ∈ [("Initializer:", some init)]
             simp only [children_of, List.mem_cons, List.mem_singleton, List.not_mem_nil,
               or_false] at hc
             rcases hc with rfl
             · exact ⟨_, List.mem_cons_self _ _⟩)
  | func_decl blk nm params body ia ig =>
    cases t <;> first
      | exact False.elim hfit
      | exact absurd hch (by decide)
      | exact absurd hdir (by decide)
      | (obtain _ | params := params
         · refine ⟨⟨" name=" ++ nm.text ++ (if ia ≠ 0 then " (async)" else "") ++ (if ig ≠ 0 then " (generator)" else ""), "", Or.inl rfl, ?_⟩, ?_⟩
           · show _ = emitAll (_ :: List.map (section_text d) [("Body:", body)])
             simp only [print_ast, print_node, print_null, node_type_name, print_indent_nat,
               print_indent_nat_succ, print_indent_nat_two, List.map, section_text_eq, Option.isSome_some,
               Option.isSome_none, if_true, if_false, Bool.false_eq_true, emitAll_cons_bind, emitAll_nil,
               Option.some_bind, Option.map_some', option_map_self, String.append_assoc, String.append_empty,
               String.empty_append, String.reduceAppend]
             try rfl
           · intro ch hc hne
             show ∃ label, (label, ch) ∈ [("Body:", body)]
             simp only [children_of, List.mem_cons, List.mem_singleton, List.not_mem_nil,
               or_false] at hc
             rcases hc with rfl | rfl
             · exact absurd rfl hne
             · exact ⟨_, List.mem_cons_self _ _⟩
         · refine ⟨⟨" name=" ++ nm.text ++ (if ia ≠ 0 then " (async)" else "") ++ (if ig ≠ 0 then " (generator)" else ""), "", Or.inl rfl, ?_⟩, ?_⟩
           · show _ = emitAll (_ :: List.map (section_text d) [("Parameters:", some params), ("Body:", body)])
             simp only [print_ast, print_node, print_null, node_type_name, print_indent_nat,
               print_indent_nat_succ, print_indent_nat_two, List.map, section_text_eq, Option.isSome_some,
               Option.isSome_none, if_true, if_false, Bool.false_eq_true, emitAll_cons_bind, emitAll_nil,
               Option.some_bind, Option.map_some', option_map_self, String.append_assoc, String.append_empty,
               String.empty_append, String.reduceAppend]
             try rfl
           · intro ch hc hne
             show ∃ label, (label, ch) ∈ [("Parameters:", some params), ("Body:", body)]
             simp only [children_of, List.mem_cons, List.mem_singleton, List.not_mem_nil,
               or_false] at hc
             rcases hc with rfl | rfl
             · exact ⟨_, List.mem_cons_self _ _⟩
             · exact ⟨_, List.mem_cons_of_mem _ (List.mem_cons_self _ _)⟩)
  | if_stmt blk test cons alt =>
    cases t <;> first
      | exact False.elim hfit
      | exact absurd hch (by decide)
      | exact absurd hdir (by decide)
      | (obtain _ | alt := alt
         · refine ⟨⟨"", "", Or.inl rfl, ?_⟩, ?_⟩
           · show _ = emitAll (_ :: List.map (section_text d) [("Test:", test), ("Consequent:", cons)])
             simp only [print_ast, print_node, print_null, node_type_name, print_indent_nat,
               print_indent_nat_succ, print_indent_nat_two, List.map, section_text_eq, Option.isSome_some,
               Option.isSome_none, if_true, if_false, Bool.false_eq_true, emitAll_cons_bind, emitAll_nil,
               Option.some_bind, Option.map_some', option_map_self, String.append_assoc, String.append_empty,
               String.empty_append, String.reduceAppend]
             try rfl
           · intro ch hc hne
             show ∃ label, (label, ch) ∈ [("Test:", test), ("Consequent:", cons)]
             simp only [children_of, List.mem_cons, List.mem_singleton, List.not_mem_nil,
               or_false] at hc
             rcases hc with rfl | rfl | rfl
             · exact ⟨_, List.mem_cons_self _ _⟩
             · exact ⟨_, List.mem_cons_of_mem _ (List.mem_cons_self _ _)⟩
             · exact absurd rfl hne
         · refine ⟨⟨"", "", Or.inl rfl, ?_⟩, ?_⟩
           · show _ = emitAll (_ :: List.map (section_text d) [("Test:", test), ("Consequent:", cons), ("Alternate:", some alt)])
             simp only [print_ast, print_node, print_null, node_type_name, print_indent_nat,
               print_indent_nat_succ, print_indent_nat_two, List.map, section_text_eq, Option.isSome_some,
               Option.isSome_none, if_true, if_false, Bool.false_eq_true, emitAll_cons_bind, emitAll_nil,
               Option.some_bind, Option.map_some', option_map_self, String.append_assoc, String.append_empty,
               String.empty_append, String.reduceAppend]
             try rfl
           · intro ch hc hne
             show ∃ label, (label, ch) ∈ [("Test:", test), ("Consequent:", cons), ("Alternate:", some alt)]
             simp only [children_of, List.mem_cons, List.mem_singleton, List.not_mem_nil,
               or_false] at hc
             rcases hc with rfl | rfl | rfl
             · exact ⟨_, List.mem_cons_self _ _⟩
             · exact ⟨_, List.mem_cons_of_mem _ (List.mem_cons_self _ _)⟩
             · exact ⟨_, List.mem_cons_of_mem _ (List.mem_cons_of_mem _ (List.mem_cons_self _ _))⟩)
  | while_stmt blk test body =>
    cases t <;> first
      | exact False.elim hfit
      | exact absurd hch (by decide)
      | exact absurd hdir (by decide)
      | (refine ⟨⟨"", "", Or.inl rfl, ?_⟩, ?_⟩
         · show _ = emitAll (_ :: List.map (section_text d) [("Test:", test), ("Body:", body)])
           simp only [print_ast, print_node, print_null, node_type_name, print_indent_nat,
             print_indent_nat_succ, print_indent_nat_two, List.map, section_text_eq, Option.isSome_some,
             Option.isSome_none, if_true, if_false, Bool.false_eq_true, emitAll_cons_bind, emitAll_nil,
             Option.some_bind, Option.map_some', option_map_self, String.append_assoc, String.append_empty,
             String.empty_append, String.reduceAppend]
           try rfl
         · intro ch hc hne
           show ∃ label, (label, ch) ∈ [("Test:", test), ("Body:", body)]
           simp only [children_of, List.mem_cons, List.mem_singleton, List.not_mem_nil,
             or_false] at hc
           rcases hc with rfl | rfl
           · exact ⟨_, List.mem_cons_self _ _⟩
           · exact ⟨_, List.mem_cons_of_mem _ (List.mem_cons_self _ _)⟩)
  | for_stmt blk init test update body =>
    cases t <;> first
      | exact False.elim hfit
      | exact absurd hch (by decide)
      | exact absurd hdir (by decide)
      | (obtain _ | init := init
         · obtain _ | test := test
           · obtain _ | update := update
             · refine ⟨⟨"", "", Or.inl rfl, ?_⟩, ?_⟩
               · show _ = emitAll (_ :: List.map (section_text d) [("Body:", body)])
                 simp only [print_ast, print_node, print_null, node_type_name, print_indent_nat,
                   print_indent_nat_succ, print_indent_nat_two, List.map, section_text_eq, Option.isSome_some,
                   Option.isSome_none, if_true, if_false, Bool.false_eq_true, emitAll_cons_bind, emitAll_nil,
                   Option.some_bind, Option.map_some', option_map_self, String.append_assoc, String.append_empty,
                   String.empty_append, String.reduceAppend]
                 try rfl
               · intro ch hc hne
                 show ∃ label, (label, ch) ∈ [("Body:", body)]
                 simp only [children_of, List.mem_cons, List.mem_singleton, List.not_mem_nil,
                   or_false] at hc
                 rcases hc with rfl | rfl | rfl | rfl
                 · exact absurd rfl hne
                 · exact absurd rfl hne
                 · exact absurd rfl hne
                 · exact ⟨_, List.mem_cons_self _ _⟩
             · refine ⟨⟨"", "", Or.inl rfl, ?_⟩, ?_⟩
               · show _ = emitAll (_ :: List.map (section_text d) [("Update:", some update), ("Body:", body)])
                 simp only [print_ast, print_node, print_null, node_type_name, print_indent_nat,
                   print_indent_nat_succ, print_indent_nat_two, List.map, section_text_eq, Option.isSome_some,
                   Option.isSome_none, if_true, if_false, Bool.false_eq_true, emitAll_cons_bind, emitAll_nil,
                   Option.some_bind, Option.map_some', option_map_self, String.append_assoc, String.append_empty,
                   String.empty_append, String.reduceAppend]
                 try rfl
               · intro ch hc hne
                 show ∃ label, (label, ch) ∈ [("Update:", some update), ("Body:", body)]
                 simp only [children_of, List.mem_cons, List.mem_singleton, List.not_mem_nil,
                   or_false] at hc
                 rcases hc with rfl | rfl | rfl | rfl
                 · exact absurd rfl hne
                 · exact absurd rfl hne
                 · exact ⟨_, List.mem_cons_self _ _⟩
                 · exact ⟨_, List.mem_cons_of_mem _ (List.mem_cons_self _ _)⟩
           · obtain _ | update := update
             · refine ⟨⟨"", "", Or.inl rfl, ?_⟩, ?_⟩
               · show _ = emitAll (_ :: List.map (section_text d) [("Test:", some test), ("Body:", body)])
                 simp only [print_ast, print_node, print_null, node_type_name, print_indent_nat,
                   print_indent_nat_succ, print_indent_nat_two, List.map, section_text_eq, Option.isSome_some,
                   Option.isSome_none, if_true, if_false, Bool.false_eq_true, emitAll_cons_bind, emitAll_nil,
                   Option.some_bind, Option.map_some', option_map_self, String.append_assoc, String.append_empty,
                   String.empty_append, String.reduceAppend]
                 try rfl
               · intro ch hc hne
                 show ∃ label, (label, ch) ∈ [("Test:", some test), ("Body:", body)]
                 simp only [children_of, List.mem_cons, List.mem_singleton, List.not_mem_nil,
                   or_false] at hc
                 rcases hc with rfl | rfl | rfl | rfl
                 · exact absurd rfl hne
                 · exact ⟨_, List.mem_cons_self _ _⟩
                 · exact absurd rfl hne
                 · exact ⟨_, List.mem_cons_of_mem _ (List.mem_cons_self _ _)⟩
             · refine ⟨⟨"", "", Or.inl rfl, ?_⟩, ?_⟩
               · show _ = emitAll (_ :: List.map (section_text d) [("Test:", some test), ("Update:", some update), ("Body:", body)])
                 simp only [print_ast, print_node, print_null, node_type_name, print_indent_nat,
                   print_indent_nat_succ, print_indent_nat_two, List.map, section_text_eq, Option.isSome_some,
                   Option.isSome_none, if_true, if_false, Bool.false_eq_true, emitAll_cons_bind, emitAll_nil,
                   Option.some_bind, Option.map_some', option_map_self, String.append_assoc, String.append_empty,
                   String.empty_append, String.reduceAppend]
                 try rfl
               · intro ch hc hne
                 show ∃ label, (label, ch) ∈ [("Test:", some test), ("Update:", some update), ("Body:", body)]
                 simp only [children_of, List.mem_cons, List.mem_singleton, List.not_mem_nil,
                   or_false] at hc
                 rcases hc with rfl | rfl | rfl | rfl
                 · exact absurd rfl hne
                 · exact ⟨_, List.mem_cons_self _ _⟩
                 · exact ⟨_, List.mem_cons_of_mem _ (List.mem_cons_self _ _)⟩
                 · exact ⟨_, List.mem_cons_of_mem _ (List.mem_cons_of_mem _ (List.mem_cons_self _ _))⟩
         · obtain _ | test := test
           · obtain _ | update := update
             · refine ⟨⟨"", "", Or.inl rfl, ?_⟩, ?_⟩
               · show _ = emitAll (_ :: List.map (section_text d) [("Init:", some init), ("Body:", body)])
                 simp only [print_ast, print_node, print_null, node_type_name, print_indent_nat,
                   print_indent_nat_succ, print_indent_nat_two, List.map, section_text_eq, Option.isSome_some,
                   Option.isSome_none, if_true, if_false, Bool.false_eq_true, emitAll_cons_bind, emitAll_nil,
                   Option.some_bind, Option.map_some', option_map_self, String.append_assoc, String.append_empty,
                   String.empty_append, String.reduceAppend]
                 try rfl
               · intro ch hc hne
                 show ∃ label, (label, ch) ∈ [("Init:", some init), ("Body:", body)]
                 simp only [children_of, List.mem_cons, List.mem_singleton, List.not_mem_nil,
                   or_false] at hc
                 rcases hc with rfl | rfl | rfl | rfl
                 · exact ⟨_, List.mem_cons_self _ _⟩
                 · exact absurd rfl hne
                 · exact absurd rfl hne
                 · exact ⟨_, List.mem_cons_of_mem _ (List.mem_cons_self _ _)⟩
             · refine ⟨⟨"", "", Or.inl rfl, ?_⟩, ?_⟩
               · show _ = emitAll (_ :: List.map (section_text d) [("Init:", some init), ("Update:", some update), ("Body:", body)])
                 simp only [print_ast, print_node, print_null, node_type_name, print_indent_nat,
                   print_indent_nat_succ, print_indent_nat_two, List.map, section_text_eq, Option.isSome_some,
                   Option.isSome_none, if_true, if_false, Bool.false_eq_true, emitAll_cons_bind, emitAll_nil,
                   Option.some_bind, Option.map_some', option_map_self, String.append_assoc, String.append_empty,
                   String.empty_append, String.reduceAppend]
                 try rfl
               · intro ch hc hne
                 show ∃ label, (label, ch) ∈ [("Init:", some init), ("Update:", some update), ("Body:", body)]
                 simp only [children_of, List.mem_cons, List.mem_singleton, List.not_mem_nil,
                   or_false] at hc
                 rcases hc with rfl | rfl | rfl | rfl
                 · exact ⟨_, List.mem_cons_self _ _⟩
                 · exact absurd rfl hne
                 · exact ⟨_, List.mem_cons_of_mem _ (List.mem_cons_self _ _)⟩
                 · exact ⟨_, List.mem_cons_of_mem _ (List.mem_cons_of_mem _ (List.mem_cons_self _ _))⟩
           · obtain _ | update := update
             · refine ⟨⟨"", "", Or.inl rfl, ?_⟩, ?_⟩
               · show _ = emitAll (_ :: List.map (section_text d) [("Init:", some init), ("Test:", some test), ("Body:", body)])
                 simp only [print_ast, print_node, print_null, node_type_name, print_indent_nat,
                   print_indent_nat_succ, print_indent_nat_two, List.map, section_text_eq, Option.isSome_some,
                   Option.isSome_none, if_true, if_false, Bool.false_eq_true, emitAll_cons_bind, emitAll_nil,
                   Option.some_bind, Option.map_some', option_map_self, String.append_assoc, String.append_empty,
                   String.empty_append, String.reduceAppend]
                 try rfl
               · intro ch hc hne
                 show ∃ label, (label, ch) ∈ [("Init:", some init), ("Test:", some test), ("Body:", body)]
                 simp only [children_of, List.mem_cons, List.mem_singleton, List.not_mem_nil,
                   or_false] at hc
                 rcases hc with rfl | rfl | rfl | rfl
                 · exact ⟨_, List.mem_cons_self _ _⟩
                 · exact ⟨_, List.mem_cons_of_mem _ (List.mem_cons_self _ _)⟩
                 · exact absurd rfl hne
                 · exact ⟨_, List.mem_cons_of_mem _ (List.mem_cons_of_mem _ (List.mem_cons_self _ _))⟩
             · refine ⟨⟨"", "", Or.inl rfl, ?_⟩, ?_⟩
               · show _ = emitAll (_ :: List.map (section_text d) [("Init:", some init), ("Test:", some test), ("Update:", some update), ("Body:", body)])
                 simp only [print_ast, print_node, print_null, node_type_name, print_indent_nat,
                   print_indent_nat_succ, print_indent_nat_two, List.map, section_text_eq, Option.isSome_some,
                   Option.isSome_none, if_true, if_false, Bool.false_eq_true, emitAll_cons_bind, emitAll_nil,
                   Option.some_bind, Option.map_some', option_map_self, String.append_assoc, String.append_empty,
                   String.empty_append, String.reduceAppend]
                 try rfl
               · intro ch hc hne
                 show ∃ label, (label, ch) ∈ [("Init:", some init), ("Test:", some test), ("Update:", some update), ("Body:", body)]
                 simp only [children_of, List.mem_cons, List.mem_singleton, List.not_mem_nil,
                   or_false] at hc
                 rcases hc with rfl | rfl | rfl | rfl
                 · exact ⟨_, List.mem_cons_self _ _⟩
                 · exact ⟨_, List.mem_cons_of_mem _ (List.mem_cons_self _ _)⟩
                 · exact ⟨_, List.mem_cons_of_mem _ (List.mem_cons_of_mem _ (List.mem_cons_self _ _))⟩
                 · exact ⟨_, List.mem_cons_of_mem _ (List.mem_cons_of_mem _ (List.mem_cons_of_mem _ (List.mem_cons_self _ _)))⟩)
  | return_stmt blk argument =>
    cases t <;> first
      | exact False.elim hfit
      | exact absurd hch (by decide)
      | exact absurd hdir (by decide)
      | (obtain _ | argument := argument
         · refine ⟨⟨"", spaces (2 * (d + 1)) ++ "(no argument)\n", Or.inr (Or.inl rfl), ?_⟩, ?_⟩
           · show _ = emitAll (_ :: List.map (section_text d) [])
             simp only [print_ast, print_node, print_null, node_type_name, print_indent_nat,
               print_indent_nat_succ, print_indent_nat_two, List.map, section_text_eq, Option.isSome_some,
               Option.isSome_none, if_true, if_false, Bool.false_eq_true, emitAll_cons_bind, emitAll_nil,
               Option.some_bind, Option.map_some', option_map_self, String.append_assoc, String.append_empty,
               String.empty_append, String.reduceAppend]
             try rfl
           · intro ch hc hne
             show ∃ label, (label, ch) ∈ []
             simp only [children_of, List.mem_cons, List.mem_singleton, List.not_mem_nil,
               or_false] at hc
             rcases hc with rfl
             · exact absurd rfl hne
         · refine ⟨⟨"", "", Or.inl rfl, ?_⟩, ?_⟩
           · show _ = emitAll (_ :: List.map (section_text d) [("Argument:", some argument)])
             simp only [print_ast, print_node, print_null, node_type_name, print_indent_nat,
               print_indent_nat_succ, print_indent_nat_two, List.map, section_text_eq, Option.isSome_some,
               Option.isSome_none, if_true, if_false, Bool.false_eq_true, emitAll_cons_bind, emitAll_nil,
               Option.some_bind, Option.map_some', option_map_self, String.append_assoc, String.append_empty,
               String.empty_append, String.reduceAppend]
             try rfl
           · intro ch hc hne
             show ∃ label, (label, ch) ∈ [("Argument:", some argument)]
             simp only [children_of, List.mem_cons, List.mem_singleton, List.not_mem_nil,
               or_false] at hc
             rcases hc with rfl
             · exact ⟨_, List.mem_cons_self _ _⟩)
  | binary_expr blk op left right =>
    cases t <;> first
      | exact False.elim hfit
      | exact absurd hch (by decide)
      | exact absurd hdir (by decide)
      | (refine ⟨⟨" op='" ++ op.text ++ "'", "", Or.inl rfl, ?_⟩, ?_⟩
         · show _ = emitAll (_ :: List.map (section_text d) [("Left:", left), ("Right:", right)])
           simp only [print_ast, print_node, print_null, node_type_name, print_indent_nat,
             print_indent_nat_succ, print_indent_nat_two, List.map, section_text_eq, Option.isSome_some,
             Option.isSome_none, if_true, if_false, Bool.false_eq_true, emitAll_cons_bind, emitAll_nil,
             Option.some_bind, Option.map_some', option_map_self, String.append_assoc, String.append_empty,
             String.empty_append, String.reduceAppend]
           try rfl
         · intro ch hc hne
           show ∃ label, (label, ch) ∈ [("Left:", left), ("Right:", right)]
           simp only [children_of, List.mem_cons, List.mem_singleton, List.not_mem_nil,
             or_false] at hc
           rcases hc with rfl | rfl
           · exact ⟨_, List.mem_cons_self _ _⟩
           · exact ⟨_, List.mem_cons_of_mem _ (List.mem_cons_self _ _)⟩)
  | assign_expr blk op left right =>
    cases t <;> first
      | exact False.elim hfit
      | exact absurd hch (by decide)
      | exact absurd hdir (by decide)
      | (refine ⟨⟨" op='" ++ op.text ++ "'", "", Or.inl rfl, ?_⟩, ?_⟩
         · show _ = emitAll (_ :: List.map (section_text d) [("Left:", left), ("Right:", right)])
           simp only [print_ast, print_node, print_null, node_type_name, print_indent_nat,
             print_indent_nat_succ, print_indent_nat_two, List.map, section_text_eq, Option.isSome_some,
             Option.isSome_none, if_true, if_false, Bool.false_eq_true, emitAll_cons_bind, emitAll_nil,
             Option.some_bind, Option.map_some', option_map_self, String.append_assoc, String.append_empty,
             String.empty_append, String.reduceAppend]
           try rfl
         · intro ch hc hne
           show ∃ label, (label, ch) ∈ [("Left:", left), ("Right:", right)]
           simp only [children_of, List.mem_cons, List.mem_singleton, List.not_mem_nil,
             or_false] at hc
           rcases hc with rfl | rfl
           · exact ⟨_, List.mem_cons_self _ _⟩
           · exact ⟨_, List.mem_cons_of_mem _ (List.mem_cons_self _ _)⟩)
  | unary_expr blk op argument pf =>
    cases t <;> first
      | exact False.elim hfit
      | exact absurd hch (by decide)
      | exact absurd hdir (by decide)
      | (refine ⟨⟨" op='" ++ op.text ++ "' " ++ (if pf ≠ 0 then "(prefix)" else "(postfix)"), "", Or.inl rfl, ?_⟩, ?_⟩
         · show _ = emitAll (_ :: List.map (section_text d) [("Argument:", argument)])
           simp only [print_ast, print_node, print_null, node_type_name, print_indent_nat,
             print_indent_nat_succ, print_indent_nat_two, List.map, section_text_eq, Option.isSome_some,
             Option.isSome_none, if_true, if_false, Bool.false_eq_true, emitAll_cons_bind, emitAll_nil,
             Option.some_bind, Option.map_some', option_map_self, String.append_assoc, String.append_empty,
             String.empty_append, String.reduceAppend]
           try rfl
         · intro ch hc hne
           show ∃ label, (label, ch) ∈ [("Argument:", argument)]
           simp only [children_of, List.mem_cons, List.mem_singleton, List.not_mem_nil,
             or_false] at hc
           rcases hc with rfl
           · exact ⟨_, List.mem_cons_self _ _⟩)
  | cond_expr blk test cons alt =>
    cases t <;> first
      | exact False.elim hfit
      | exact absurd hch (by decide)
      | exact absurd hdir (by decide)
      | (refine ⟨⟨"", "", Or.inl rfl, ?_⟩, ?_⟩
         · show _ = emitAll (_ :: List.map (section_text d) [("Test:", test), ("Consequent:", cons), ("Alternate:", alt)])
           simp only [print_ast, print_node, print_null, node_type_name, print_indent_nat,
             print_indent_nat_succ, print_indent_nat_two, List.map, section_text_eq, Option.isSome_some,
             Option.isSome_none, if_true, if_false, Bool.false_eq_true, emitAll_cons_bind, emitAll_nil,
             Option.some_bind, Option.map_some', option_map_self, String.append_assoc, String.append_empty,
             String.empty_append, String.reduceAppend]
           try rfl
         · intro ch hc hne
           show ∃ label, (label, ch) ∈ [("Test:", test), ("Consequent:", cons), ("Alternate:", alt)]
           simp only [children_of, List.mem_cons, List.mem_singleton, List.not_mem_nil,
             or_false] at hc
           rcases hc with rfl | rfl | rfl
           · exact ⟨_, List.mem_cons_self _ _⟩
           · exact ⟨_, List.mem_cons_of_mem _ (List.mem_cons_self _ _)⟩
           · exact ⟨_, List.mem_cons_of_mem _ (List.mem_cons_of_mem _ (List.mem_cons_self _ _))⟩)
  | call_expr blk callee arguments =>
    cases t <;> first
      | exact False.elim hfit
      | exact absurd hch (by decide)
      | exact absurd hdir (by decide)
      | (refine ⟨⟨"", "", Or.inl rfl, ?_⟩, ?_⟩
         · show _ = emitAll (_ :: List.map (section_text d) [("Callee:", callee), ("Arguments:", arguments)])
           simp only [print_ast, print_node, print_null, node_type_name, print_indent_nat,
             print_indent_nat_succ, print_indent_nat_two, List.map, section_text_eq, Option.isSome_some,
             Option.isSome_none, if_true, if_false, Bool.false_eq_true, emitAll_cons_bind, emitAll_nil,
             Option.some_bind, Option.map_some', option_map_self, String.append_assoc, String.append_empty,
             String.empty_append, String.reduceAppend]
           try rfl
         · intro ch hc hne
           show ∃ label, (label, ch) ∈ [("Callee:", callee), ("Arguments:", arguments)]
           simp only [children_of, List.mem_cons, List.mem_singleton, List.not_mem_nil,
             or_false] at hc
           rcases hc with rfl | rfl
           · exact ⟨_, List.mem_cons_self _ _⟩
           · exact ⟨_, List.mem_cons_of_mem _ (List.mem_cons_self _ _)⟩)
  | member_expr blk object property computed =>
    cases t <;> first
      | exact False.elim hfit
      | exact absurd hch (by decide)
      | exact absurd hdir (by decide)
      | (refine ⟨⟨" " ++ (if computed ≠ 0 then "(computed)" else "(dot)"), "", Or.inl rfl, ?_⟩, ?_⟩
         · show _ = emitAll (_ :: List.map (section_text d) [("Object:", object), ("Property:", property)])
           simp only [print_ast, print_node, print_null, node_type_name, print_indent_nat,
             print_indent_nat_succ, print_indent_nat_two, List.map, section_text_eq, Option.isSome_some,
             Option.isSome_none, if_true, if_false, Bool.false_eq_true, emitAll_cons_bind, emitAll_nil,
             Option.some_bind, Option.map_some', option_map_self, String.append_assoc, String.append_empty,
             String.empty_append, String.reduceAppend]
           try rfl
         · intro ch hc hne
           show ∃ label, (label, ch) ∈ [("Object:", object), ("Property:", property)]
           simp only [children_of, List.mem_cons, List.mem_singleton, List.not_mem_nil,
             or_false] at hc
           rcases hc with rfl | rfl
           · exact ⟨_, List.mem_cons_self _ _⟩
           · exact ⟨_, List.mem_cons_of_mem _ (List.mem_cons_self _ _)⟩)
  | null =>
    cases t <;> first
      | exact False.elim hfit
      | exact absurd hch (by decide)
      | exact absurd hdir (by decide)
      | (refine ⟨⟨"", "", Or.inl rfl, ?_⟩, ?_⟩
         · show _ = emitAll (_ :: List.map (section_text d) [])
           simp only [print_ast, print_node, print_null, node_type_name, print_indent_nat,
             print_indent_nat_succ, print_indent_nat_two, List.map, section_text_eq, Option.isSome_some,
             Option.isSome_none, if_true, if_false, Bool.false_eq_true, emitAll_cons_bind, emitAll_nil,
             Option.some_bind, Option.map_some', option_map_self, String.append_assoc, String.append_empty,
             String.empty_append, String.reduceAppend]
           try rfl
         · intro ch hc hne
           exact absurd hc (List.not_mem_nil _))
      | (refine ⟨⟨"", "", Or.inl rfl, ?_⟩, ?_⟩
         · show _ = emitAll (_ :: List.map (section_text d) [("Callee:", none)])
           simp only [print_ast, print_node, print_null, node_type_name, print_indent_nat,
             print_indent_nat_succ, print_indent_nat_two, List.map, section_text_eq, Option.isSome_some,
             Option.isSome_none, if_true, if_false, Bool.false_eq_true, emitAll_cons_bind, emitAll_nil,
             Option.some_bind, Option.map_some', option_map_self, String.append_assoc, String.append_empty,
             String.empty_append, String.reduceAppend]
           try rfl
         · intro ch hc hne
           exact absurd hc (List.not_mem_nil _))
      | (refine ⟨⟨"", spaces (2 * (d + 1)) ++ "(empty array)\n", Or.inr (Or.inr (Or.inl rfl)), ?_⟩, ?_⟩
         · show _ = emitAll (_ :: List.map (section_text d) [])
           simp only [print_ast, print_node, print_null, node_type_name, print_indent_nat,
             print_indent_nat_succ, print_indent_nat_two, List.map, section_text_eq, Option.isSome_some,
             Option.isSome_none, if_true, if_false, Bool.false_eq_true, emitAll_cons_bind, emitAll_nil,
             Option.some_bind, Option.map_some', option_map_self, String.append_assoc, String.append_empty,
             String.empty_append, String.reduceAppend]
           try rfl
         · intro ch hc hne
           exact absurd hc (List.not_mem_nil _))
      | (refine ⟨⟨"", spaces (2 * (d + 1)) ++ "(empty object)\n", Or.inr (Or.inr (Or.inr rfl)), ?_⟩, ?_⟩
         · show _ = emitAll (_ :: List.map (section_text d) [])
           simp only [print_ast, print_node, print_null, node_type_name, print_indent_nat,
             print_indent_nat_succ, print_indent_nat_two, List.map, section_text_eq, Option.isSome_some,
             Option.isSome_none, if_true, if_false, Bool.false_eq_true, emitAll_cons_bind, emitAll_nil,
             Option.some_bind, Option.map_some', option_map_self, String.append_assoc, String.append_empty,
             String.empty_append, String.reduceAppend]
           try rfl
         · intro ch hc hne
           exact absurd hc (List.not_mem_nil _))
  | child n =>
    cases t <;> first
      | exact False.elim hfit
      | exact absurd hch (by decide)
      | exact absurd hdir (by decide)
      | (refine ⟨⟨"", "", Or.inl rfl, ?_⟩, ?_⟩
         · show _ = emitAll (_ :: List.map (section_text d) [("Label:", some n)])
           simp only [print_ast, print_node, print_null, node_type_name, print_indent_nat,
             print_indent_nat_succ, print_indent_nat_two, List.map, section_text_eq, Option.isSome_some,
             Option.isSome_none, if_true, if_false, Bool.false_eq_true, emitAll_cons_bind, emitAll_nil,
             Option.some_bind, Option.map_some', option_map_self, String.append_assoc, String.append_empty,
             String.empty_append, String.reduceAppend]
           try rfl
         · intro ch hc hne
           show ∃ label, (label, ch) ∈ [("Label:", some n)]
           simp only [children_of, List.mem_singleton] at hc
           subst hc
           exact ⟨_, List.mem_cons_self _ _⟩)
      | (refine ⟨⟨"", "", Or.inl rfl, ?_⟩, ?_⟩
         · show _ = emitAll (_ :: List.map (section_text d) [("Callee:", some n)])
           simp only [print_ast, print_node, print_null, node_type_name, print_indent_nat,
             print_indent_nat_succ, print_indent_nat_two, List.map, section_text_eq, Option.isSome_some,
             Option.isSome_none, if_true, if_false, Bool.false_eq_true, emitAll_cons_bind, emitAll_nil,
             Option.some_bind, Option.map_some', option_map_self, String.append_assoc, String.append_empty,
             String.empty_append, String.reduceAppend]
           try rfl
         · intro ch hc hne
           show ∃ label, (label, ch) ∈ [("Callee:", some n)]
           simp only [children_of, List.mem_singleton] at hc
           subst hc
           exact ⟨_, List.mem_cons_self _ _⟩)
      | (refine ⟨⟨"", "", Or.inl rfl, ?_⟩, ?_⟩
         · show _ = emitAll (_ :: List.map (section_text d) [("Elements:", some n)])
           simp only [print_ast, print_node, print_null, node_type_name, print_indent_nat,
             print_indent_nat_succ, print_indent_nat_two, List.map, section_text_eq, Option.isSome_some,
             Option.isSome_none, if_true, if_false, Bool.false_eq_true, emitAll_cons_bind, emitAll_nil,
             Option.some_bind, Option.map_some', option_map_self, String.append_assoc, String.append_empty,
             String.empty_append, String.reduceAppend]
           try rfl
         · intro ch hc hne
           show ∃ label, (label, ch) ∈ [("Elements:", some n)]
           simp only [children_of, List.mem_singleton] at hc
           subst hc
           exact ⟨_, List.mem_cons_self _ _⟩)
      | (refine ⟨⟨"", "", Or.inl rfl, ?_⟩, ?_⟩
         · show _ = emitAll (_ :: List.map (section_text d) [("Properties:", some n)])
           simp only [print_ast, print_node, print_null, node_type_name, print_indent_nat,
             print_indent_nat_succ, print_indent_nat_two, List.map, section_text_eq, Option.isSome_some,
             Option.isSome_none, if_true, if_false, Bool.false_eq_true, emitAll_cons_bind, emitAll_nil,
             Option.some_bind, Option.map_some', option_map_self, String.append_assoc, String.append_empty,
             String.empty_append, String.reduceAppend]
           try rfl
         · intro ch hc hne
           show ∃ label, (label, ch) ∈ [("Properties:", some n)]
           simp only [children_of, List.mem_singleton] at hc
           subst hc
           exact ⟨_, List.mem_cons_self _ _⟩)
  | program blk body =>
    cases t <;> first
      | exact False.elim hfit
      | exact absurd hch (by decide)
      | exact absurd hdir (by decide)
  | stmt_list blk arr statements capacity =>
    cases t <;> first
      | exact False.elim hfit
      | exact absurd hch (by decide)
      | exact absurd hdir (by decide)
  | identifier blk nm =>
    cases t <;> first
      | exact False.elim hfit
      | exact absurd hch (by decide)
  | literal blk kind value =>
    cases t <;> first
      | exact False.elim hfit
      | exact absurd hch (by decide)

theorem freeAll_defined_cons {x : Option (List Addr)} {xs : List (Option (List Addr))}
    (h1 : ∃ a, x = some a) (h2 : ∃ b, freeAll xs = some b) : ∃ r, freeAll (x :: xs) = some r := by
  obtain ⟨a, rfl⟩ := h1
  obtain ⟨b, hb⟩ := h2
  exact ⟨a ++ b, by simp [freeAll, hb]⟩

theorem freeAll_defined_nil : ∃ r, freeAll [] = some r := ⟨[], rfl⟩

set_option maxHeartbeats 4000000 in
/-- On a well-formed tree, with nil children anywhere, `free_ast` is defined. -/
theorem free_node_defined (n : ASTNode) :
    well_formed_node n → ∃ fs, free_node n = some fs := by
  refine @ASTNode.rec
    (fun n => well_formed_node n → ∃ fs, free_node n = some fs)
    (fun dt => well_formed_data dt → ∀ t l c a, fits t dt →
      ∃ fs, free_node (.mk t l c a dt) = some fs)
    (fun p => well_formed_ptr p → ∃ fs, free_ast p = some fs)
    (fun ps => well_formed_list ps → ∃ fs, free_statements ps = some fs)
    ?_ ?_ ?_ ?_ ?_ ?_ ?_ ?_ ?_ ?_ ?_ ?_ ?_ ?_ ?_ ?_ ?_ ?_ ?_ ?_ ?_ ?_ ?_ n
  case refine_1 =>
    intro t l c a data ih h
    simp only [well_formed_node] at h
    exact ih h.2 t l c a h.1
  case refine_20 => intro _; exact ⟨_, rfl⟩
  case refine_21 =>
    intro v ih h
    simpa [free_ast] using ih (by simpa [well_formed_ptr] using h)
  case refine_22 => intro _; exact ⟨_, rfl⟩
  case refine_23 =>
    intro hd tl ih1 ih2 h
    simp only [well_formed_list] at h
    simp only [free_statements]
    exact freeAll_defined_cons (ih1 h.1) (freeAll_defined_cons (ih2 h.2) freeAll_defined_nil)
  case refine_18 =>
    intro blk kind value _ t l c a hfit
    cases t <;> first
      | exact False.elim hfit
      | exact ⟨_, rfl⟩
      | (cases kind <;> cases value <;> first | exact False.elim hfit | exact ⟨_, rfl⟩)
  all_goals
    (intros)
    intro h t _ _ _ hfit
    simp only [well_formed_data] at h
    cases t <;> first | exact False.elim hfit | exact ⟨_, rfl⟩ | skip
    all_goals simp only [free_node]
    all_goals
      repeat' first
        | exact ⟨_, rfl⟩
        | exact freeAll_defined_nil
        | apply freeAll_defined_cons
        | exact h
        | exact h.1
        | exact h.2
        | exact h.2.1
        | exact h.2.2
        | exact h.2.2.1
        | exact h.2.2.2
        | apply_assumption

theorem free_ast_defined (p : Ptr) (h : well_formed_ptr p) : ∃ fs, free_ast p = some fs := by
  cases p with
  | none => exact ⟨_, rfl⟩
  | some n => exact free_node_defined n h

theorem free_statements_releases (ps : List Ptr) (h : well_formed_list ps) :
    ∃ cs, child_releases ps cs ∧ free_statements ps = some cs.flatten := by
  induction ps with
  | nil => exact ⟨[], List.Forall₂.nil, rfl⟩
  | cons p rest ih =>
    simp only [well_formed_list] at h
    obtain ⟨fs, hfs⟩ := free_ast_defined p h.1
    obtain ⟨cs, hcs, hrest⟩ := ih h.2
    exact ⟨fs :: cs, List.Forall₂.cons hfs hcs, by simp [free_statements, freeAll, hfs, hrest]⟩

set_option maxHeartbeats 4000000 in
/-- The releases `free_ast` makes for a node other than `ThisExpression` and
`EmptyStatement`: first the strings of the payload, then what it releases for
each child in turn, then the payload record (after the item array of a list),
then the node record. -/
theorem free_node_order (t : NodeType) (l c : Int) (a : Addr) (data : Data)
    (hw : well_formed_node (.mk t l c a data))
    (h1 : t ≠ .NODE_THIS) (h2 : t ≠ .NODE_EMPTY_STATEMENT) :
    ∃ cs, child_releases (children_of data) cs
      ∧ free_node (.mk t l c a data)
          = some (strings_of data ++ cs.flatten ++ payload_blocks data ++ [a]) := by
  simp only [well_formed_node] at hw
  obtain ⟨hfit, hd⟩ := hw
  cases data with
  | program blk body =>
    simp only [well_formed_data] at hd
    obtain ⟨f1, e1⟩ := free_ast_defined body hd
    cases t <;> first
      | exact False.elim hfit
      | exact absurd rfl h1
      | exact absurd rfl h2
      | (refine ⟨[f1], (List.Forall₂.cons e1 List.Forall₂.nil), ?_⟩
         show _ = some ([] ++ List.flatten [f1] ++ [blk] ++ [a])
         simp [free_node, freeAll, e1])
  | var_decl blk kind name init =>
    simp only [well_formed_data] at hd
    obtain ⟨f1, e1⟩ := free_ast_defined init hd
    cases t <;> first
      | exact False.elim hfit
      | exact absurd rfl h1
      | exact absurd rfl h2
      | (refine ⟨[f1], (List.Forall₂.cons e1 List.Forall₂.nil), ?_⟩
         show _ = some ([name.addr] ++ List.flatten [f1] ++ [blk] ++ [a])
         simp [free_node, freeAll, e1])
  | func_decl blk name params body ia ig =>
    simp only [well_formed_data] at hd
    obtain ⟨f1, e1⟩ := free_ast_defined params hd.1
    obtain ⟨f2, e2⟩ := free_ast_defined body hd.2
    cases t <;> first
      | exact False.elim hfit
      | exact absurd rfl h1
      | exact absurd rfl h2
      | (refine ⟨[f1, f2], (List.Forall₂.cons e1 (List.Forall₂.cons e2 List.Forall₂.nil)), ?_⟩
         show _ = some ([name.addr] ++ List.flatten [f1, f2] ++ [blk] ++ [a])
         simp [free_node, freeAll, e1, e2])
  | if_stmt blk test cons alt =>
    simp only [well_formed_data] at hd
    obtain ⟨f1, e1⟩ := free_ast_defined test hd.1
    obtain ⟨f2, e2⟩ := free_ast_defined cons hd.2.1
    obtain ⟨f3, e3⟩ := free_ast_defined alt hd.2.2
    cases t <;> first
      | exact False.elim hfit
      | exact absurd rfl h1
      | exact absurd rfl h2
      | (refine ⟨[f1, f2, f3], (List.Forall₂.cons e1 (List.Forall₂.cons e2 (List.Forall₂.cons e3 List.Forall₂.nil))), ?_⟩
         show _ = some ([] ++ List.flatten [f1, f2, f3] ++ [blk] ++ [a])
         simp [free_node, freeAll, e1, e2, e3])
  | while_stmt blk test body =>
    simp only [well_formed_data] at hd
    obtain ⟨f1, e1⟩ := free_ast_defined test hd.1
    obtain ⟨f2, e2⟩ := free_ast_defined body hd.2
    cases t <;> first
      | exact False.elim hfit
      | exact absurd rfl h1
      | exact absurd rfl h2
      | (refine ⟨[f1, f2], (List.Forall₂.cons e1 (List.Forall₂.cons e2 List.Forall₂.nil)), ?_⟩
         show _ = some ([] ++ List.flatten [f1, f2] ++ [blk] ++ [a])
         simp [free_node, freeAll, e1, e2])
  | for_stmt blk init test update body =>
    simp only [well_formed_data] at hd
    obtain ⟨f1, e1⟩ := free_ast_defined init hd.1
    obtain ⟨f2, e2⟩ := free_ast_defined test hd.2.1
    obtain ⟨f3, e3⟩ := free_ast_defined update hd.2.2.1
    obtain ⟨f4, e4⟩ := free_ast_defined body hd.2.2.2
    cases t <;> first
      | exact False.elim hfit
      | exact absurd rfl h1
      | exact absurd rfl h2
      | (refine ⟨[f1, f2, f3, f4], (List.Forall₂.cons e1 (List.Forall₂.cons e2 (List.Forall₂.cons e3 (List.Forall₂.cons e4 List.Forall₂.nil)))), ?_⟩
         show _ = some ([] ++ List.flatten [f1, f2, f3, f4] ++ [blk] ++ [a])
         simp [free_node, freeAll, e1, e2, e3, e4])
  | return_stmt blk argument =>
    simp only [well_formed_data] at hd
    obtain ⟨f1, e1⟩ := free_ast_defined argument hd
    cases t <;> first
      | exact False.elim hfit
      | exact absurd rfl h1
      | exact absurd rfl h2
      | (refine ⟨[f1], (List.Forall₂.cons e1 List.Forall₂.nil), ?_⟩
         show _ = some ([] ++ List.flatten [f1] ++ [blk] ++ [a])
         simp [free_node, freeAll, e1])
  | binary_expr blk op left right =>
    simp only [well_formed_data] at hd
    obtain ⟨f1, e1⟩ := free_ast_defined left hd.1
    obtain ⟨f2, e2⟩ := free_ast_defined right hd.2
    cases t <;> first
      | exact False.elim hfit
      | exact absurd rfl h1
      | exact absurd rfl h2
      | (refine ⟨[f1, f2], (List.Forall₂.cons e1 (List.Forall₂.cons e2 List.Forall₂.nil)), ?_⟩
         show _ = some ([op.addr] ++ List.flatten [f1, f2] ++ [blk] ++ [a])
         simp [free_node, freeAll, e1, e2])
  | unary_expr blk op argument pf =>
    simp only [well_formed_data] at hd
    obtain ⟨f1, e1⟩ := free_ast_defined argument hd
    cases t <;> first
      | exact False.elim hfit
      | exact absurd rfl h1
      | exact absurd rfl h2
      | (refine ⟨[f1], (List.Forall₂.cons e1 List.Forall₂.nil), ?_⟩
         show _ = some ([op.addr] ++ List.flatten [f1] ++ [blk] ++ [a])
         simp [free_node, freeAll, e1])
  | assign_expr blk op left right =>
    simp only [well_formed_data] at hd
    obtain ⟨f1, e1⟩ := free_ast_defined left hd.1
    obtain ⟨f2, e2⟩ := free_ast_defined right hd.2
    cases t <;> first
      | exact False.elim hfit
      | exact absurd rfl h1
      | exact absurd rfl h2
      | (refine ⟨[f1, f2], (List.Forall₂.cons e1 (List.Forall₂.cons e2 List.Forall₂.nil)), ?_⟩
         show _ = some ([op.addr] ++ List.flatten [f1, f2] ++ [blk] ++ [a])
         simp [free_node, freeAll, e1, e2])
  | cond_expr blk test cons alt =>
    simp only [well_formed_data] at hd
    obtain ⟨f1, e1⟩ := free_ast_defined test hd.1
    obtain ⟨f2, e2⟩ := free_ast_defined cons hd.2.1
    obtain ⟨f3, e3⟩ := free_ast_defined alt hd.2.2
    cases t <;> first
      | exact False.elim hfit
      | exact absurd rfl h1
      | exact absurd rfl h2
      | (refine ⟨[f1, f2, f3], (List.Forall₂.cons e1 (List.Forall₂.cons e2 (List.Forall₂.cons e3 List.Forall₂.nil))), ?_⟩
         show _ = some ([] ++ List.flatten [f1, f2, f3] ++ [blk] ++ [a])
         simp [free_node, freeAll, e1, e2, e3])
  | call_expr blk callee arguments =>
    simp only [well_formed_data] at hd
    obtain ⟨f1, e1⟩ := free_ast_defined callee hd.1
    obtain ⟨f2, e2⟩ := free_ast_defined arguments hd.2
    cases t <;> first
      | exact False.elim hfit
      | exact absurd rfl h1
      | exact absurd rfl h2
      | (refine ⟨[f1, f2], (List.Forall₂.cons e1 (List.Forall₂.cons e2 List.Forall₂.nil)), ?_⟩
         show _ = some ([] ++ List.flatten [f1, f2] ++ [blk] ++ [a])
         simp [free_node, freeAll, e1, e2])
  | member_expr blk object property computed =>
    simp only [well_formed_data] at hd
    obtain ⟨f1, e1⟩ := free_ast_defined object hd.1
    obtain ⟨f2, e2⟩ := free_ast_defined property hd.2
    cases t <;> first
      | exact False.elim hfit
      | exact absurd rfl h1
      | exact absurd rfl h2
      | (refine ⟨[f1, f2], (List.Forall₂.cons e1 (List.Forall₂.cons e2 List.Forall₂.nil)), ?_⟩
         show _ = some ([] ++ List.flatten [f1, f2] ++ [blk] ++ [a])
         simp [free_node, freeAll, e1, e2])
  | stmt_list blk arr statements capacity =>
    simp only [well_formed_data] at hd
    obtain ⟨cs, hcs, e⟩ := free_statements_releases statements hd
    cases t <;> first
      | exact False.elim hfit
      | exact absurd rfl h1
      | exact absurd rfl h2
      | (refine ⟨cs, hcs, ?_⟩
         show _ = some ([] ++ List.flatten cs ++ [arr, blk] ++ [a])
         simp [free_node, freeAll, e])
  | child n =>
    simp only [well_formed_data] at hd
    obtain ⟨f1, e1⟩ := free_node_defined n hd
    cases t <;> first
      | exact False.elim hfit
      | exact absurd rfl h1
      | exact absurd rfl h2
      | (refine ⟨[f1], List.Forall₂.cons e1 List.Forall₂.nil, ?_⟩
         show _ = some ([] ++ List.flatten [f1] ++ [] ++ [a])
         simp [free_node, freeAll, e1])
  | null =>
    cases t <;> first
      | exact False.elim hfit
      | exact absurd rfl h1
      | exact absurd rfl h2
      | exact ⟨[], List.Forall₂.nil, rfl⟩
  | identifier blk name =>
    cases t <;> first
      | exact False.elim hfit
      | exact absurd rfl h1
      | exact absurd rfl h2
      | exact ⟨[], List.Forall₂.nil, rfl⟩
  | literal blk kind value =>
    cases t <;> first
      | exact False.elim hfit
      | exact absurd rfl h1
      | exact absurd rfl h2
      | (cases kind <;> cases value <;> first
          | exact False.elim hfit
          | exact ⟨[], List.Forall₂.nil, rfl⟩)

theorem getLast_append_singleton (xs : List Addr) (a : Addr) : (xs ++ [a]).getLast? = some a := by
  simp

/-! ### Exhaustive traversals: no case writes the text of the default branch -/

theorem departs_append : ∀ (c p y t : List Char), departs c p = true → c ++ y ≠ p ++ t
  | [], _, _, _, h => by simp [departs] at h
  | _ :: _, [], _, _, h => by simp [departs] at h
  | a :: as, b :: bs, y, t, h => by
    intro e
    simp only [List.cons_append, List.cons.injEq] at e
    simp only [departs, Bool.or_eq_true, bne_iff_ne, ne_eq] at h
    rcases h with h | h
    · exact h e.1
    · exact departs_append as bs y t h e.2

theorem handled_of_departs (c y : String)
    (h : departs c.data " (unhandled node type: ".data = true) : handled (c ++ y) := by
  intro tail e
  have e1 := congrArg String.data e
  simp only [String.data_append] at e1
  exact departs_append _ _ _ _ h e1

theorem digitChar_ne_u (m : Nat) (h : m < 10) : Nat.digitChar m ≠ 'u' := by
  interval_cases m <;> decide

theorem toDigitsCore_head (fuel : Nat) : ∀ (n : Nat) (ds : List Char),
    (∃ c cs, ds = c :: cs ∧ c ≠ 'u') →
    ∃ c cs, Nat.toDigitsCore 10 fuel n ds = c :: cs ∧ c ≠ 'u' := by
  induction fuel with
  | zero => intro n ds h; simpa [Nat.toDigitsCore] using h
  | succ f ih =>
    intro n ds _
    have hd : ∃ c cs, Nat.digitChar (n % 10) :: ds = c :: cs ∧ c ≠ 'u' :=
      ⟨_, _, rfl, digitChar_ne_u _ (Nat.mod_lt _ (by norm_num))⟩
    simp only [Nat.toDigitsCore]
    split
    · exact hd
    · exact ih _ _ hd

theorem fmt_d_head (n : Nat) : ∃ c cs, (fmt_d n).data = c :: cs ∧ c ≠ 'u' := by
  unfold fmt_d
  show ∃ c cs, (Nat.repr n).data = c :: cs ∧ c ≠ 'u'
  simp only [Nat.repr, Nat.toDigits, List.asString, Nat.toDigitsCore]
  have hd : ∃ c cs, [Nat.digitChar (n % 10)] = c :: cs ∧ c ≠ 'u' :=
    ⟨_, _, rfl, digitChar_ne_u _ (Nat.mod_lt _ (by norm_num))⟩
  split
  · exact hd
  · exact toDigitsCore_head _ _ _ hd

/-- What follows the label of a statement list, the count in brackets, is not
the text of the default branch. -/
theorem handled_count (n : Nat) (y : String) : handled (" (" ++ (fmt_d n ++ y)) := by
  intro tail e
  have e1 := congrArg String.data e
  obtain ⟨c, cs, hc, hu⟩ := fmt_d_head n
  simp only [String.data_append, hc] at e1
  have e2 : " (".data ++ (c :: (cs ++ y.data))
      = " (".data ++ ('u' :: ("nhandled node type: ".data ++ tail.data)) := e1
  exact hu (List.cons.inj (List.append_cancel_left e2)).1

theorem handled_ite (c : Prop) [Decidable c] (a b y : String)
    (ha : departs (" " ++ a).data " (unhandled node type: ".data = true)
    (hb : departs (" " ++ b).data " (unhandled node type: ".data = true) :
    handled (" " ++ ((if c then a else b) ++ y)) := by
  rw [← String.append_assoc]
  split
  · exact handled_of_departs _ _ ha
  · exact handled_of_departs _ _ hb

theorem handled_line (c : String)
    (h : departs c.data " (unhandled node type: ".data = true) : handled c := by
  have := handled_of_departs c "" h
  simpa using this

theorem handled_first_some (i l x : String) (hx : handled x) :
    ∃ rest : Option String, some (i ++ (l ++ x)) = rest.map (fun r => i ++ (l ++ r))
      ∧ ∀ r, rest = some r → handled r :=
  ⟨some x, rfl, fun r e => by cases e; exact hx⟩

theorem handled_first_none (i l : String) :
    ∃ rest : Option String, (none : Option String) = rest.map (fun r => i ++ (l ++ r))
      ∧ ∀ r, rest = some r → handled r :=
  ⟨none, rfl, fun r e => by cases e⟩

theorem handled_first_emitAll (i l x : String) (xs : List (Option String))
    (hx : ∀ b, handled (x ++ b)) :
    ∃ rest : Option String,
      emitAll (some (i ++ (l ++ x)) :: xs) = rest.map (fun r => i ++ (l ++ r))
      ∧ ∀ r, rest = some r → handled r := by
  cases h : emitAll xs with
  | none => exact ⟨none, by simp [emitAll, h], fun r e => by cases e⟩
  | some b =>
    exact ⟨some (x ++ b), by simp [emitAll, h, String.append_assoc],
      fun r e => by cases e; exact hx b⟩

set_option maxHeartbeats 4000000 in
/-- Whatever `print_ast` writes for a node after the indentation and the label
of its kind, it is not the text of the default branch. -/
theorem print_node_handled (t : NodeType) (l c : Int) (a : Addr) (data : Data) (d : Int) :
    ∃ rest : Option String,
      print_node (.mk t l c a data) d
        = rest.map (fun r => print_indent d ++ (node_type_name t ++ r))
      ∧ ∀ r, rest = some r → handled r := by
  cases data
  case literal blk kind value =>
    cases t
    case NODE_LITERAL =>
      cases kind <;> cases value <;> simp only [print_node, String.append_assoc] <;>
        first
        | exact handled_first_none _ _
        | exact handled_first_some _ _ _ (handled_line _ (by decide))
        | exact handled_first_some _ _ _ (handled_of_departs _ _ (by decide))
        | exact handled_first_some _ _ _ (handled_ite _ _ _ _ (by decide) (by decide))
    all_goals
      first
      | exact ⟨none, rfl, fun r e => by cases e⟩
      | (simp only [print_node, String.append_assoc]
         exact handled_first_some _ _ _ (handled_line _ (by decide)))
  all_goals
    cases t <;>
      first
      | exact ⟨none, rfl, fun r e => by cases e⟩
      | (simp only [print_node, String.append_assoc]
         first
         | exact handled_first_some _ _ _ (handled_line _ (by decide))
         | exact handled_first_some _ _ _ (handled_of_departs _ _ (by decide))
         | exact handled_first_emitAll _ _ _ _ (fun b => handled_of_departs _ _ (by decide))
         | exact handled_first_emitAll _ _ _ _ (fun b => by
             rw [String.append_assoc]; exact handled_of_departs _ _ (by decide))
         | exact handled_first_emitAll _ _ _ _ (fun b => by
             rw [String.append_assoc, String.append_assoc]; exact handled_count _ _)
         | exact handled_first_emitAll _ _ _ _ (fun b => by
             rw [String.append_assoc, String.append_assoc]
             exact handled_ite _ _ _ _ (by decide) (by decide)))

theorem child_releases_mem (children : List Ptr) (cs : List (List Addr))
    (h : child_releases children cs) :
    ∀ ch ∈ children, ∃ gs, free_ast ch = some gs ∧ ∀ b ∈ gs, b ∈ cs.flatten := by
  unfold child_releases at h
  induction h with
  | nil => intro ch hch; cases hch
  | cons e _ ih =>
    intro ch hch
    rcases List.mem_cons.1 hch with rfl | hch
    · exact ⟨_, e, fun b hb => by simp [hb]⟩
    · obtain ⟨gs, e1, e2⟩ := ih ch hch
      exact ⟨gs, e1, fun b hb => by simp [e2 b hb]⟩

theorem sample_of_kind_ok (t : NodeType) :
    (sample_of_kind t).type = t ∧ well_formed_node (sample_of_kind t)
    ∧ (t ≠ .NODE_THIS → t ≠ .NODE_EMPTY_STATEMENT → (sample_of_kind t).data ≠ .null) := by
  cases t <;> refine ⟨rfl, ?_, ?_⟩ <;>
    first
    | exact ⟨trivial, trivial⟩
    | exact ⟨trivial, trivial, trivial⟩
    | exact ⟨trivial, trivial, trivial, trivial⟩
    | exact ⟨trivial, trivial, trivial, trivial, trivial⟩
    | exact fun h => absurd rfl h
    | exact fun _ h => absurd rfl h
    | exact fun _ _ h => Data.noConfusion h

/-- C22: on a well-formed node other than `ThisExpression` and
`EmptyStatement`, the releases `free_ast` makes are, in this order: the owned
strings of the node, what `free_ast` releases for each child in turn, the
payload record (after the item array, for a list), and last the node record;
on a `ThisExpression` or `EmptyStatement` node it releases the node record and
nothing else; on nil it releases nothing. -/
theorem C22_release_order (n : ASTNode) (hw : well_formed_node n) :
    (n.type ≠ .NODE_THIS → n.type ≠ .NODE_EMPTY_STATEMENT →
      ∃ cs, child_releases (children_of n.data) cs
        ∧ free_ast (some n)
            = some (strings_of n.data ++ cs.flatten ++ payload_blocks n.data ++ [n.addr]))
    ∧ (∀ (l c : Int) (a : Addr) (data : Data),
        free_ast (some (.mk .NODE_THIS l c a data)) = some [a]
        ∧ free_ast (some (.mk .NODE_EMPTY_STATEMENT l c a data)) = some [a])
    ∧ free_ast none = some [] := by
  refine ⟨?_, fun l c a data => ⟨rfl, rfl⟩, rfl⟩
  obtain ⟨t, l, c, a, data⟩ := n
  intro h1 h2
  exact free_node_order t l c a data hw h1 h2

/-- C22 at the declaration `var x = 5`: the name, the three blocks of the
literal, the declaration record, the node record. -/
theorem C22_release_order_witness :
    well_formed_node (sample_decl World.init)
    ∧ free_ast (some (sample_decl World.init))
        = some [.heap 5, .heap 2, .heap 1, .heap 0, .heap 4, .heap 3]
    ∧ ∃ cs, child_releases (children_of (sample_decl World.init).data) cs
        ∧ free_ast (some (sample_decl World.init))
            = some (strings_of (sample_decl World.init).data ++ cs.flatten
                ++ payload_blocks (sample_decl World.init).data
                ++ [(sample_decl World.init).addr]) :=
  have hw : well_formed_node (sample_decl World.init) := ⟨trivial, trivial, trivial⟩
  ⟨hw, rfl, (C22_release_order (sample_decl World.init) hw).1 (by decide) (by decide)⟩

/-! ### The driver: exit status and calls on the tree -/

theorem input_file_cons_flag (arg : String) (rest : List String)
    (h : is_verbose_flag arg ∨ is_help_flag arg) : input_file (arg :: rest) = input_file rest := by
  unfold input_file
  rw [List.filter_cons_of_neg]
  simp only [decide_eq_true_eq, not_and, not_not]
  intro hv
  rcases h with h | h
  · exact absurd h hv
  · exact h

theorem input_file_cons_name (arg : String) (rest : List String)
    (hv : ¬ is_verbose_flag arg) (hh : ¬ is_help_flag arg) :
    input_file (arg :: rest)
      = match input_file rest with
        | some g => some g
        | none => some arg := by
  unfold input_file
  rw [List.filter_cons_of_pos (by simp [hv, hh])]
  cases hl : (List.filter (fun a => decide (¬ is_verbose_flag a ∧ ¬ is_help_flag a)) rest) with
  | nil => rfl
  | cons x xs =>
    obtain ⟨g, hg⟩ : ∃ g, (x :: xs).getLast? = some g :=
      ⟨_, List.getLast?_eq_getLast _ (List.cons_ne_nil _ _)⟩
    rw [List.getLast?_cons_cons, hg]

/-- What the argument loop of `main` leaves in `verbose` and `filename`. -/
theorem scan_args_result (prog : String) (args : List String) :
    ∀ (v : Int) (f : Option String),
      ((∃ a ∈ args, is_help_flag a) → (scan_args prog args v f).2 = none)
      ∧ ((∀ a ∈ args, ¬ is_help_flag a) →
          ∃ v1, (scan_args prog args v f).2
              = some (v1, match input_file args with
                          | some g => some g
                          | none => f)
            ∧ (v1 ≠ 0 ↔ v ≠ 0 ∨ ∃ a ∈ args, is_verbose_flag a)) := by
  induction args with
  | nil =>
    intro v f
    refine ⟨fun ⟨a, ha, _⟩ => absurd ha (List.not_mem_nil a), fun _ => ⟨v, rfl, ?_⟩⟩
    simp
  | cons arg rest ih =>
    intro v f
    by_cases hv : is_verbose_flag arg
    · have hnh : ¬ is_help_flag arg := by
        unfold is_verbose_flag at hv
        unfold is_help_flag
        rcases hv with rfl | rfl <;> decide
      have e : scan_args prog (arg :: rest) v f = scan_args prog rest 1 f := by
        unfold is_verbose_flag at hv
        simp only [scan_args, hv, if_true]
      rw [e, input_file_cons_flag arg rest (Or.inl hv)]
      obtain ⟨ih1, ih2⟩ := ih 1 f
      refine ⟨?_, ?_⟩
      · rintro ⟨a, ha, hha⟩
        rcases List.mem_cons.1 ha with rfl | ha
        · exact absurd hha hnh
        · exact ih1 ⟨a, ha, hha⟩
      · intro hall
        obtain ⟨v1, e1, hv1⟩ := ih2 (fun a ha => hall a (List.mem_cons_of_mem _ ha))
        refine ⟨v1, e1, ?_⟩
        constructor
        · intro _
          exact Or.inr ⟨arg, List.mem_cons_self _ _, hv⟩
        · intro _
          exact hv1.2 (Or.inl (by decide))
    · by_cases hh : is_help_flag arg
      · have e : (scan_args prog (arg :: rest) v f).2 = none := by
          unfold is_verbose_flag at hv
          unfold is_help_flag at hh
          simp only [scan_args, hv, hh, if_true, if_false]
        refine ⟨fun _ => e, fun hall => absurd hh (hall arg (List.mem_cons_self _ _))⟩
      · have e : scan_args prog (arg :: rest) v f = scan_args prog rest v (some arg) := by
          unfold is_verbose_flag at hv
          unfold is_help_flag at hh
          simp only [scan_args, hv, hh, if_false]
        rw [e, input_file_cons_name arg rest hv hh]
        obtain ⟨ih1, ih2⟩ := ih v (some arg)
        refine ⟨?_, ?_⟩
        · rintro ⟨a, ha, hha⟩
          rcases List.mem_cons.1 ha with rfl | ha
          · exact absurd hha hh
          · exact ih1 ⟨a, ha, hha⟩
        · intro hall
          obtain ⟨v1, e1, hv1⟩ := ih2 (fun a ha => hall a (List.mem_cons_of_mem _ ha))
          refine ⟨v1, ?_, ?_⟩
          · rw [e1]
            cases input_file rest <;> rfl
          · rw [hv1]
            constructor
            · rintro (h | ⟨a, ha, hva⟩)
              · exact Or.inl h
              · exact Or.inr ⟨a, List.mem_cons_of_mem _ ha, hva⟩
            · rintro (h | ⟨a, ha, hva⟩)
              · exact Or.inl h
              · rcases List.mem_cons.1 ha with rfl | ha
                · exact absurd hva hv
                · exact Or.inr ⟨a, ha, hva⟩

theorem parse_ok_iff (p : Parsed) :
    (p.result = 0 ∧ p.parse_error_count = 0 ∧ p.root.isSome = true) ↔ parse_ok p := by
  unfold parse_ok
  rw [Option.isSome_iff_ne_none]

/-- The exit status of `main`, and the calls it makes on the tree, by the
shape of the argument list. -/
theorem main_cases (env : Env) (prog : String) (args : List String) :
    ((∃ a ∈ args, is_help_flag a) → (main env prog args).1 = 0)
    ∧ ((∀ a ∈ args, ¬ is_help_flag a) → input_file args = none → (main env prog args).1 = 1)
    ∧ (∀ f, (∀ a ∈ args, ¬ is_help_flag a) → input_file args = some f → env.file f = none →
        (main env prog args).1 = 1)
    ∧ (∀ f input, (∀ a ∈ args, ¬ is_help_flag a) → input_file args = some f →
        env.file f = some input →
        (parse_ok (env.parse input) → (main env prog args).1 = 0)
        ∧ (¬ parse_ok (env.parse input) → (main env prog args).1 = 1)
        ∧ (parse_ok (env.parse input) → (∃ a ∈ args, is_verbose_flag a) →
            tree_calls (main env prog args).2
              = [.print_ast (env.parse input).root 0, .free_ast (env.parse input).root])
        ∧ (¬ (parse_ok (env.parse input) ∧ ∃ a ∈ args, is_verbose_flag a) →
            (env.parse input).root ≠ none →
            tree_calls (main env prog args).2 = [.free_ast (env.parse input).root])
        ∧ ((env.parse input).root = none → tree_calls (main env prog args).2 = [])) := by
  obtain ⟨s1, s2⟩ := scan_args_result prog args 0 none
  have hlen : ∀ a ∈ args, ¬ ((args.length : Int) + 1 < 2) := by
    intro a ha
    cases args with
    | nil => exact absurd ha (List.not_mem_nil a)
    | cons x xs => simp only [List.length_cons]; push_cast; omega
  refine ⟨?_, ?_, ?_, ?_⟩
  · rintro ⟨a, ha, hha⟩
    have e := s1 ⟨a, ha, hha⟩
    cases h : scan_args prog args 0 none with
    | mk acts r =>
      rw [h] at e
      simp only at e
      subst e
      simp only [main, hlen a ha, if_false, h]
  · intro hall hnone
    cases args with
    | nil => rfl
    | cons x xs =>
      obtain ⟨v1, e, _⟩ := s2 hall
      rw [hnone] at e
      cases h : scan_args prog (x :: xs) 0 none with
      | mk acts r =>
        rw [h] at e
        simp only at e
        subst e
        simp only [main, hlen x (List.mem_cons_self _ _), if_false, h]
  · intro f hall hf hfile
    cases args with
    | nil => exact absurd hf (by simp [input_file])
    | cons x xs =>
      obtain ⟨v1, e, _⟩ := s2 hall
      rw [hf] at e
      cases h : scan_args prog (x :: xs) 0 none with
      | mk acts r =>
        rw [h] at e
        simp only at e
        subst e
        simp only [main, hlen x (List.mem_cons_self _ _), if_false, h, read_file, hfile]
  · intro f input hall hf hfile
    cases args with
    | nil => exact absurd hf (by simp [input_file])
    | cons x xs =>
      obtain ⟨v1, e, hv1⟩ := s2 hall
      rw [hf] at e
      have hv2 : v1 ≠ 0 ↔ ∃ a ∈ x :: xs, is_verbose_flag a := by
        rw [hv1]
        simp
      cases h : scan_args prog (x :: xs) 0 none with
      | mk acts r =>
        rw [h] at e
        simp only at e
        subst e
        have hm : main env prog (x :: xs)
            = (let p := env.parse input
               if p.result = 0 ∧ p.parse_error_count = 0 ∧ p.root.isSome then
                (0, [.init_lexer input, .stdout ("Parsing '" ++ f ++ "'...\n"), .yyparse,
                     .stdout "✓ Parsing successful!\n",
                     .stdout ("  Total lines: " ++ fmt_int p.yylineno ++ "\n")]
                    ++ (if v1 ≠ 0 then
                          [.stdout "\n=== Abstract Syntax Tree ===\n", .print_ast p.root 0]
                        else [])
                    ++ [.free_ast p.root, .free_input])
              else
                (1, [.init_lexer input, .stdout ("Parsing '" ++ f ++ "'...\n"), .yyparse,
                     .stdout ("✗ Parsing failed with "
                       ++ fmt_int (if p.parse_error_count > 0 then p.parse_error_count else 1)
                       ++ " error(s)\n")]
                    ++ (if p.root.isSome then [.free_ast p.root] else [])
                    ++ [.free_input])) := by
          simp only [main, hlen x (List.mem_cons_self _ _), if_false, h, read_file, hfile]
        rw [hm]
        by_cases hok : parse_ok (env.parse input)
        · have hc := (parse_ok_iff _).2 hok
          simp only [hc, and_self, if_true]
          refine ⟨fun _ => trivial, fun h => absurd hok h, ?_, ?_, ?_⟩
          · intro _ hverb
            have : v1 ≠ 0 := hv2.2 hverb
            simp [this, tree_calls]
          · intro hn _
            have : ¬ v1 ≠ 0 := fun h => hn ⟨hok, hv2.1 h⟩
            simp [this, tree_calls]
          · intro hroot
            exact absurd hroot hok.2.2
        · have hc : ¬ ((env.parse input).result = 0 ∧ (env.parse input).parse_error_count = 0
              ∧ (env.parse input).root.isSome = true) := fun h => hok ((parse_ok_iff _).1 h)
          simp only [hc, if_false]
          refine ⟨fun h => absurd h hok, fun _ => trivial, fun h => absurd h hok, ?_, ?_⟩
          · intro _ hroot
            have : (env.parse input).root.isSome = true := Option.isSome_iff_ne_none.2 hroot
            simp [this, tree_calls]
          · intro hroot
            simp [hroot, tree_calls]

theorem main_status (env : Env) (prog : String) (args : List String) :
    ((main env prog args).1 = 0 ∨ (main env prog args).1 = 1)
    ∧ ((main env prog args).1 = 0 ↔
        (∃ a ∈ args, is_help_flag a)
        ∨ ∃ f input, input_file args = some f ∧ env.file f = some input
            ∧ parse_ok (env.parse input)) := by
  obtain ⟨m1, m2, m3, m4⟩ := main_cases env prog args
  by_cases hh : ∃ a ∈ args, is_help_flag a
  · exact ⟨Or.inl (m1 hh), fun _ => Or.inl hh, fun _ => m1 hh⟩
  · have hall : ∀ a ∈ args, ¬ is_help_flag a := fun a ha h => hh ⟨a, ha, h⟩
    cases hf : input_file args with
    | none =>
      have e := m2 hall hf
      refine ⟨Or.inr e, fun h => ?_, ?_⟩
      · rw [e] at h
        exact absurd h (by decide)
      · rintro (h | ⟨f, input, h, _⟩)
        · exact absurd h hh
        · exact Option.noConfusion h
    | some f =>
      cases hfile : env.file f with
      | none =>
        have e := m3 f hall hf hfile
        refine ⟨Or.inr e, fun h => ?_, ?_⟩
        · rw [e] at h
          exact absurd h (by decide)
        · rintro (h | ⟨g, input, h, h2, _⟩)
          · exact absurd h hh
          · cases h
            rw [hfile] at h2
            exact Option.noConfusion h2
      | some input =>
        obtain ⟨a1, a2, _⟩ := m4 f input hall hf hfile
        by_cases hok : parse_ok (env.parse input)
        · exact ⟨Or.inl (a1 hok), fun _ => Or.inr ⟨f, input, rfl, hfile, hok⟩, fun _ => a1 hok⟩
        · have e := a2 hok
          refine ⟨Or.inr e, fun h => ?_, ?_⟩
          · rw [e] at h
            exact absurd h (by decide)
          · rintro (h | ⟨g, input1, h, h2, h3⟩)
            · exact absurd h hh
            · cases h
              rw [hfile] at h2
              cases h2
              exact absurd h3 hok

theorem input_file_insert_verbose (xs ys : List String) (flag : String)
    (h : is_verbose_flag flag) : input_file (xs ++ flag :: ys) = input_file (xs ++ ys) := by
  unfold input_file
  rw [List.filter_append, List.filter_append, List.filter_cons_of_neg]
  simp [h]

theorem verbose_not_help (flag : String) (h : is_verbose_flag flag) : ¬ is_help_flag flag := by
  unfold is_verbose_flag at h
  unfold is_help_flag
  rcases h with rfl | rfl <;> decide

/-- C23, as stated, fails on the help flag: with no argument the exit status is
1 and with the help flag alone it is 0, although no input file was given; and
on a file that does not parse the status is 1 without the help flag and 0 with
it. -/
theorem C23_counterexample_help_flag :
    (main sample_env "js-parser" []).1 = 1
    ∧ (main sample_env "js-parser" ["-h"]).1 = 0
    ∧ input_file ["-h"] = none
    ∧ (main sample_env "js-parser" ["bad.js"]).1 = 1
    ∧ (main sample_env "js-parser" ["bad.js", "-h"]).1 = 0
    ∧ (sample_env.parse "var").result ≠ 0 := by
  decide

/-- C23, amended: the exit status of the driver is 0 or 1; it is 0 exactly when
the help flag is among the arguments, or an input file was given and read and
parsing succeeded (parser result 0, no parse error, root not nil); adding the
verbose flag anywhere in the argument list does not change it. -/
theorem C23_exit_status (env : Env) (prog : String) (args : List String) :
    ((main env prog args).1 = 0 ∨ (main env prog args).1 = 1)
    ∧ ((main env prog args).1 = 0 ↔
        (∃ a ∈ args, is_help_flag a)
        ∨ ∃ f input, input_file args = some f ∧ env.file f = some input
            ∧ parse_ok (env.parse input))
    ∧ (∀ (xs ys : List String) (flag : String), args = xs ++ ys → is_verbose_flag flag →
        (main env prog (xs ++ flag :: ys)).1 = (main env prog args).1) := by
  obtain ⟨h1, h2⟩ := main_status env prog args
  refine ⟨h1, h2, ?_⟩
  intro xs ys flag hargs hflag
  obtain ⟨g1, g2⟩ := main_status env prog (xs ++ flag :: ys)
  have hhelp : (∃ a ∈ xs ++ flag :: ys, is_help_flag a) ↔ ∃ a ∈ args, is_help_flag a := by
    subst hargs
    constructor
    · rintro ⟨a, ha, hha⟩
      simp only [List.mem_append, List.mem_cons] at ha
      rcases ha with ha | rfl | ha
      · exact ⟨a, List.mem_append.2 (Or.inl ha), hha⟩
      · exact absurd hha (verbose_not_help _ hflag)
      · exact ⟨a, List.mem_append.2 (Or.inr ha), hha⟩
    · rintro ⟨a, ha, hha⟩
      refine ⟨a, ?_, hha⟩
      simp only [List.mem_append, List.mem_cons] at ha ⊢
      tauto
  have hfile : input_file (xs ++ flag :: ys) = input_file args := by
    subst hargs
    exact input_file_insert_verbose xs ys flag hflag
  have hiff : (main env prog (xs ++ flag :: ys)).1 = 0 ↔ (main env prog args).1 = 0 := by
    rw [g2, h2, hhelp, hfile]
  rcases g1 with g | g <;> rcases h1 with h | h
  · rw [g, h]
  · rw [hiff.1 g] at h
    exact absurd h (by decide)
  · rw [hiff.2 h] at g
    exact absurd g (by decide)
  · rw [g, h]

/-- C23 for the file `ok.js` with and without the verbose flag. -/
theorem C23_exit_status_witness :
    ["ok.js"] = [] ++ ["ok.js"] ∧ is_verbose_flag "-v"
    ∧ (main sample_env "js-parser" ([] ++ "-v" :: ["ok.js"])).1
        = (main sample_env "js-parser" ["ok.js"]).1
    ∧ (main sample_env "js-parser" ["ok.js"]).1 = 0 :=
  ⟨rfl, by decide,
    (C23_exit_status sample_env "js-parser" ["ok.js"]).2.2 [] ["ok.js"] "-v" rfl (by decide),
    by decide⟩

/-- C24: on a run that gets to the end of parsing (no help flag, an input file
given and read) and finds a root that is not nil, the calls the driver makes on
the tree are `print_ast(root, 0)` followed by `free_ast(root)` when parsing
succeeded and the verbose flag was given, and the single call `free_ast(root)`
otherwise, on the success path and on the failure path alike. -/
theorem C24_teardown_once (env : Env) (prog : String) (args : List String)
    (f input : String) (hhelp : ∀ a ∈ args, ¬ is_help_flag a)
    (hf : input_file args = some f) (hfile : env.file f = some input)
    (hroot : (env.parse input).root ≠ none) :
    (parse_ok (env.parse input) ∧ (∃ a ∈ args, is_verbose_flag a) →
      tree_calls (main env prog args).2
        = [.print_ast (env.parse input).root 0, .free_ast (env.parse input).root])
    ∧ (¬ (parse_ok (env.parse input) ∧ ∃ a ∈ args, is_verbose_flag a) →
      tree_calls (main env prog args).2 = [.free_ast (env.parse input).root]) := by
  obtain ⟨_, _, a3, a4, _⟩ := (main_cases env prog args).2.2.2 f input hhelp hf hfile
  exact ⟨fun h => a3 h.1 h.2, fun h => a4 h hroot⟩

/-- C24 for the file `ok.js` with the verbose flag. -/
theorem C24_teardown_once_witness :
    (∀ a ∈ ["-v", "ok.js"], ¬ is_help_flag a)
    ∧ input_file ["-v", "ok.js"] = some "ok.js"
    ∧ sample_env.file "ok.js" = some ";"
    ∧ (sample_env.parse ";").root ≠ none
    ∧ tree_calls (main sample_env "js-parser" ["-v", "ok.js"]).2
        = [.print_ast (sample_env.parse ";").root 0, .free_ast (sample_env.parse ";").root] :=
  have hroot : (sample_env.parse ";").root ≠ none := Option.some_ne_none _
  have hok : parse_ok (sample_env.parse ";") := ⟨rfl, rfl, hroot⟩
  ⟨by decide, rfl, rfl, hroot,
    (C24_teardown_once sample_env "js-parser" ["-v", "ok.js"] "ok.js" ";" (by decide) rfl rfl
      hroot).1 ⟨hok, "-v", List.mem_cons_self _ _, Or.inl rfl⟩⟩

/-! ### Declarations, comma, unary and update expressions -/

set_option maxHeartbeats 4000000 in
theorem built_kind_agrees (n : ASTNode) (h : built_node n) : kind_agrees n := by
  obtain ⟨t, l, c, a, dt⟩ := n
  cases dt with
  | var_decl blk kind name init =>
    cases t <;> first
      | exact False.elim h
      | (have hk : kind = _ := h
         subst hk
         refine ⟨fun _ => ⟨_, _, _, _, rfl⟩, ?_⟩
         intro blk1 kind1 name1 init1 e
         simp only [ASTNode.data, Data.var_decl.injEq] at e
         obtain ⟨_, rfl, _, _⟩ := e
         refine ⟨rfl, ?_⟩
         simp [ASTNode.type])
  | _ =>
    cases t <;> first
      | exact False.elim h
      | (refine ⟨?_, ?_⟩
         · rintro (e | e | e) <;> exact NodeType.noConfusion e
         · intro blk1 kind1 name1 init1 e
           exact Data.noConfusion e)

/-- C25: `create_var_declaration`, `create_let_declaration` and
`create_const_declaration` store the kind text "var", "let" and "const" in a
node of the declaration type whose label is "VariableDeclaration(var)",
"VariableDeclaration(let)" and "VariableDeclaration(const)"; and in every tree
made by builder calls only, the items left unlinked by `append_statement`
included, every node that holds a declaration record has one of these three
kind texts, the one of its type and of its label. -/
theorem C25_declaration_kind (name : String) (init : Ptr) (w : World) :
    ((create_var_declaration name init w).1.type = .NODE_VAR_DECLARATION
      ∧ node_type_name (create_var_declaration name init w).1.type = "VariableDeclaration(var)"
      ∧ ∃ blk nm, (create_var_declaration name init w).1.data
          = .var_decl blk { addr := .static "var", text := "var" } nm init)
    ∧ ((create_let_declaration name init w).1.type = .NODE_LET_DECLARATION
      ∧ node_type_name (create_let_declaration name init w).1.type = "VariableDeclaration(let)"
      ∧ ∃ blk nm, (create_let_declaration name init w).1.data
          = .var_decl blk { addr := .static "let", text := "let" } nm init)
    ∧ ((create_const_declaration name init w).1.type = .NODE_CONST_DECLARATION
      ∧ node_type_name (create_const_declaration name init w).1.type
          = "VariableDeclaration(const)"
      ∧ ∃ blk nm, (create_const_declaration name init w).1.data
          = .var_decl blk { addr := .static "const", text := "const" } nm init)
    ∧ (∀ (b : Build) (p : Ptr) (w1 : World) (dr : List Ptr), b.run w = some (p, w1, dr) →
        each_ptr kind_agrees p ∧ ∀ q ∈ dr, each_ptr kind_agrees q) := by
  refine ⟨⟨rfl, rfl, _, _, rfl⟩, ⟨rfl, rfl, _, _, rfl⟩, ⟨rfl, rfl, _, _, rfl⟩, ?_⟩
  intro b p w1 dr hrun
  obtain ⟨hp, hd⟩ := build_made b w p w1 dr hrun
  exact ⟨each_ptr_mono built_kind_agrees p hp,
    fun q hq => each_ptr_mono built_kind_agrees q (hd q hq)⟩

/-- C25 at the program `var a; let b; const c;`. -/
theorem C25_declaration_kind_witness :
    declarations_build.run World.init = some declarations_built
    ∧ each_ptr kind_agrees declarations_built.1
    ∧ print_ast declarations_built.1 0
      = some ("Program\n  StatementList (3 statements)\n"
          ++ "    VariableDeclaration(var) name=a\n"
          ++ "    VariableDeclaration(let) name=b\n"
          ++ "    VariableDeclaration(const) name=c\n") :=
  have hrun : declarations_build.run World.init = some declarations_built := rfl
  ⟨hrun,
    ((C25_declaration_kind "a" none World.init).2.2.2 declarations_build declarations_built.1
      declarations_built.2.1 declarations_built.2.2 hrun).1, rfl⟩

theorem update_line_differs (a op b : String) :
    a ++ " op='" ++ op ++ "' " ++ "(prefix)" ++ "\n" ++ b
      ≠ a ++ " op='" ++ op ++ "' " ++ "(postfix)" ++ "\n" ++ b := by
  intro h
  have h1 := congrArg String.data h
  simp only [String.data_append, List.append_assoc] at h1
  have h2 := List.append_cancel_left (List.append_cancel_left (List.append_cancel_left
    (List.append_cancel_left h1)))
  have h3 : ("(prefix)" : String).data ++ (("\n" : String).data ++ b.data)
      = ("(p" : String).data ++ ('r' :: ("efix)" : String).data ++ (("\n" : String).data ++ b.data)) :=
    rfl
  have h4 : ("(postfix)" : String).data ++ (("\n" : String).data ++ b.data)
      = ("(p" : String).data ++ ('o' :: ("stfix)" : String).data ++ (("\n" : String).data ++ b.data)) :=
    rfl
  rw [h3, h4] at h2
  have h5 := (List.cons.inj (List.append_cancel_left h2)).1
  exact absurd h5 (by decide)

theorem print_statements_texts (items : List Ptr) (depth : Int) (texts : List String)
    (h : item_texts items depth texts) :
    print_statements items depth = some (concat_texts texts) := by
  induction h with
  | nil => rfl
  | cons hx _ ih => simp [print_statements, emitAll, hx, ih, concat_texts]

theorem print_for_statement (i t u b : Ptr) (w : World) (d : Nat) :
    print_ast (some (create_for_statement i t u b w).1) d
      = emitAll [some (spaces (2 * d) ++ "ForStatement\n"),
                 optional_section d "Init:" i,
                 optional_section d "Test:" t,
                 optional_section d "Update:" u,
                 (print_ast b ((d : Int) + 2)).map
                   (fun x => spaces (2 * (d + 1)) ++ "Body:" ++ "\n" ++ x)] := by
  simp only [create_for_statement, create_node, malloc, ASTNode.setData, print_ast,
    print_node, node_type_name, print_indent_nat, optional_section, section_text_eq,
    String.append_assoc]
  have hb : (print_ast b ((d : Int) + 2)).map
        (fun x => spaces (2 * (d + 1)) ++ ("Body:" ++ ("\n" ++ x)))
      = labelled d "Body:\n" (print_ast b ((d : Int) + 2)) := by
    cases print_ast b ((d : Int) + 2) with
    | none => rfl
    | some s =>
      simp only [Option.map_some', labelled, print_indent_nat_succ, String.append_assoc]
      rfl
  rw [hb]
  rfl

theorem print_for_body_only (b : Ptr) (hdr mid : String) (d : Nat) :
    emitAll [some hdr, some mid,
        some "", some "",
        (print_ast b ((d : Int) + 2)).map
          (fun x => spaces (2 * (d + 1)) ++ "Body:" ++ "\n" ++ x)]
      = (print_ast b ((d : Int) + 2)).map (fun x =>
          hdr ++ mid ++ spaces (2 * (d + 1)) ++ "Body:\n" ++ x) := by
  cases print_ast b ((d : Int) + 2) with
  | none => rfl
  | some s =>
    simp only [emitAll, Option.map_some', String.append_assoc, String.append_empty,
      String.empty_append]
    rfl

set_option maxHeartbeats 4000000 in
theorem built_literal_kind_ok (n : ASTNode) (h : built_node n) : literal_kind_ok n := by
  obtain ⟨t, l, c, a, dt⟩ := n
  cases dt with
  | literal blk kind value =>
    cases t <;> first
      | exact False.elim h
      | (refine ⟨fun _ => ⟨_, _, _, rfl⟩, ?_⟩
         intro blk1 kind1 value1 e
         simp only [ASTNode.data, Data.literal.injEq] at e
         obtain ⟨_, rfl, rfl⟩ := e
         refine ⟨rfl, ?_⟩
         cases kind <;> cases value <;> first
           | exact False.elim h
           | exact ⟨by decide, Or.inl ⟨rfl, rfl⟩⟩
           | exact ⟨by decide, Or.inr (Or.inl ⟨rfl, _, rfl⟩)⟩
           | exact ⟨by decide, Or.inr (Or.inr (Or.inl ⟨rfl, _, rfl⟩))⟩
           | exact ⟨by decide, Or.inr (Or.inr (Or.inr ⟨rfl, _, rfl⟩))⟩)
  | _ =>
    cases t <;> first
      | exact False.elim h
      | (refine ⟨?_, ?_⟩
         · intro e
           exact NodeType.noConfusion e
         · intro blk1 kind1 value1 e
           exact Data.noConfusion e)

theorem literal_true_ne_false (a : String) :
    a ++ "Literal true\n" ≠ a ++ "Literal false\n" := by
  intro h
  have h1 := congrArg String.data h
  simp only [String.data_append] at h1
  exact absurd (List.append_cancel_left h1) (by decide)

/-- C31: the four literal builders make nodes of kind null, boolean, number
and string, and in every tree made by builder calls only, the items left
unlinked by `append_statement` included, every literal node has one of these
four kinds, with the matching member of `value`, and never the kind bigint.
`create_null_literal` is printed as "Literal null"; `create_boolean_literal(v)`
is printed as "Literal true" exactly when v is not 0, and as "Literal false"
when v = 0. -/
theorem C31_literal_kinds (v : Int) (s : String) (w : World) (d : Nat) :
    (∃ blk, (create_null_literal w).1.data = .literal blk .LIT_NULL .zero)
    ∧ (∃ blk, (create_boolean_literal v w).1.data = .literal blk .LIT_BOOLEAN (.boolean v))
    ∧ (∃ blk t, t.text = s
        ∧ (create_number_literal s w).1.data = .literal blk .LIT_NUMBER (.string t))
    ∧ (∃ blk t, t.text = s
        ∧ (create_string_literal s w).1.data = .literal blk .LIT_STRING (.string t))
    ∧ (∀ (b : Build) (p : Ptr) (w1 : World) (dr : List Ptr), b.run w = some (p, w1, dr) →
        each_ptr literal_kind_ok p ∧ ∀ q ∈ dr, each_ptr literal_kind_ok q)
    ∧ print_ast (some (create_null_literal w).1) d = some (spaces (2 * d) ++ "Literal null\n")
    ∧ (v ≠ 0 →
        print_ast (some (create_boolean_literal v w).1) d
          = some (spaces (2 * d) ++ "Literal true\n"))
    ∧ (v = 0 →
        print_ast (some (create_boolean_literal v w).1) d
          = some (spaces (2 * d) ++ "Literal false\n"))
    ∧ (print_ast (some (create_boolean_literal v w).1) d
          = some (spaces (2 * d) ++ "Literal true\n") ↔ v ≠ 0) := by
  have hb : print_ast (some (create_boolean_literal v w).1) d
      = some (spaces (2 * d) ++ "Literal"
          ++ (" " ++ (if v ≠ 0 then "true" else "false") ++ "\n")) := by
    simp only [create_boolean_literal, create_node, malloc, ASTNode.setData, print_ast,
      print_node, node_type_name, print_indent_nat, String.append_assoc]
  have ht : v ≠ 0 → print_ast (some (create_boolean_literal v w).1) d
      = some (spaces (2 * d) ++ "Literal true\n") := by
    intro hv
    rw [hb]
    simp only [hv, ne_eq, not_false_eq_true, if_true, String.append_assoc]
    rfl
  have hf : v = 0 → print_ast (some (create_boolean_literal v w).1) d
      = some (spaces (2 * d) ++ "Literal false\n") := by
    intro hv
    rw [hb]
    simp only [hv, ne_eq, not_true_eq_false, if_false, String.append_assoc]
    rfl
  refine ⟨⟨_, rfl⟩, ⟨_, rfl⟩, ⟨_, _, rfl, rfl⟩, ⟨_, _, rfl, rfl⟩, ?_, ?_, ht, hf, ?_⟩
  · intro b p w1 dr hrun
    obtain ⟨hp, hd⟩ := build_made b w p w1 dr hrun
    exact ⟨each_ptr_mono built_literal_kind_ok p hp,
      fun q hq => each_ptr_mono built_literal_kind_ok q (hd q hq)⟩
  · simp only [create_null_literal, create_node, malloc, ASTNode.setData, print_ast,
      print_node, node_type_name, print_indent_nat, String.append_assoc]
    rfl
  · constructor
    · intro h hv
      rw [hf hv] at h
      exact literal_true_ne_false (spaces (2 * d)) (Option.some.inj h).symm
    · exact ht

/-- C31 at the program `null; true; 1; "s";`. -/
theorem C31_literal_kinds_witness :
    literals_build.run World.init = some literals_built
    ∧ each_ptr literal_kind_ok literals_built.1
    ∧ print_ast literals_built.1 0
      = some ("Program\n  StatementList (4 statements)\n"
          ++ "    ExpressionStatement\n      Literal null\n"
          ++ "    ExpressionStatement\n      Literal true\n"
          ++ "    ExpressionStatement\n      Literal (number) 1\n"
          ++ "    ExpressionStatement\n      Literal (string) s\n")
    ∧ (1 : Int) ≠ 0
    ∧ print_ast (some (create_boolean_literal 1 World.init).1) 0
      = some (spaces (2 * 0) ++ "Literal true\n") :=
  have hrun : literals_build.run World.init = some literals_built := rfl
  ⟨hrun,
    ((C31_literal_kinds 1 "s" World.init 0).2.2.2.2.1 literals_build literals_built.1
      literals_built.2.1 literals_built.2.2 hrun).1,
    rfl, by decide, (C31_literal_kinds 1 "s" World.init 0).2.2.2.2.2.2.1 (by decide)⟩

end JsAst
